import Mathlib

/-!
The package mb-tapi: a shallow embedding of the TAPI client.

The Go package `tapi` (files `api.go`, `client.go`, `types.go`, `unmarshal.go`)
is embedded as Lean definitions.  Go values of type `int` are modelled as `Int`,
Go strings as `String`, Go pointers that the code tests against `nil` as
`Option`, and a Go result pair `(T, error)` as `Except GoError T`: a return
`nil, err` is `Except.error err` and a return `value, nil` is `Except.ok value`.
Side effects (reading the wall clock, handing a request to the HTTP transport)
are made explicit by passing a `World` through every operation; what lies
outside the package (clock, URL parser, digest, JSON decoder, Unicode tables) is
collected in an `Env`.
-/

set_option autoImplicit false

namespace Tapi

/-! ## Standard-library pieces used by the package -/

namespace strconv

/-- Go `strconv.FormatInt(i, base)` for bases up to 16: the digits of `i` in the
given base, with a leading minus sign for negative numbers. -/
def FormatInt (i : Int) (base : Nat) : String :=
  match i with
  | Int.ofNat n => String.mk (Nat.toDigits base n)
  | Int.negSucc n => "-" ++ String.mk (Nat.toDigits base (n + 1))

/-- Go `strconv.Itoa(i)`, which is `FormatInt(int64(i), 10)`. -/
def Itoa (i : Int) : String :=
  FormatInt i 10

end strconv

namespace url

/-- The `Path` and neighbouring fields of a parsed Go `url.URL`. -/
structure URL where
  Scheme : String
  Host : String
  Path : String
  RawQuery : String
  deriving DecidableEq, Repr

/-- The UTF-8 bytes of one character; a Go string is its byte sequence. -/
def utf8Bytes (c : Char) : List Nat :=
  let n := c.toNat
  if n < 0x80 then [n]
  else if n < 0x800 then [0xC0 + n / 64, 0x80 + n % 64]
  else if n < 0x10000 then [0xE0 + n / 4096, 0x80 + n / 64 % 64, 0x80 + n % 64]
  else [0xF0 + n / 262144, 0x80 + n / 4096 % 64, 0x80 + n / 64 % 64, 0x80 + n % 64]

/-- Go `shouldEscape(c, encodeQueryComponent)`: only ASCII letters, digits and
the marks `-`, `_`, `.`, `~` stay unescaped. -/
def shouldEscape (b : Nat) : Bool :=
  !((97 ≤ b && b ≤ 122) || (65 ≤ b && b ≤ 90) || (48 ≤ b && b ≤ 57) ||
    b == 45 || b == 95 || b == 46 || b == 126)

/-- The digit of `n < 16` in Go's `upperhex` alphabet. -/
def upperhex (n : Nat) : Char :=
  "0123456789ABCDEF".data.getD n '0'

/-- The escape of one byte in Go `escape(s, encodeQueryComponent)`: a space
becomes `+`, any other byte to escape becomes `%XX`. -/
def escapeByte (b : Nat) : List Char :=
  if shouldEscape b then
    if b = 32 then ['+'] else ['%', upperhex (b / 16), upperhex (b % 16)]
  else [Char.ofNat b]

/-- Go `url.QueryEscape`. -/
def QueryEscape (s : String) : String :=
  String.mk ((s.data.flatMap utf8Bytes).flatMap escapeByte)

end url

/-- Go `url.Values`, a `map[string][]string`: every key is bound at most once,
to the list of its values.  The order of the entries carries no meaning; all
observations go through `Values.find` or the key-sorted `Values.Encode`. -/
structure Values where
  entries : List (String × List String)
  deriving DecidableEq, Repr

namespace Values

/-- Go `make(url.Values)`: the empty map. -/
def empty : Values := ⟨[]⟩

/-- Go map indexing `v[key]` with the presence flag: the values bound to `key`,
or `none` when the key is absent. -/
def find (v : Values) (key : String) : Option (List String) :=
  v.entries.lookup key

/-- Go `Values.Has`. -/
def Has (v : Values) (key : String) : Bool :=
  (v.find key).isSome

/-- Go `Values.Get`: the first value bound to `key`, or the empty string. -/
def Get (v : Values) (key : String) : String :=
  match v.find key with
  | some (x :: _) => x
  | _ => ""

/-- Go `Values.Set`: `v[key] = []string{value}`, replacing any earlier binding. -/
def Set (v : Values) (key value : String) : Values :=
  ⟨(key, [value]) :: v.entries.filter (fun p => p.1 != key)⟩

/-- Go `Values.Add`: `v[key] = append(v[key], value)`. -/
def Add (v : Values) (key value : String) : Values :=
  ⟨(key, (v.find key).getD [] ++ [value]) :: v.entries.filter (fun p => p.1 != key)⟩

/-- The keys bound in the map. -/
def keys (v : Values) : List String :=
  (v.entries.map Prod.fst).dedup

/-- Go `Values.Encode`: the bindings as `key=value` joined by `&`, both sides
query-escaped, the keys in increasing order (the order of strings, spelled on
their characters) and the values of one key in their stored order. -/
def Encode (v : Values) : String :=
  "&".intercalate
    ((v.keys.insertionSort (fun a b => a.data < b.data)).flatMap fun k =>
      ((v.find k).getD []).map fun x => url.QueryEscape k ++ "=" ++ url.QueryEscape x)

end Values

/-! ## The digest: SHA-512, HMAC and hex, after FIPS 180-4 and RFC 2104

Bytes are numbers below 256 and 64-bit words are numbers below `2 ^ 64`; every
addition of words is reduced modulo `2 ^ 64`. -/

/-- Go `[]byte(s)`: the UTF-8 bytes of a string. -/
def bytesOf (s : String) : List Nat :=
  s.data.flatMap url.utf8Bytes

namespace sha512

/-- The round constants of SHA-512 (FIPS 180-4, section 4.2.3). -/
def K : List Nat :=
  [
   0x428a2f98d728ae22, 0x7137449123ef65cd, 0xb5c0fbcfec4d3b2f, 0xe9b5dba58189dbbc,
   0x3956c25bf348b538, 0x59f111f1b605d019, 0x923f82a4af194f9b, 0xab1c5ed5da6d8118,
   0xd807aa98a3030242, 0x12835b0145706fbe, 0x243185be4ee4b28c, 0x550c7dc3d5ffb4e2,
   0x72be5d74f27b896f, 0x80deb1fe3b1696b1, 0x9bdc06a725c71235, 0xc19bf174cf692694,
   0xe49b69c19ef14ad2, 0xefbe4786384f25e3, 0x0fc19dc68b8cd5b5, 0x240ca1cc77ac9c65,
   0x2de92c6f592b0275, 0x4a7484aa6ea6e483, 0x5cb0a9dcbd41fbd4, 0x76f988da831153b5,
   0x983e5152ee66dfab, 0xa831c66d2db43210, 0xb00327c898fb213f, 0xbf597fc7beef0ee4,
   0xc6e00bf33da88fc2, 0xd5a79147930aa725, 0x06ca6351e003826f, 0x142929670a0e6e70,
   0x27b70a8546d22ffc, 0x2e1b21385c26c926, 0x4d2c6dfc5ac42aed, 0x53380d139d95b3df,
   0x650a73548baf63de, 0x766a0abb3c77b2a8, 0x81c2c92e47edaee6, 0x92722c851482353b,
   0xa2bfe8a14cf10364, 0xa81a664bbc423001, 0xc24b8b70d0f89791, 0xc76c51a30654be30,
   0xd192e819d6ef5218, 0xd69906245565a910, 0xf40e35855771202a, 0x106aa07032bbd1b8,
   0x19a4c116b8d2d0c8, 0x1e376c085141ab53, 0x2748774cdf8eeb99, 0x34b0bcb5e19b48a8,
   0x391c0cb3c5c95a63, 0x4ed8aa4ae3418acb, 0x5b9cca4f7763e373, 0x682e6ff3d6b2b8a3,
   0x748f82ee5defb2fc, 0x78a5636f43172f60, 0x84c87814a1f0ab72, 0x8cc702081a6439ec,
   0x90befffa23631e28, 0xa4506cebde82bde9, 0xbef9a3f7b2c67915, 0xc67178f2e372532b,
   0xca273eceea26619c, 0xd186b8c721c0c207, 0xeada7dd6cde0eb1e, 0xf57d4f7fee6ed178,
   0x06f067aa72176fba, 0x0a637dc5a2c898a6, 0x113f9804bef90dae, 0x1b710b35131c471b,
   0x28db77f523047d84, 0x32caab7b40c72493, 0x3c9ebe0a15c9bebc, 0x431d67c49c100d4c,
   0x4cc5d4becb3e42b6, 0x597f299cfc657e2a, 0x5fcb6fab3ad6faec, 0x6c44198c4a475817]

/-- The initial hash value of SHA-512 (FIPS 180-4, section 5.3.5). -/
def H0 : List Nat :=
  [
   0x6a09e667f3bcc908, 0xbb67ae8584caa73b, 0x3c6ef372fe94f82b, 0xa54ff53a5f1d36f1,
   0x510e527fade682d1, 0x9b05688c2b3e6c1f, 0x1f83d9abfb41bd6b, 0x5be0cd19137e2179]

/-- Addition of 64-bit words. -/
def add64 (a b : Nat) : Nat :=
  (a + b) % 18446744073709551616

/-- Rotation to the right of a 64-bit word. -/
def rotr (x n : Nat) : Nat :=
  (x >>> n) ||| ((x <<< (64 - n)) % 18446744073709551616)

/-- The function `Ch`. -/
def Ch (x y z : Nat) : Nat :=
  (x &&& y) ^^^ ((x ^^^ 18446744073709551615) &&& z)

/-- The function `Maj`. -/
def Maj (x y z : Nat) : Nat :=
  (x &&& y) ^^^ ((x &&& z) ^^^ (y &&& z))

/-- The function written with a capital sigma and index 0. -/
def bigSigma0 (x : Nat) : Nat :=
  rotr x 28 ^^^ (rotr x 34 ^^^ rotr x 39)

/-- The function written with a capital sigma and index 1. -/
def bigSigma1 (x : Nat) : Nat :=
  rotr x 14 ^^^ (rotr x 18 ^^^ rotr x 41)

/-- The function written with a small sigma and index 0. -/
def smallSigma0 (x : Nat) : Nat :=
  rotr x 1 ^^^ (rotr x 8 ^^^ (x >>> 7))

/-- The function written with a small sigma and index 1. -/
def smallSigma1 (x : Nat) : Nat :=
  rotr x 19 ^^^ (rotr x 61 ^^^ (x >>> 6))

/-- The padding of a message of `len` bytes: the byte `0x80`, zero bytes up to
112 modulo 128, and the bit length on 16 bytes, most significant first. -/
def padding (len : Nat) : List Nat :=
  128 :: List.replicate ((239 - len % 128) % 128) 0 ++
    (List.range 16).map fun i => ((len * 8) >>> (8 * (15 - i))) % 256

/-- The big-endian 64-bit word of eight bytes. -/
def word (bs : List Nat) : Nat :=
  bs.foldl (fun acc b => acc * 256 + b) 0

/-- The list cut into chunks of `n` items; `fuel` bounds the number of chunks. -/
def chunks {α : Type} (n : Nat) : Nat → List α → List (List α)
  | 0, _ => []
  | _, [] => []
  | fuel + 1, x :: xs => (x :: xs).take n :: chunks n fuel ((x :: xs).drop n)

/-- The message schedule: from the sixteen most recent words, newest first,
`n` further words. -/
def extend : Nat → List Nat → List Nat
  | 0, _ => []
  | n + 1, w =>
    let x := add64 (add64 (smallSigma1 (w.getD 1 0)) (w.getD 6 0))
      (add64 (smallSigma0 (w.getD 14 0)) (w.getD 15 0))
    x :: extend n (x :: w.take 15)

/-- One round on the working variables `a` to `h`, with constant plus schedule
word `kw`. -/
def round (s : List Nat) (kw : Nat) : List Nat :=
  match s with
  | [a, b, c, d, e, f, g, h] =>
    let t1 := add64 (add64 h (bigSigma1 e)) (add64 (Ch e f g) kw)
    let t2 := add64 (bigSigma0 a) (Maj a b c)
    [add64 t1 t2, a, b, c, add64 d t1, e, f, g]
  | _ => s

/-- The compression of one block of 128 bytes into the hash value `h`. -/
def compress (h : List Nat) (block : List Nat) : List Nat :=
  let w16 := (chunks 8 16 block).map word
  let w := w16 ++ extend 64 w16.reverse
  let kw := List.zipWith add64 K w
  List.zipWith add64 h (kw.foldl round h)

/-- The SHA-512 digest of a message given by its bytes, as 64 bytes. -/
def Sum512 (msg : List Nat) : List Nat :=
  let padded := msg ++ padding msg.length
  let h := (chunks 128 (padded.length / 128) padded).foldl compress H0
  h.flatMap fun x => (List.range 8).map fun i => (x >>> (8 * (7 - i))) % 256

end sha512

namespace hmac

/-- HMAC (RFC 2104) over SHA-512, block size 128: a key longer than a block is
hashed first, then padded with zero bytes to a block. -/
def Sum (key msg : List Nat) : List Nat :=
  let k := if key.length > 128 then sha512.Sum512 key else key
  let k := k ++ List.replicate (128 - k.length) 0
  sha512.Sum512 (k.map (fun b => b ^^^ 92) ++ sha512.Sum512 (k.map (fun b => b ^^^ 54) ++ msg))

end hmac

namespace hex

/-- Go `hex.EncodeToString`: two lower-case hex digits per byte. -/
def EncodeToString (bs : List Nat) : String :=
  String.mk (bs.flatMap fun b =>
    ["0123456789abcdef".data.getD (b / 16) '0', "0123456789abcdef".data.getD (b % 16) '0'])

end hex

/-- The value of `hex.EncodeToString(mac.Sum(nil))` for
`mac := hmac.New(sha512.New, []byte(key))` after `mac.Write([]byte(msg))`. -/
def hmacSHA512Hex (key msg : String) : String :=
  hex.EncodeToString (hmac.Sum (bytesOf key) (bytesOf msg))

/-! ## The JSON text format, after RFC 8259 and Go `encoding/json` -/

/-- A Go slice: `none` is the nil slice, `some l` a slice with the items `l`. -/
abbrev Slice (α : Type) := Option (List α)

namespace json

/-- A JSON value.  A number written without fraction and exponent is kept by
its integer value; any other number is kept by its literal text. -/
inductive Value where
  | null
  | bool (b : Bool)
  | num (n : Int)
  | real (lit : String)
  | str (s : String)
  | arr (xs : List Value)
  | obj (ms : List (String × Value))
  deriving Repr

/-- The white space of JSON: space, tab, line feed, carriage return. -/
def isSpace (c : Char) : Bool :=
  c = ' ' || c = '\t' || c = '\n' || c = '\r'

/-- The text without its leading white space. -/
def skipWs : List Char → List Char
  | [] => []
  | c :: r => if isSpace c then skipWs r else c :: r

/-- The value of a hex digit, in either case. -/
def hexVal (c : Char) : Option Nat :=
  if '0' ≤ c ∧ c ≤ '9' then some (c.toNat - 48)
  else if 'a' ≤ c ∧ c ≤ 'f' then some (c.toNat - 87)
  else if 'A' ≤ c ∧ c ≤ 'F' then some (c.toNat - 55)
  else none

/-- The value of four hex digits. -/
def hex4 (a b c d : Char) : Option Nat :=
  match hexVal a, hexVal b, hexVal c, hexVal d with
  | some x, some y, some z, some w => some (((x * 16 + y) * 16 + z) * 16 + w)
  | _, _, _, _ => none

/-- The Unicode replacement character. -/
def replacement : Char := Char.ofNat 0xFFFD

/-- The rune of a `\u` escape, from the text after `\u`: a high surrogate
followed by an escaped low surrogate gives the rune of the pair, any other
surrogate gives the replacement character, as in Go `unquote`. -/
def unescapeU (s : List Char) : Option (Char × List Char) :=
  match s with
  | a :: b :: c :: d :: r =>
    match hex4 a b c d with
    | none => none
    | some n =>
      if 0xD800 ≤ n ∧ n < 0xDC00 then
        match r with
        | e :: u :: a2 :: b2 :: c2 :: d2 :: r2 =>
          if e = '\\' ∧ u = 'u' then
            match hex4 a2 b2 c2 d2 with
            | some m =>
              if 0xDC00 ≤ m ∧ m < 0xE000 then
                some (Char.ofNat (0x10000 + (n - 0xD800) * 0x400 + (m - 0xDC00)), r2)
              else some (replacement, r)
            | none => some (replacement, r)
          else some (replacement, r)
        | _ => some (replacement, r)
      else if 0xDC00 ≤ n ∧ n < 0xE000 then some (replacement, r)
      else some (Char.ofNat n, r)
  | _ => none

/-- The character of an escape, from the text after the backslash. -/
def unescape (s : List Char) : Option (Char × List Char) :=
  match s with
  | [] => none
  | c :: r =>
    if c = '"' then some ('"', r)
    else if c = '\\' then some ('\\', r)
    else if c = '/' then some ('/', r)
    else if c = 'b' then some (Char.ofNat 8, r)
    else if c = 'f' then some (Char.ofNat 12, r)
    else if c = 'n' then some ('\n', r)
    else if c = 'r' then some ('\r', r)
    else if c = 't' then some ('\t', r)
    else if c = 'u' then unescapeU r
    else none

/-- The content of a string literal, from the text after its opening quote, and
the text after its closing quote.  A raw control character ends in an error. -/
def lexString : Nat → List Char → Option (List Char × List Char)
  | 0, _ => none
  | _, [] => none
  | fuel + 1, c :: r =>
    if c = '"' then some ([], r)
    else if c = '\\' then
      match unescape r with
      | none => none
      | some (x, r2) =>
        match lexString fuel r2 with
        | none => none
        | some (cs, r3) => some (x :: cs, r3)
    else if c.toNat < 0x20 then none
    else
      match lexString fuel r with
      | none => none
      | some (cs, r3) => some (c :: cs, r3)

/-- The leading decimal digits of a text, and the rest. -/
def spanDigits : List Char → List Char × List Char
  | [] => ([], [])
  | c :: r =>
    if c.isDigit then ((c :: (spanDigits r).1), (spanDigits r).2) else ([], c :: r)

/-- The number written by decimal digits. -/
def natOfDigits (ds : List Char) : Nat :=
  ds.foldl (fun a c => a * 10 + (c.toNat - 48)) 0

/-- The integer part of a number: a single `0`, or a non-zero digit followed by
digits. -/
def lexIntPart (s : List Char) : Option (List Char × List Char) :=
  match s with
  | [] => none
  | c :: r =>
    if c = '0' then some (['0'], r)
    else if c.isDigit then some (c :: (spanDigits r).1, (spanDigits r).2)
    else none

/-- The optional fraction of a number: a point and at least one digit.  The
result tells whether a fraction was read. -/
def lexFrac (s : List Char) : Option (Bool × List Char) :=
  match s with
  | '.' :: r =>
    match spanDigits r with
    | ([], _) => none
    | (_, r2) => some (true, r2)
  | _ => some (false, s)

/-- The optional exponent of a number: `e` or `E`, an optional sign and at
least one digit.  The result tells whether an exponent was read. -/
def lexExp (s : List Char) : Option (Bool × List Char) :=
  match s with
  | c :: r =>
    if c = 'e' ∨ c = 'E' then
      let r1 := match r with
        | x :: t => if x = '+' ∨ x = '-' then t else r
        | [] => r
      match spanDigits r1 with
      | ([], _) => none
      | (_, r2) => some (true, r2)
    else some (false, s)
  | [] => some (false, s)

/-- A number literal at the head of a text. -/
def lexNumber (s : List Char) : Option (Value × List Char) :=
  let neg := s.head? = some '-'
  let s1 := if neg then s.drop 1 else s
  match lexIntPart s1 with
  | none => none
  | some (ds, r) =>
    match lexFrac r with
    | none => none
    | some (hasFrac, r1) =>
      match lexExp r1 with
      | none => none
      | some (hasExp, r2) =>
        if hasFrac ∨ hasExp then
          some (Value.real (String.mk (s.take (s.length - r2.length))), r2)
        else if neg then some (Value.num (-(natOfDigits ds : Int)), r2)
        else some (Value.num (natOfDigits ds), r2)

mutual

/-- One JSON value at the head of a text, after optional white space, and the
text that follows it.  The fuel bounds the nesting and the number of items. -/
def parseValue : Nat → List Char → Option (Value × List Char)
  | 0, _ => none
  | fuel + 1, s =>
    match skipWs s with
    | [] => none
    | c :: r =>
      if c = '{' then
        match skipWs r with
        | [] => none
        | d :: r2 =>
          if d = '}' then some (Value.obj [], r2)
          else
            match parseMembers fuel (d :: r2) with
            | none => none
            | some (ms, r3) => some (Value.obj ms, r3)
      else if c = '[' then
        match skipWs r with
        | [] => none
        | d :: r2 =>
          if d = ']' then some (Value.arr [], r2)
          else
            match parseElems fuel (d :: r2) with
            | none => none
            | some (xs, r3) => some (Value.arr xs, r3)
      else if c = '"' then
        match lexString r.length r with
        | none => none
        | some (cs, r2) => some (Value.str (String.mk cs), r2)
      else if c = 't' then
        match r with
        | 'r' :: 'u' :: 'e' :: r2 => some (Value.bool true, r2)
        | _ => none
      else if c = 'f' then
        match r with
        | 'a' :: 'l' :: 's' :: 'e' :: r2 => some (Value.bool false, r2)
        | _ => none
      else if c = 'n' then
        match r with
        | 'u' :: 'l' :: 'l' :: r2 => some (Value.null, r2)
        | _ => none
      else lexNumber (c :: r)

/-- The items of an array up to its closing bracket; at least one item. -/
def parseElems : Nat → List Char → Option (List Value × List Char)
  | 0, _ => none
  | fuel + 1, s =>
    match parseValue fuel s with
    | none => none
    | some (x, r) =>
      match skipWs r with
      | [] => none
      | c :: r2 =>
        if c = ']' then some ([x], r2)
        else if c = ',' then
          match parseElems fuel r2 with
          | none => none
          | some (xs, r3) => some (x :: xs, r3)
        else none

/-- The members of an object up to its closing brace; at least one member. -/
def parseMembers : Nat → List Char → Option (List (String × Value) × List Char)
  | 0, _ => none
  | fuel + 1, s =>
    match skipWs s with
    | [] => none
    | q :: r =>
      if q = '"' then
        match lexString r.length r with
        | none => none
        | some (k, r1) =>
          match skipWs r1 with
          | [] => none
          | c :: r2 =>
            if c = ':' then
              match parseValue fuel r2 with
              | none => none
              | some (v, r3) =>
                match skipWs r3 with
                | [] => none
                | d :: r4 =>
                  if d = '}' then some ([(String.mk k, v)], r4)
                  else if d = ',' then
                    match parseMembers fuel r4 with
                    | none => none
                    | some (ms, r5) => some ((String.mk k, v) :: ms, r5)
                  else none
            else none
      else none

end

/-- The value of a JSON text: one value, white space allowed around it and
nothing else after it; `none` for a text that is not valid JSON. -/
def parse (s : String) : Option Value :=
  match parseValue (s.length + 1) s.data with
  | none => none
  | some (v, r) => if skipWs r = [] then some v else none

/-- The digit of `n < 16` in lower-case hex. -/
def lowerhex (n : Nat) : Char :=
  "0123456789abcdef".data.getD n '0'

/-- The text of one character inside a string literal, as Go `Marshal` writes it:
quote and backslash escaped, line feed, carriage return and tab in short form,
the other control characters, `<`, `>`, `&`, U+2028 and U+2029 as `\u` escapes
(Go before 1.22; later versions write U+0008 and U+000C in short form, which
reads back alike). -/
def escapeChar (c : Char) : List Char :=
  if c = '"' then ['\\', '"']
  else if c = '\\' then ['\\', '\\']
  else if c = '\n' then ['\\', 'n']
  else if c = '\r' then ['\\', 'r']
  else if c = '\t' then ['\\', 't']
  else if c.toNat < 0x20 ∨ c = '<' ∨ c = '>' ∨ c = '&' ∨ c.toNat = 0x2028 ∨ c.toNat = 0x2029 then
    ['\\', 'u', lowerhex (c.toNat / 4096), lowerhex (c.toNat / 256 % 16),
      lowerhex (c.toNat / 16 % 16), lowerhex (c.toNat % 16)]
  else [c]

/-- The text of a string literal. -/
def renderString (s : String) : List Char :=
  '"' :: (s.data.flatMap escapeChar ++ ['"'])

mutual

/-- The compact text of a value, as Go `Marshal` writes it. -/
def render : Value → List Char
  | Value.null => ['n', 'u', 'l', 'l']
  | Value.bool true => ['t', 'r', 'u', 'e']
  | Value.bool false => ['f', 'a', 'l', 's', 'e']
  | Value.num n => (strconv.FormatInt n 10).data
  | Value.real lit => lit.data
  | Value.str s => renderString s
  | Value.arr xs => '[' :: renderElems xs
  | Value.obj ms => '{' :: renderMembers ms

/-- The items of an array, separated by commas, and the closing bracket. -/
def renderElems : List Value → List Char
  | [] => [']']
  | [x] => render x ++ [']']
  | x :: y :: ys => render x ++ ',' :: renderElems (y :: ys)

/-- The members of an object, separated by commas, and the closing brace. -/
def renderMembers : List (String × Value) → List Char
  | [] => ['}']
  | [(k, v)] => renderString k ++ ':' :: (render v ++ ['}'])
  | (k, v) :: m :: ms => renderString k ++ ':' :: (render v ++ ',' :: renderMembers (m :: ms))

end

end json

namespace json

/-- Go `int` on a 64-bit platform: the integers from `-2^63` to `2^63 - 1`. -/
def isInt64 (n : Int) : Bool :=
  decide (-9223372036854775808 ≤ n ∧ n ≤ 9223372036854775807)

/-- Go `json.Unmarshal` into an `int`: `null` leaves the old value, an integer
literal within range is stored, anything else is a type error. -/
def decodeInt (v : Value) (old : Int) : Except String Int :=
  match v with
  | Value.null => Except.ok old
  | Value.num n =>
    if isInt64 n then Except.ok n
    else Except.error "json: cannot unmarshal number into Go value of type int"
  | _ => Except.error "json: cannot unmarshal into Go value of type int"

/-- Go `json.Unmarshal` into a `string`. -/
def decodeString (v : Value) (old : String) : Except String String :=
  match v with
  | Value.null => Except.ok old
  | Value.str s => Except.ok s
  | _ => Except.error "json: cannot unmarshal into Go value of type string"

/-- Go `json.Unmarshal` into a `bool`. -/
def decodeBool (v : Value) (old : Bool) : Except String Bool :=
  match v with
  | Value.null => Except.ok old
  | Value.bool b => Except.ok b
  | _ => Except.error "json: cannot unmarshal into Go value of type bool"

/-- The items of a JSON array decoded one by one; the first error wins. -/
def decodeElems {α : Type} (dec : Value → Except String α) : List Value → Except String (List α)
  | [] => Except.ok []
  | x :: xs =>
    match dec x with
    | Except.error e => Except.error e
    | Except.ok a =>
      match decodeElems dec xs with
      | Except.error e => Except.error e
      | Except.ok as => Except.ok (a :: as)

/-- Go `json.Unmarshal` into a slice: `null` gives the nil slice, an array gives
the slice of its decoded items, anything else is a type error. -/
def decodeSlice {α : Type} (dec : Value → Except String α) (v : Value) :
    Except String (Slice α) :=
  match v with
  | Value.null => Except.ok none
  | Value.arr xs => (decodeElems dec xs).map some
  | _ => Except.error "json: cannot unmarshal into Go value of slice type"

/-- Go `json.Marshal` of a slice: `null` for the nil slice, else an array. -/
def encodeSlice {α : Type} (enc : α → Value) (s : Slice α) : Value :=
  match s with
  | none => Value.null
  | some l => Value.arr (l.map enc)

/-- Every item of the slice satisfies `p`. -/
def sliceAll {α : Type} (p : α → Bool) (s : Slice α) : Bool :=
  match s with
  | none => true
  | some l => l.all p

/-- The members of a JSON object applied in order to a struct; the first error
wins. -/
def decodeFields {α : Type} (set : α → String → Value → Except String α) :
    List (String × Value) → α → Except String α
  | [], a => Except.ok a
  | (k, v) :: ms, a =>
    match set a k v with
    | Except.error e => Except.error e
    | Except.ok b => decodeFields set ms b

/-- Go `json.Unmarshal` into a struct: `null` leaves the old value, an object
is applied member by member, anything else is a type error. -/
def decodeStruct {α : Type} (set : α → String → Value → Except String α) (v : Value) (old : α) :
    Except String α :=
  match v with
  | Value.null => Except.ok old
  | Value.obj ms => decodeFields set ms old
  | _ => Except.error "json: cannot unmarshal into Go value of struct type"

/-- The case folding under which Go matches an object key with a field name;
on the names of this package, which are ASCII, it is the folding of the ASCII
letters, of U+017F to `S` and of U+212A to `K`. -/
def foldRune (c : Char) : Char :=
  if 'a' ≤ c ∧ c ≤ 'z' then Char.ofNat (c.toNat - 32)
  else if c.toNat = 0x17F then 'S'
  else if c.toNat = 0x212A then 'K'
  else c

/-- The object key `key` matches the field name `name`, exactly or up to case. -/
def equalFold (key name : String) : Bool :=
  key.data.map foldRune == name.data.map foldRune

/-- Go `json.Unmarshal(data, &into)`: the text must be valid JSON, and its value
is then decoded into `into`. -/
def Unmarshal {α : Type} (decode : Value → α → Except String α) (data : String) (into : α) :
    Except String α :=
  match parse data with
  | none => Except.error "invalid character in JSON text"
  | some v => decode v into

/-- Go `json.Marshal` of a value whose JSON form is `v`: the compact text. -/
def Marshal (v : Value) : String :=
  String.mk (render v)

end json

/-! ## `types.go`: the data model -/

/-- Go `type Coin uint8`. -/
abbrev Coin := Fin 256

/-- The constant `BRL Coin = iota`. -/
def BRL : Coin := 0

/-- The constant `BTC`. -/
def BTC : Coin := 1

/-- The constant `LTC`. -/
def LTC : Coin := 2

/-- The constant `BCH`. -/
def BCH : Coin := 3

/-- The constant `XRP`. -/
def XRP : Coin := 4

/-- The constant `ETH`. -/
def ETH : Coin := 5

/-- Go `Response`, the envelope of every answer; `Data` is the raw JSON of
`response_data`. -/
structure Response where
  Data : String
  StatusCode : Int
  ErrorMessage : String
  ServerUnixTimestamp : String
  deriving DecidableEq, Repr

/-- Go `SystemMessage`. -/
structure SystemMessage where
  MsgDate : String
  Level : String
  EventCode : Int
  MsgContent : String
  deriving DecidableEq, Repr

/-- Go `Amount`. -/
structure Amount where
  Available : String
  Total : String
  deriving DecidableEq, Repr

/-- Go `BalanceCrypto`, which embeds `Amount`. -/
structure BalanceCrypto extends Amount where
  OpenOrders : Int
  deriving DecidableEq, Repr

/-- The anonymous struct of the field `AccountInfo.Balance`. -/
structure Balance where
  BCH : BalanceCrypto
  BRL : Amount
  BTC : BalanceCrypto
  ETH : BalanceCrypto
  LTC : BalanceCrypto
  XRP : BalanceCrypto
  deriving DecidableEq, Repr

/-- The anonymous struct of the field `AccountInfo.WithdrawalLimits`. -/
structure WithdrawalLimits where
  BCH : Amount
  BRL : Amount
  BTC : Amount
  ETH : Amount
  LTC : Amount
  XRP : Amount
  deriving DecidableEq, Repr

/-- Go `AccountInfo`. -/
structure AccountInfo where
  Balance : Balance
  WithdrawalLimits : WithdrawalLimits
  deriving DecidableEq, Repr

/-- Go `Operation`. -/
structure Operation where
  ID : Int
  Quantity : String
  Price : String
  FeeRate : String
  ExecutedTimestamp : String
  deriving DecidableEq, Repr

/-- Go `Order`; the field `Type` is spelled `Type_`. -/
structure Order where
  ID : Int
  CoinPair : String
  Type_ : Int
  Status : Int
  HasFills : Bool
  Quantity : String
  LimitPrice : String
  ExecutedQuantity : String
  ExecutedPriceAvg : String
  Fee : String
  CreatedTimestamp : String
  UpdatedTimestamp : String
  Operations : Slice Operation
  deriving DecidableEq, Repr

/-- Go `OrderInfo`. -/
structure OrderInfo where
  OrderID : Int
  Quantity : String
  LimitPrice : String
  IsOwner : Bool
  deriving DecidableEq, Repr

/-- Go `Orderbook`. -/
structure Orderbook where
  Bids : Slice OrderInfo
  Asks : Slice OrderInfo
  LatestOrderID : Int
  deriving DecidableEq, Repr

/-- Go `Withdrawal`. -/
structure Withdrawal where
  ID : Int
  Coin : String
  Quantity : String
  NetQuantity : String
  Fee : String
  Account : String
  Address : String
  Status : Int
  Tx : String
  DestinationTag : Int
  CreatedTimestamp : String
  UpdatedTimestamp : String
  deriving DecidableEq, Repr

/-! ## `unmarshal.go`: the one-key wrappers -/

/-- Go `listSystemMessagesResponse`. -/
structure listSystemMessagesResponse where
  Messages : Slice SystemMessage
  deriving DecidableEq, Repr

/-- Go `listOrdersResponse`. -/
structure listOrdersResponse where
  Orders : Slice Order
  deriving DecidableEq, Repr

/-- Go `listOrderbookResponse`, which embeds `Orderbook`. -/
structure listOrderbookResponse where
  Orderbook : Orderbook
  deriving DecidableEq, Repr

/-- Go `orderResponse`, which embeds `Order`. -/
structure orderResponse where
  Order : Order
  deriving DecidableEq, Repr

/-- Go `withdrawalResponse`, which embeds `Withdrawal`. -/
structure withdrawalResponse where
  Withdrawal : Withdrawal
  deriving DecidableEq, Repr

/-! ## The JSON form of the data model: field names and `omitempty` tags -/

/-- The zero value of Go `SystemMessage`. -/
def SystemMessage.zero : SystemMessage :=
  { MsgDate := "", Level := "", EventCode := 0, MsgContent := "" }

/-- The effect of one member `key: v` of a JSON object decoded into a
`SystemMessage`: the field whose JSON name matches the key takes the value, any other
key is ignored. -/
def SystemMessage.setField (o : SystemMessage) (key : String) (v : json.Value) : Except String SystemMessage :=
  if json.equalFold key "msg_date" then
    (json.decodeString v o.MsgDate).map fun x => { o with MsgDate := x }
  else if json.equalFold key "level" then
    (json.decodeString v o.Level).map fun x => { o with Level := x }
  else if json.equalFold key "event_code" then
    (json.decodeInt v o.EventCode).map fun x => { o with EventCode := x }
  else if json.equalFold key "msg_content" then
    (json.decodeString v o.MsgContent).map fun x => { o with MsgContent := x }
  else Except.ok o

/-- Go `json.Unmarshal` of a parsed value into a `SystemMessage`. -/
def SystemMessage.decode (v : json.Value) (old : SystemMessage) : Except String SystemMessage :=
  json.decodeStruct SystemMessage.setField v old

/-- The JSON object that Go `json.Marshal` writes for a `SystemMessage`. -/
def SystemMessage.toJSON (o : SystemMessage) : json.Value :=
  json.Value.obj
    [("msg_date", json.Value.str o.MsgDate),
     ("level", json.Value.str o.Level),
     ("event_code", json.Value.num o.EventCode),
     ("msg_content", json.Value.str o.MsgContent)]

/-- Every `int` inside the `SystemMessage` is a 64-bit integer. -/
def SystemMessage.wf (o : SystemMessage) : Bool :=
  json.isInt64 o.EventCode

/-- The zero value of Go `Amount`. -/
def Amount.zero : Amount :=
  { Available := "", Total := "" }

/-- The effect of one member `key: v` of a JSON object decoded into an
`Amount`: the field whose JSON name matches the key takes the value, any other
key is ignored. -/
def Amount.setField (o : Amount) (key : String) (v : json.Value) : Except String Amount :=
  if json.equalFold key "available" then
    (json.decodeString v o.Available).map fun x => { o with Available := x }
  else if json.equalFold key "total" then
    (json.decodeString v o.Total).map fun x => { o with Total := x }
  else Except.ok o

/-- Go `json.Unmarshal` of a parsed value into an `Amount`. -/
def Amount.decode (v : json.Value) (old : Amount) : Except String Amount :=
  json.decodeStruct Amount.setField v old

/-- The JSON object that Go `json.Marshal` writes for an `Amount`. -/
def Amount.toJSON (o : Amount) : json.Value :=
  json.Value.obj
    [("available", json.Value.str o.Available),
     ("total", json.Value.str o.Total)]

/-- The zero value of Go `BalanceCrypto`. -/
def BalanceCrypto.zero : BalanceCrypto :=
  { Available := "", Total := "", OpenOrders := 0 }

/-- The effect of one member `key: v` of a JSON object decoded into a
`BalanceCrypto`: the field whose JSON name matches the key takes the value, any other
key is ignored. -/
def BalanceCrypto.setField (o : BalanceCrypto) (key : String) (v : json.Value) : Except String BalanceCrypto :=
  if json.equalFold key "available" then
    (json.decodeString v o.Available).map fun x => { o with Available := x }
  else if json.equalFold key "total" then
    (json.decodeString v o.Total).map fun x => { o with Total := x }
  else if json.equalFold key "amount_open_orders" then
    (json.decodeInt v o.OpenOrders).map fun x => { o with OpenOrders := x }
  else Except.ok o

/-- Go `json.Unmarshal` of a parsed value into a `BalanceCrypto`. -/
def BalanceCrypto.decode (v : json.Value) (old : BalanceCrypto) : Except String BalanceCrypto :=
  json.decodeStruct BalanceCrypto.setField v old

/-- The JSON object that Go `json.Marshal` writes for a `BalanceCrypto`. -/
def BalanceCrypto.toJSON (o : BalanceCrypto) : json.Value :=
  json.Value.obj
    [("available", json.Value.str o.Available),
     ("total", json.Value.str o.Total),
     ("amount_open_orders", json.Value.num o.OpenOrders)]

/-- Every `int` inside the `BalanceCrypto` is a 64-bit integer. -/
def BalanceCrypto.wf (o : BalanceCrypto) : Bool :=
  json.isInt64 o.OpenOrders

/-- The zero value of Go `Balance`. -/
def Balance.zero : Balance :=
  { BCH := BalanceCrypto.zero, BRL := Amount.zero, BTC := BalanceCrypto.zero, ETH := BalanceCrypto.zero, LTC := BalanceCrypto.zero, XRP := BalanceCrypto.zero }

/-- The effect of one member `key: v` of a JSON object decoded into a
`Balance`: the field whose JSON name matches the key takes the value, any other
key is ignored. -/
def Balance.setField (o : Balance) (key : String) (v : json.Value) : Except String Balance :=
  if json.equalFold key "bch" then
    (BalanceCrypto.decode v o.BCH).map fun x => { o with BCH := x }
  else if json.equalFold key "brl" then
    (Amount.decode v o.BRL).map fun x => { o with BRL := x }
  else if json.equalFold key "btc" then
    (BalanceCrypto.decode v o.BTC).map fun x => { o with BTC := x }
  else if json.equalFold key "eth" then
    (BalanceCrypto.decode v o.ETH).map fun x => { o with ETH := x }
  else if json.equalFold key "ltc" then
    (BalanceCrypto.decode v o.LTC).map fun x => { o with LTC := x }
  else if json.equalFold key "xrp" then
    (BalanceCrypto.decode v o.XRP).map fun x => { o with XRP := x }
  else Except.ok o

/-- Go `json.Unmarshal` of a parsed value into a `Balance`. -/
def Balance.decode (v : json.Value) (old : Balance) : Except String Balance :=
  json.decodeStruct Balance.setField v old

/-- The JSON object that Go `json.Marshal` writes for a `Balance`. -/
def Balance.toJSON (o : Balance) : json.Value :=
  json.Value.obj
    [("bch", BalanceCrypto.toJSON o.BCH),
     ("brl", Amount.toJSON o.BRL),
     ("btc", BalanceCrypto.toJSON o.BTC),
     ("eth", BalanceCrypto.toJSON o.ETH),
     ("ltc", BalanceCrypto.toJSON o.LTC),
     ("xrp", BalanceCrypto.toJSON o.XRP)]

/-- Every `int` inside the `Balance` is a 64-bit integer. -/
def Balance.wf (o : Balance) : Bool :=
  BalanceCrypto.wf o.BCH && BalanceCrypto.wf o.BTC && BalanceCrypto.wf o.ETH && BalanceCrypto.wf o.LTC && BalanceCrypto.wf o.XRP

/-- The zero value of Go `WithdrawalLimits`. -/
def WithdrawalLimits.zero : WithdrawalLimits :=
  { BCH := Amount.zero, BRL := Amount.zero, BTC := Amount.zero, ETH := Amount.zero, LTC := Amount.zero, XRP := Amount.zero }

/-- The effect of one member `key: v` of a JSON object decoded into a
`WithdrawalLimits`: the field whose JSON name matches the key takes the value, any other
key is ignored. -/
def WithdrawalLimits.setField (o : WithdrawalLimits) (key : String) (v : json.Value) : Except String WithdrawalLimits :=
  if json.equalFold key "bch" then
    (Amount.decode v o.BCH).map fun x => { o with BCH := x }
  else if json.equalFold key "brl" then
    (Amount.decode v o.BRL).map fun x => { o with BRL := x }
  else if json.equalFold key "btc" then
    (Amount.decode v o.BTC).map fun x => { o with BTC := x }
  else if json.equalFold key "eth" then
    (Amount.decode v o.ETH).map fun x => { o with ETH := x }
  else if json.equalFold key "ltc" then
    (Amount.decode v o.LTC).map fun x => { o with LTC := x }
  else if json.equalFold key "xrp" then
    (Amount.decode v o.XRP).map fun x => { o with XRP := x }
  else Except.ok o

/-- Go `json.Unmarshal` of a parsed value into a `WithdrawalLimits`. -/
def WithdrawalLimits.decode (v : json.Value) (old : WithdrawalLimits) : Except String WithdrawalLimits :=
  json.decodeStruct WithdrawalLimits.setField v old

/-- The JSON object that Go `json.Marshal` writes for a `WithdrawalLimits`. -/
def WithdrawalLimits.toJSON (o : WithdrawalLimits) : json.Value :=
  json.Value.obj
    [("bch", Amount.toJSON o.BCH),
     ("brl", Amount.toJSON o.BRL),
     ("btc", Amount.toJSON o.BTC),
     ("eth", Amount.toJSON o.ETH),
     ("ltc", Amount.toJSON o.LTC),
     ("xrp", Amount.toJSON o.XRP)]

/-- The zero value of Go `AccountInfo`. -/
def AccountInfo.zero : AccountInfo :=
  { Balance := Balance.zero, WithdrawalLimits := WithdrawalLimits.zero }

/-- The effect of one member `key: v` of a JSON object decoded into an
`AccountInfo`: the field whose JSON name matches the key takes the value, any other
key is ignored. -/
def AccountInfo.setField (o : AccountInfo) (key : String) (v : json.Value) : Except String AccountInfo :=
  if json.equalFold key "balance" then
    (Balance.decode v o.Balance).map fun x => { o with Balance := x }
  else if json.equalFold key "withdrawal_limits" then
    (WithdrawalLimits.decode v o.WithdrawalLimits).map fun x => { o with WithdrawalLimits := x }
  else Except.ok o

/-- Go `json.Unmarshal` of a parsed value into an `AccountInfo`. -/
def AccountInfo.decode (v : json.Value) (old : AccountInfo) : Except String AccountInfo :=
  json.decodeStruct AccountInfo.setField v old

/-- The JSON object that Go `json.Marshal` writes for an `AccountInfo`. -/
def AccountInfo.toJSON (o : AccountInfo) : json.Value :=
  json.Value.obj
    [("balance", Balance.toJSON o.Balance),
     ("withdrawal_limits", WithdrawalLimits.toJSON o.WithdrawalLimits)]

/-- Every `int` inside the `AccountInfo` is a 64-bit integer. -/
def AccountInfo.wf (o : AccountInfo) : Bool :=
  Balance.wf o.Balance

/-- The zero value of Go `Operation`. -/
def Operation.zero : Operation :=
  { ID := 0, Quantity := "", Price := "", FeeRate := "", ExecutedTimestamp := "" }

/-- The effect of one member `key: v` of a JSON object decoded into an
`Operation`: the field whose JSON name matches the key takes the value, any other
key is ignored. -/
def Operation.setField (o : Operation) (key : String) (v : json.Value) : Except String Operation :=
  if json.equalFold key "operation_id" then
    (json.decodeInt v o.ID).map fun x => { o with ID := x }
  else if json.equalFold key "quantity" then
    (json.decodeString v o.Quantity).map fun x => { o with Quantity := x }
  else if json.equalFold key "price" then
    (json.decodeString v o.Price).map fun x => { o with Price := x }
  else if json.equalFold key "fee_rate" then
    (json.decodeString v o.FeeRate).map fun x => { o with FeeRate := x }
  else if json.equalFold key "executed_timestamp" then
    (json.decodeString v o.ExecutedTimestamp).map fun x => { o with ExecutedTimestamp := x }
  else Except.ok o

/-- Go `json.Unmarshal` of a parsed value into an `Operation`. -/
def Operation.decode (v : json.Value) (old : Operation) : Except String Operation :=
  json.decodeStruct Operation.setField v old

/-- The JSON object that Go `json.Marshal` writes for an `Operation`. -/
def Operation.toJSON (o : Operation) : json.Value :=
  json.Value.obj
    [("operation_id", json.Value.num o.ID),
     ("quantity", json.Value.str o.Quantity),
     ("price", json.Value.str o.Price),
     ("fee_rate", json.Value.str o.FeeRate),
     ("executed_timestamp", json.Value.str o.ExecutedTimestamp)]

/-- Every `int` inside the `Operation` is a 64-bit integer. -/
def Operation.wf (o : Operation) : Bool :=
  json.isInt64 o.ID

/-- The zero value of Go `Order`. -/
def Order.zero : Order :=
  { ID := 0, CoinPair := "", Type_ := 0, Status := 0, HasFills := false, Quantity := "", LimitPrice := "", ExecutedQuantity := "", ExecutedPriceAvg := "", Fee := "", CreatedTimestamp := "", UpdatedTimestamp := "", Operations := none }

/-- The effect of one member `key: v` of a JSON object decoded into an
`Order`: the field whose JSON name matches the key takes the value, any other
key is ignored. -/
def Order.setField (o : Order) (key : String) (v : json.Value) : Except String Order :=
  if json.equalFold key "order_id" then
    (json.decodeInt v o.ID).map fun x => { o with ID := x }
  else if json.equalFold key "coin_pair" then
    (json.decodeString v o.CoinPair).map fun x => { o with CoinPair := x }
  else if json.equalFold key "order_type" then
    (json.decodeInt v o.Type_).map fun x => { o with Type_ := x }
  else if json.equalFold key "status" then
    (json.decodeInt v o.Status).map fun x => { o with Status := x }
  else if json.equalFold key "has_fills" then
    (json.decodeBool v o.HasFills).map fun x => { o with HasFills := x }
  else if json.equalFold key "quantity" then
    (json.decodeString v o.Quantity).map fun x => { o with Quantity := x }
  else if json.equalFold key "limit_price" then
    (json.decodeString v o.LimitPrice).map fun x => { o with LimitPrice := x }
  else if json.equalFold key "executed_quantity" then
    (json.decodeString v o.ExecutedQuantity).map fun x => { o with ExecutedQuantity := x }
  else if json.equalFold key "executed_price_avg" then
    (json.decodeString v o.ExecutedPriceAvg).map fun x => { o with ExecutedPriceAvg := x }
  else if json.equalFold key "fee" then
    (json.decodeString v o.Fee).map fun x => { o with Fee := x }
  else if json.equalFold key "created_timestamp" then
    (json.decodeString v o.CreatedTimestamp).map fun x => { o with CreatedTimestamp := x }
  else if json.equalFold key "updated_timestamp" then
    (json.decodeString v o.UpdatedTimestamp).map fun x => { o with UpdatedTimestamp := x }
  else if json.equalFold key "operations" then
    (json.decodeSlice (fun x => Operation.decode x Operation.zero) v).map fun x => { o with Operations := x }
  else Except.ok o

/-- Go `json.Unmarshal` of a parsed value into an `Order`. -/
def Order.decode (v : json.Value) (old : Order) : Except String Order :=
  json.decodeStruct Order.setField v old

/-- The JSON object that Go `json.Marshal` writes for an `Order`. -/
def Order.toJSON (o : Order) : json.Value :=
  json.Value.obj
    [("order_id", json.Value.num o.ID),
     ("coin_pair", json.Value.str o.CoinPair),
     ("order_type", json.Value.num o.Type_),
     ("status", json.Value.num o.Status),
     ("has_fills", json.Value.bool o.HasFills),
     ("quantity", json.Value.str o.Quantity),
     ("limit_price", json.Value.str o.LimitPrice),
     ("executed_quantity", json.Value.str o.ExecutedQuantity),
     ("executed_price_avg", json.Value.str o.ExecutedPriceAvg),
     ("fee", json.Value.str o.Fee),
     ("created_timestamp", json.Value.str o.CreatedTimestamp),
     ("updated_timestamp", json.Value.str o.UpdatedTimestamp),
     ("operations", json.encodeSlice Operation.toJSON o.Operations)]

/-- Every `int` inside the `Order` is a 64-bit integer. -/
def Order.wf (o : Order) : Bool :=
  json.isInt64 o.ID && json.isInt64 o.Type_ && json.isInt64 o.Status && json.sliceAll Operation.wf o.Operations

/-- The zero value of Go `OrderInfo`. -/
def OrderInfo.zero : OrderInfo :=
  { OrderID := 0, Quantity := "", LimitPrice := "", IsOwner := false }

/-- The effect of one member `key: v` of a JSON object decoded into an
`OrderInfo`: the field whose JSON name matches the key takes the value, any other
key is ignored. -/
def OrderInfo.setField (o : OrderInfo) (key : String) (v : json.Value) : Except String OrderInfo :=
  if json.equalFold key "order_id" then
    (json.decodeInt v o.OrderID).map fun x => { o with OrderID := x }
  else if json.equalFold key "quantity" then
    (json.decodeString v o.Quantity).map fun x => { o with Quantity := x }
  else if json.equalFold key "limit_price" then
    (json.decodeString v o.LimitPrice).map fun x => { o with LimitPrice := x }
  else if json.equalFold key "is_owner" then
    (json.decodeBool v o.IsOwner).map fun x => { o with IsOwner := x }
  else Except.ok o

/-- Go `json.Unmarshal` of a parsed value into an `OrderInfo`. -/
def OrderInfo.decode (v : json.Value) (old : OrderInfo) : Except String OrderInfo :=
  json.decodeStruct OrderInfo.setField v old

/-- The JSON object that Go `json.Marshal` writes for an `OrderInfo`. -/
def OrderInfo.toJSON (o : OrderInfo) : json.Value :=
  json.Value.obj
    [("order_id", json.Value.num o.OrderID),
     ("quantity", json.Value.str o.Quantity),
     ("limit_price", json.Value.str o.LimitPrice),
     ("is_owner", json.Value.bool o.IsOwner)]

/-- Every `int` inside the `OrderInfo` is a 64-bit integer. -/
def OrderInfo.wf (o : OrderInfo) : Bool :=
  json.isInt64 o.OrderID

/-- The zero value of Go `Orderbook`. -/
def Orderbook.zero : Orderbook :=
  { Bids := none, Asks := none, LatestOrderID := 0 }

/-- The effect of one member `key: v` of a JSON object decoded into an
`Orderbook`: the field whose JSON name matches the key takes the value, any other
key is ignored. -/
def Orderbook.setField (o : Orderbook) (key : String) (v : json.Value) : Except String Orderbook :=
  if json.equalFold key "bids" then
    (json.decodeSlice (fun x => OrderInfo.decode x OrderInfo.zero) v).map fun x => { o with Bids := x }
  else if json.equalFold key "asks" then
    (json.decodeSlice (fun x => OrderInfo.decode x OrderInfo.zero) v).map fun x => { o with Asks := x }
  else if json.equalFold key "latest_order_id" then
    (json.decodeInt v o.LatestOrderID).map fun x => { o with LatestOrderID := x }
  else Except.ok o

/-- Go `json.Unmarshal` of a parsed value into an `Orderbook`. -/
def Orderbook.decode (v : json.Value) (old : Orderbook) : Except String Orderbook :=
  json.decodeStruct Orderbook.setField v old

/-- The JSON object that Go `json.Marshal` writes for an `Orderbook`. -/
def Orderbook.toJSON (o : Orderbook) : json.Value :=
  json.Value.obj
    [("bids", json.encodeSlice OrderInfo.toJSON o.Bids),
     ("asks", json.encodeSlice OrderInfo.toJSON o.Asks),
     ("latest_order_id", json.Value.num o.LatestOrderID)]

/-- Every `int` inside the `Orderbook` is a 64-bit integer. -/
def Orderbook.wf (o : Orderbook) : Bool :=
  json.sliceAll OrderInfo.wf o.Bids && json.sliceAll OrderInfo.wf o.Asks && json.isInt64 o.LatestOrderID

/-- The zero value of Go `Withdrawal`. -/
def Withdrawal.zero : Withdrawal :=
  { ID := 0, Coin := "", Quantity := "", NetQuantity := "", Fee := "", Account := "", Address := "", Status := 0, Tx := "", DestinationTag := 0, CreatedTimestamp := "", UpdatedTimestamp := "" }

/-- The effect of one member `key: v` of a JSON object decoded into a
`Withdrawal`: the field whose JSON name matches the key takes the value, any other
key is ignored. -/
def Withdrawal.setField (o : Withdrawal) (key : String) (v : json.Value) : Except String Withdrawal :=
  if json.equalFold key "id" then
    (json.decodeInt v o.ID).map fun x => { o with ID := x }
  else if json.equalFold key "coin" then
    (json.decodeString v o.Coin).map fun x => { o with Coin := x }
  else if json.equalFold key "quantity" then
    (json.decodeString v o.Quantity).map fun x => { o with Quantity := x }
  else if json.equalFold key "net_quantity" then
    (json.decodeString v o.NetQuantity).map fun x => { o with NetQuantity := x }
  else if json.equalFold key "fee" then
    (json.decodeString v o.Fee).map fun x => { o with Fee := x }
  else if json.equalFold key "account" then
    (json.decodeString v o.Account).map fun x => { o with Account := x }
  else if json.equalFold key "address" then
    (json.decodeString v o.Address).map fun x => { o with Address := x }
  else if json.equalFold key "status" then
    (json.decodeInt v o.Status).map fun x => { o with Status := x }
  else if json.equalFold key "tx" then
    (json.decodeString v o.Tx).map fun x => { o with Tx := x }
  else if json.equalFold key "destination_tag" then
    (json.decodeInt v o.DestinationTag).map fun x => { o with DestinationTag := x }
  else if json.equalFold key "created_timestamp" then
    (json.decodeString v o.CreatedTimestamp).map fun x => { o with CreatedTimestamp := x }
  else if json.equalFold key "updated_timestamp" then
    (json.decodeString v o.UpdatedTimestamp).map fun x => { o with UpdatedTimestamp := x }
  else Except.ok o

/-- Go `json.Unmarshal` of a parsed value into a `Withdrawal`. -/
def Withdrawal.decode (v : json.Value) (old : Withdrawal) : Except String Withdrawal :=
  json.decodeStruct Withdrawal.setField v old

/-- The JSON object that Go `json.Marshal` writes for a `Withdrawal`; a field
tagged `omitempty` is left out when it holds its zero value. -/
def Withdrawal.toJSON (o : Withdrawal) : json.Value :=
  json.Value.obj
     ([("id", json.Value.num o.ID)] ++
      [("coin", json.Value.str o.Coin)] ++
      [("quantity", json.Value.str o.Quantity)] ++
      (if o.NetQuantity = "" then [] else [("net_quantity", json.Value.str o.NetQuantity)]) ++
      [("fee", json.Value.str o.Fee)] ++
      (if o.Account = "" then [] else [("account", json.Value.str o.Account)]) ++
      (if o.Address = "" then [] else [("address", json.Value.str o.Address)]) ++
      [("status", json.Value.num o.Status)] ++
      (if o.Tx = "" then [] else [("tx", json.Value.str o.Tx)]) ++
      (if o.DestinationTag = 0 then [] else [("destination_tag", json.Value.num o.DestinationTag)]) ++
      [("created_timestamp", json.Value.str o.CreatedTimestamp)] ++
      [("updated_timestamp", json.Value.str o.UpdatedTimestamp)])

/-- Every `int` inside the `Withdrawal` is a 64-bit integer. -/
def Withdrawal.wf (o : Withdrawal) : Bool :=
  json.isInt64 o.ID && json.isInt64 o.Status && json.isInt64 o.DestinationTag

/-- The zero value of Go `listSystemMessagesResponse`. -/
def listSystemMessagesResponse.zero : listSystemMessagesResponse :=
  { Messages := none }

/-- The effect of one member `key: v` of a JSON object decoded into a
`listSystemMessagesResponse`: the field whose JSON name matches the key takes the value, any other
key is ignored. -/
def listSystemMessagesResponse.setField (o : listSystemMessagesResponse) (key : String) (v : json.Value) : Except String listSystemMessagesResponse :=
  if json.equalFold key "messages" then
    (json.decodeSlice (fun x => SystemMessage.decode x SystemMessage.zero) v).map fun x => { o with Messages := x }
  else Except.ok o

/-- Go `json.Unmarshal` of a parsed value into a `listSystemMessagesResponse`. -/
def listSystemMessagesResponse.decode (v : json.Value) (old : listSystemMessagesResponse) : Except String listSystemMessagesResponse :=
  json.decodeStruct listSystemMessagesResponse.setField v old

/-- The JSON object that Go `json.Marshal` writes for a `listSystemMessagesResponse`. -/
def listSystemMessagesResponse.toJSON (o : listSystemMessagesResponse) : json.Value :=
  json.Value.obj
    [("messages", json.encodeSlice SystemMessage.toJSON o.Messages)]

/-- Every `int` inside the `listSystemMessagesResponse` is a 64-bit integer. -/
def listSystemMessagesResponse.wf (o : listSystemMessagesResponse) : Bool :=
  json.sliceAll SystemMessage.wf o.Messages

/-- The zero value of Go `listOrdersResponse`. -/
def listOrdersResponse.zero : listOrdersResponse :=
  { Orders := none }

/-- The effect of one member `key: v` of a JSON object decoded into a
`listOrdersResponse`: the field whose JSON name matches the key takes the value, any other
key is ignored. -/
def listOrdersResponse.setField (o : listOrdersResponse) (key : String) (v : json.Value) : Except String listOrdersResponse :=
  if json.equalFold key "orders" then
    (json.decodeSlice (fun x => Order.decode x Order.zero) v).map fun x => { o with Orders := x }
  else Except.ok o

/-- Go `json.Unmarshal` of a parsed value into a `listOrdersResponse`. -/
def listOrdersResponse.decode (v : json.Value) (old : listOrdersResponse) : Except String listOrdersResponse :=
  json.decodeStruct listOrdersResponse.setField v old

/-- The JSON object that Go `json.Marshal` writes for a `listOrdersResponse`. -/
def listOrdersResponse.toJSON (o : listOrdersResponse) : json.Value :=
  json.Value.obj
    [("orders", json.encodeSlice Order.toJSON o.Orders)]

/-- Every `int` inside the `listOrdersResponse` is a 64-bit integer. -/
def listOrdersResponse.wf (o : listOrdersResponse) : Bool :=
  json.sliceAll Order.wf o.Orders

/-- The zero value of Go `listOrderbookResponse`. -/
def listOrderbookResponse.zero : listOrderbookResponse :=
  { Orderbook := Orderbook.zero }

/-- The effect of one member `key: v` of a JSON object decoded into a
`listOrderbookResponse`: the field whose JSON name matches the key takes the value, any other
key is ignored. -/
def listOrderbookResponse.setField (o : listOrderbookResponse) (key : String) (v : json.Value) : Except String listOrderbookResponse :=
  if json.equalFold key "orderbook" then
    (Orderbook.decode v o.Orderbook).map fun x => { o with Orderbook := x }
  else Except.ok o

/-- Go `json.Unmarshal` of a parsed value into a `listOrderbookResponse`. -/
def listOrderbookResponse.decode (v : json.Value) (old : listOrderbookResponse) : Except String listOrderbookResponse :=
  json.decodeStruct listOrderbookResponse.setField v old

/-- The JSON object that Go `json.Marshal` writes for a `listOrderbookResponse`. -/
def listOrderbookResponse.toJSON (o : listOrderbookResponse) : json.Value :=
  json.Value.obj
    [("orderbook", Orderbook.toJSON o.Orderbook)]

/-- Every `int` inside the `listOrderbookResponse` is a 64-bit integer. -/
def listOrderbookResponse.wf (o : listOrderbookResponse) : Bool :=
  Orderbook.wf o.Orderbook

/-- The zero value of Go `orderResponse`. -/
def orderResponse.zero : orderResponse :=
  { Order := Order.zero }

/-- The effect of one member `key: v` of a JSON object decoded into an
`orderResponse`: the field whose JSON name matches the key takes the value, any other
key is ignored. -/
def orderResponse.setField (o : orderResponse) (key : String) (v : json.Value) : Except String orderResponse :=
  if json.equalFold key "order" then
    (Order.decode v o.Order).map fun x => { o with Order := x }
  else Except.ok o

/-- Go `json.Unmarshal` of a parsed value into an `orderResponse`. -/
def orderResponse.decode (v : json.Value) (old : orderResponse) : Except String orderResponse :=
  json.decodeStruct orderResponse.setField v old

/-- The JSON object that Go `json.Marshal` writes for an `orderResponse`. -/
def orderResponse.toJSON (o : orderResponse) : json.Value :=
  json.Value.obj
    [("order", Order.toJSON o.Order)]

/-- Every `int` inside the `orderResponse` is a 64-bit integer. -/
def orderResponse.wf (o : orderResponse) : Bool :=
  Order.wf o.Order

/-- The zero value of Go `withdrawalResponse`. -/
def withdrawalResponse.zero : withdrawalResponse :=
  { Withdrawal := Withdrawal.zero }

/-- The effect of one member `key: v` of a JSON object decoded into a
`withdrawalResponse`: the field whose JSON name matches the key takes the value, any other
key is ignored. -/
def withdrawalResponse.setField (o : withdrawalResponse) (key : String) (v : json.Value) : Except String withdrawalResponse :=
  if json.equalFold key "withdrawal" then
    (Withdrawal.decode v o.Withdrawal).map fun x => { o with Withdrawal := x }
  else Except.ok o

/-- Go `json.Unmarshal` of a parsed value into a `withdrawalResponse`. -/
def withdrawalResponse.decode (v : json.Value) (old : withdrawalResponse) : Except String withdrawalResponse :=
  json.decodeStruct withdrawalResponse.setField v old

/-- The JSON object that Go `json.Marshal` writes for a `withdrawalResponse`. -/
def withdrawalResponse.toJSON (o : withdrawalResponse) : json.Value :=
  json.Value.obj
    [("withdrawal", Withdrawal.toJSON o.Withdrawal)]

/-- Every `int` inside the `withdrawalResponse` is a 64-bit integer. -/
def withdrawalResponse.wf (o : withdrawalResponse) : Bool :=
  Withdrawal.wf o.Withdrawal

/-! ## Errors -/

/-- Go `Error` of `api.go`: an API error with its code and message. -/
structure Error where
  Code : Int
  Err : String
  deriving DecidableEq, Repr

/-- A non-nil value of the Go interface `error`: either a `*Error` of this
package or an error of any other dynamic type, kept by its message. -/
inductive GoError where
  | api (e : Error)
  | other (msg : String)
  deriving DecidableEq, Repr

namespace errors

/-- Go `errors.New`. -/
def New (text : String) : GoError :=
  GoError.other text

end errors

/-- Go `(*Error).Is`: the type assertion `target.(*Error)` selects the `api`
case; any other dynamic type gives `false`. -/
def Error.Is (e : Error) (target : GoError) : Bool :=
  match target with
  | GoError.api t => e.Code == t.Code || t.Code == 0
  | GoError.other _ => false

/-- The method `Error()` of the interface: `(*Error).Error` returns the field
`Err`; an error of another type returns its message. -/
def GoError.message : GoError → String
  | GoError.api e => e.Err
  | GoError.other msg => msg

/-! ## `api.go`: the order-listing options -/

/-- Go `ListOrdersOpts`.  `StatusList` is the array `[3]int`. -/
structure ListOrdersOpts where
  OrderType : Int := 0
  StatusList : Fin 3 → Int := fun _ => 0
  HasFills : Int := 0
  FromID : Int := 0
  ToID : Int := 0
  FromTimestamp : String := ""
  ToTimestamp : String := ""

/-- The loop of `parseOpts` over `opts.StatusList`: every non-zero slot `i`
appends `strconv.Itoa(i+2) + ","` to the accumulator `sl`. -/
def statusListLoop (StatusList : Fin 3 → Int) : String :=
  (List.finRange 3).foldl
    (fun sl i => if StatusList i ≠ 0 then sl ++ (strconv.Itoa ((i.val : Int) + 2) ++ ",") else sl)
    ""

/-- Go `sl[:len(sl)-1]`: the string without its last byte.  It is only applied
to strings that end in the one-byte character `,`. -/
def dropLastByte (s : String) : String :=
  String.mk s.data.dropLast

/-- Go `parseOpts(params, opts)`.  The map `params` is updated in place by the
Go code; the embedding returns the updated map. -/
def parseOpts (params : Values) (opts : ListOrdersOpts) : Values :=
  let params :=
    if opts.OrderType < 0 then params.Set "order_type" (strconv.Itoa 2)
    else if opts.OrderType > 0 then params.Set "order_type" (strconv.Itoa 1)
    else params
  let sl := statusListLoop opts.StatusList
  let params :=
    if sl ≠ "" then params.Set "status_list" ("[" ++ dropLastByte sl ++ "]")
    else params
  let params :=
    if opts.HasFills < 0 then params.Set "has_fills" "false"
    else if opts.HasFills > 0 then params.Set "has_fills" "true"
    else params
  let params :=
    if opts.FromID ≠ 0 then params.Set "from_id" (strconv.Itoa opts.FromID) else params
  let params :=
    if opts.ToID ≠ 0 then params.Set "to_id" (strconv.Itoa opts.ToID) else params
  let params :=
    if opts.FromTimestamp ≠ "" then params.Set "from_timestamp" opts.FromTimestamp else params
  let params :=
    if opts.ToTimestamp ≠ "" then params.Set "to_timestamp" opts.ToTimestamp else params
  params


/-! ## The HTTP request and the outside world -/

namespace textproto

/-- Go `validHeaderFieldByte`: the token characters of RFC 7230, that is the
ASCII letters and digits and the marks of codes 33, 35 to 39, 42, 43, 45, 46,
94, 95, 96, 124 and 126. -/
def validHeaderFieldByte (c : Char) : Bool :=
  c.isAlphanum || [33, 35, 36, 37, 38, 39, 42, 43, 45, 46, 94, 95, 96, 124, 126].contains c.toNat

/-- The rewriting loop of Go `canonicalMIMEHeaderKey`: the first letter and
every letter after a hyphen in upper case, all other letters in lower case. -/
def canonicalLoop : Bool → List Char → List Char
  | _, [] => []
  | upper, c :: cs =>
    let c :=
      if upper && c.isLower then Char.ofNat (c.toNat - 32)
      else if !upper && c.isUpper then Char.ofNat (c.toNat + 32)
      else c
    c :: canonicalLoop (c == '-') cs

/-- Go `textproto.CanonicalMIMEHeaderKey`: a key made of token characters is
put in canonical case, any other key is returned unchanged. -/
def CanonicalMIMEHeaderKey (s : String) : String :=
  if s.data.all validHeaderFieldByte then String.mk (canonicalLoop true s.data) else s

end textproto

namespace http

/-- Go `http.Header`, a map from canonical header keys to their values. -/
structure Header where
  values : Values
  deriving DecidableEq, Repr

/-- Go `Header.Set`. -/
def Header.Set (h : Header) (key value : String) : Header :=
  ⟨h.values.Set (textproto.CanonicalMIMEHeaderKey key) value⟩

/-- Go `Header.Get`. -/
def Header.Get (h : Header) (key : String) : String :=
  h.values.Get (textproto.CanonicalMIMEHeaderKey key)

/-- The parts of a Go `http.Request` that the package touches: method, parsed
URL, header and the content of the body reader. -/
structure Request where
  Method : String
  URL : url.URL
  Header : Header
  Body : String
  deriving DecidableEq, Repr

end http

/-- A Go `*http.Client` seen through `Do`: from the requests sent earlier and
the request at hand to the bytes of the response body, or a transport error. -/
abbrev Transport := List http.Request → http.Request → Except String String

/-- What the package leaves behind in the outside world: how many times the
wall clock has been read and which requests were handed to the transport, in
order. -/
structure World where
  reads : Nat
  sent : List http.Request
  deriving DecidableEq, Repr

/-- The collaborators outside the package: the wall clock, the standard
library's URL parser, HMAC, decoder of the response envelope and Unicode
tables, the default HTTP client, and `Coin.String`, whose source file is not
part of the sources at hand. -/
structure Env where
  /-- Go `time.Now().UnixNano()` at the reading number `k` of the clock. -/
  unixNano : Nat → Int
  /-- Go `url.Parse`, as called by `http.NewRequest`. -/
  urlParse : String → Except String url.URL
  /-- The lower-case hex digest of HMAC-SHA512, from key and message. -/
  hmacSHA512Hex : String → String → String
  /-- Go `unicode.ToLower` on the runes above `unicode.MaxASCII`. -/
  unicodeToLower : Char → Char
  /-- Go `http.DefaultClient`. -/
  DefaultClient : Transport
  /-- Go `Coin.String`. -/
  coinString : Coin → String
  /-- Go `json` decoding of the body into a `Response`, whose `response_data` is
  kept as raw text. -/
  jsonResponse : String → Except String Response

namespace http

/-- Go `http.NewRequest(method, url, body)`: fails exactly when the URL does
not parse; the new request has an empty header. -/
def NewRequest (env : Env) (method url body : String) : Except String Request :=
  match env.urlParse url with
  | Except.error err => Except.error err
  | Except.ok u => Except.ok { Method := method, URL := u, Header := ⟨Values.empty⟩, Body := body }

/-- Go `(*http.Client).Do`: the request is handed to the transport and recorded
in the world. -/
def Do (t : Transport) (r : Request) (w : World) : Except String String × World :=
  (t w.sent r, { w with sent := w.sent ++ [r] })

end http

namespace strings

/-- Go `unicode.ToLower`: ASCII capitals are shifted by `'a' - 'A'`, other
ASCII runes are unchanged, and every other rune goes through the case tables. -/
def toLowerRune (env : Env) (r : Char) : Char :=
  if r.toNat ≤ 127 then
    if 'A' ≤ r ∧ r ≤ 'Z' then Char.ofNat (r.toNat + 32) else r
  else env.unicodeToLower r

/-- Go `strings.ToLower`: every rune mapped to its lower case. -/
def ToLower (env : Env) (s : String) : String :=
  String.mk (s.data.map (toLowerRune env))

end strings

/-! ## `client.go` -/

/-- Go `DefaultService`. -/
def DefaultService : String := "https://www.mercadobitcoin.net/tapi/v3/"

/-- Go `Client`. -/
structure Client where
  service : String
  apiID : String
  apiKey : String
  client : Transport

/-- Go `NewClient`; a nil `client` argument selects `http.DefaultClient`. -/
def NewClient (env : Env) (service apiID apiKey : String) (client : Option Transport) : Client :=
  { service := service, apiID := apiID, apiKey := apiKey,
    client := match client with
      | some t => t
      | none => env.DefaultClient }

/-- Go `(*Client).Nonce`: one reading of the clock, in decimal. -/
def Client.Nonce (env : Env) (_c : Client) (w : World) : String × World :=
  let t := env.unixNano w.reads
  let nonce := strconv.FormatInt t 10
  (nonce, { w with reads := w.reads + 1 })

/-- Go `(*Client).Hmac`: the hex HMAC-SHA512 of `msg` under the key `apiKey`. -/
def Client.Hmac (env : Env) (c : Client) (msg : String) : String :=
  env.hmacSHA512Hex c.apiKey msg

/-! ## `api.go`: dispatch -/

/-- Go `(*Client).MakeRequest`.  A Go return `nil, err` is `Except.error err`
and a return `response, nil` is `Except.ok response`. -/
def Client.MakeRequest (env : Env) (c : Client) (params : Values) (w : World) :
    Except GoError Response × World :=
  let (nonce, w) := c.Nonce env w
  let params := params.Add "tapi_nonce" nonce
  let e := params.Encode
  match http.NewRequest env "POST" c.service e with
  | Except.error err => (Except.error (GoError.other err), w)
  | Except.ok r =>
    let mac := c.Hmac env (r.URL.Path ++ "?" ++ e)
    let r := { r with Header := r.Header.Set "Content-Type" "application/x-www-form-urlencoded" }
    let r := { r with Header := r.Header.Set "TAPI-ID" c.apiID }
    let r := { r with Header := r.Header.Set "TAPI-MAC" mac }
    let (resp, w) := http.Do c.client r w
    match resp with
    | Except.error err => (Except.error (GoError.other err), w)
    | Except.ok body =>
      match env.jsonResponse body with
      | Except.error err => (Except.error (GoError.other err), w)
      | Except.ok response =>
        if response.StatusCode ≠ 100 then
          (Except.error (GoError.api { Code := response.StatusCode, Err := response.ErrorMessage }), w)
        else (Except.ok response, w)

/-! ## `unmarshal.go` -/

/-- Go `unmarshalSysMsgs`. -/
def unmarshalSysMsgs (data : String) : Except GoError (Slice SystemMessage) :=
  match json.Unmarshal listSystemMessagesResponse.decode data listSystemMessagesResponse.zero with
  | Except.error err => Except.error (GoError.other err)
  | Except.ok msgsResp => Except.ok msgsResp.Messages

/-- Go `unmarshalListOrders`. -/
def unmarshalListOrders (data : String) : Except GoError (Slice Order) :=
  match json.Unmarshal listOrdersResponse.decode data listOrdersResponse.zero with
  | Except.error err => Except.error (GoError.other err)
  | Except.ok listOrders => Except.ok listOrders.Orders

/-- Go `unmarshalOrderbook`. -/
def unmarshalOrderbook (data : String) : Except GoError Orderbook :=
  match json.Unmarshal listOrderbookResponse.decode data listOrderbookResponse.zero with
  | Except.error err => Except.error (GoError.other err)
  | Except.ok orderbook => Except.ok orderbook.Orderbook

/-- Go `unmarshalOrder`. -/
def unmarshalOrder (data : String) : Except GoError Order :=
  match json.Unmarshal orderResponse.decode data orderResponse.zero with
  | Except.error err => Except.error (GoError.other err)
  | Except.ok order => Except.ok order.Order

/-- Go `unmarshalWithdrawal`. -/
def unmarshalWithdrawal (data : String) : Except GoError Withdrawal :=
  match json.Unmarshal withdrawalResponse.decode data withdrawalResponse.zero with
  | Except.error err => Except.error (GoError.other err)
  | Except.ok w => Except.ok w.Withdrawal

/-- The decoding at the end of Go `GetAccountInfo`: `json.Unmarshal(resp.Data,
accInfo)` into a new `AccountInfo`. -/
def unmarshalAccountInfo (data : String) : Except GoError AccountInfo :=
  match json.Unmarshal AccountInfo.decode data AccountInfo.zero with
  | Except.error err => Except.error (GoError.other err)
  | Except.ok accInfo => Except.ok accInfo

/-! ## `api.go`: the operations

Every operation first builds its parameter map and then calls `MakeRequest`;
the map built up to that call is given a definition of its own, named after the
operation. -/

/-- The tail shared by the operations: `resp, err := c.MakeRequest(params)`,
`if err != nil { return nil, err }`, `return decode(resp.Data)`. -/
def Client.dispatch {α : Type} (env : Env) (c : Client) (params : Values)
    (decode : String → Except GoError α) (w : World) : Except GoError α × World :=
  match c.MakeRequest env params w with
  | (Except.error err, w) => (Except.error err, w)
  | (Except.ok resp, w) => (decode resp.Data, w)

/-- The parameters built by Go `ListSystemMessages` (lines 15 to 24). -/
def ListSystemMessagesParams (env : Env) (lvl : String) : Values :=
  let params := Values.empty
  let params := params.Set "tapi_method" "list_system_messages"
  let l := strings.ToLower env lvl
  if l = "info" then params.Set "level" "INFO"
  else if l = "warning" then params.Set "level" "WARNING"
  else if l = "error" then params.Set "level" "ERROR"
  else params

/-- Go `(*Client).ListSystemMessages`. -/
def Client.ListSystemMessages (env : Env) (c : Client) (lvl : String) (w : World) :
    Except GoError (Slice SystemMessage) × World :=
  c.dispatch env (ListSystemMessagesParams env lvl) unmarshalSysMsgs w

/-- Go `(*Client).GetAccountInfo`. -/
def Client.GetAccountInfo (env : Env) (c : Client) (w : World) :
    Except GoError AccountInfo × World :=
  let params := Values.empty
  let params := params.Set "tapi_method" "get_account_info"
  c.dispatch env params unmarshalAccountInfo w

/-- The parameters built by Go `GetOrder`. -/
def GetOrderParams (env : Env) (c1 c2 : Coin) (id : Int) : Values :=
  let params := Values.empty
  let params := params.Set "tapi_method" "get_order"
  let params := params.Set "coin_pair" (env.coinString c1 ++ env.coinString c2)
  params.Set "order_id" (strconv.Itoa id)

/-- Go `(*Client).GetOrder`. -/
def Client.GetOrder (env : Env) (c : Client) (c1 c2 : Coin) (id : Int) (w : World) :
    Except GoError Order × World :=
  c.dispatch env (GetOrderParams env c1 c2 id) unmarshalOrder w

/-- The parameters built by Go `ListOrders` (lines 140 to 145); `opts` is the
pointer `*ListOrdersOpts`, `none` being `nil`. -/
def ListOrdersParams (env : Env) (c1 c2 : Coin) (opts : Option ListOrdersOpts) : Values :=
  let params := Values.empty
  let params := params.Set "tapi_method" "list_orders"
  let params := params.Set "coin_pair" (env.coinString c1 ++ env.coinString c2)
  match opts with
  | some opts => parseOpts params opts
  | none => params

/-- Go `(*Client).ListOrders`. -/
def Client.ListOrders (env : Env) (c : Client) (c1 c2 : Coin) (opts : Option ListOrdersOpts)
    (w : World) : Except GoError (Slice Order) × World :=
  c.dispatch env (ListOrdersParams env c1 c2 opts) unmarshalListOrders w

/-- The parameters built by Go `ListOrderbook`. -/
def ListOrderbookParams (env : Env) (c1 c2 : Coin) (full : Bool) : Values :=
  let params := Values.empty
  let params := params.Set "tapi_method" "list_orderbook"
  let params := params.Set "coin_pair" (env.coinString c1 ++ env.coinString c2)
  if full then params.Set "full" "true" else params

/-- Go `(*Client).ListOrderbook`. -/
def Client.ListOrderbook (env : Env) (c : Client) (c1 c2 : Coin) (full : Bool) (w : World) :
    Except GoError Orderbook × World :=
  c.dispatch env (ListOrderbookParams env c1 c2 full) unmarshalOrderbook w

/-- The parameters built by Go `placeOrder`. -/
def placeOrderParams (env : Env) (c1 c2 : Coin) (method qt limit : String) : Values :=
  let params := Values.empty
  let params := params.Set "tapi_method" method
  let params := params.Set "coin_pair" (env.coinString c1 ++ env.coinString c2)
  let params := params.Set "quantity" qt
  params.Set "limit_price" limit

/-- Go `(*Client).placeOrder`. -/
def Client.placeOrder (env : Env) (c : Client) (c1 c2 : Coin) (method qt limit : String)
    (w : World) : Except GoError Order × World :=
  c.dispatch env (placeOrderParams env c1 c2 method qt limit) unmarshalOrder w

/-- Go `(*Client).PlaceBuyOrder`. -/
def Client.PlaceBuyOrder (env : Env) (c : Client) (c1 c2 : Coin) (qt limit : String)
    (w : World) : Except GoError Order × World :=
  c.placeOrder env c1 c2 "place_buy_order" qt limit w

/-- Go `(*Client).PlaceSellOrder`. -/
def Client.PlaceSellOrder (env : Env) (c : Client) (c1 c2 : Coin) (qt limit : String)
    (w : World) : Except GoError Order × World :=
  c.placeOrder env c1 c2 "place_sell_order" qt limit w

/-- The parameters built by Go `PlaceMarketBuyOrder`. -/
def PlaceMarketBuyOrderParams (env : Env) (c1 c2 : Coin) (cost : String) : Values :=
  let params := Values.empty
  let params := params.Set "tapi_method" "place_market_buy_order"
  let params := params.Set "coin_pair" (env.coinString c1 ++ env.coinString c2)
  params.Set "cost" cost

/-- Go `(*Client).PlaceMarketBuyOrder`. -/
def Client.PlaceMarketBuyOrder (env : Env) (c : Client) (c1 c2 : Coin) (cost : String)
    (w : World) : Except GoError Order × World :=
  c.dispatch env (PlaceMarketBuyOrderParams env c1 c2 cost) unmarshalOrder w

/-- The parameters built by Go `PlaceMarketSellOrder`. -/
def PlaceMarketSellOrderParams (env : Env) (c1 c2 : Coin) (qt : String) : Values :=
  let params := Values.empty
  let params := params.Set "tapi_method" "place_market_sell_order"
  let params := params.Set "coin_pair" (env.coinString c1 ++ env.coinString c2)
  params.Set "quantity" qt

/-- Go `(*Client).PlaceMarketSellOrder`. -/
def Client.PlaceMarketSellOrder (env : Env) (c : Client) (c1 c2 : Coin) (qt : String)
    (w : World) : Except GoError Order × World :=
  c.dispatch env (PlaceMarketSellOrderParams env c1 c2 qt) unmarshalOrder w

/-- The parameters built by Go `CancelOrder`. -/
def CancelOrderParams (env : Env) (c1 c2 : Coin) (id : Int) : Values :=
  let params := Values.empty
  let params := params.Set "tapi_method" "cancel_order"
  let params := params.Set "coin_pair" (env.coinString c1 ++ env.coinString c2)
  params.Set "order_id" (strconv.Itoa id)

/-- Go `(*Client).CancelOrder`. -/
def Client.CancelOrder (env : Env) (c : Client) (c1 c2 : Coin) (id : Int) (w : World) :
    Except GoError Order × World :=
  c.dispatch env (CancelOrderParams env c1 c2 id) unmarshalOrder w

/-- The parameters built by Go `GetWithdrawal`. -/
def GetWithdrawalParams (env : Env) (coin : Coin) (id : Int) : Values :=
  let params := Values.empty
  let params := params.Set "tapi_method" "get_withdrawal"
  let params := params.Set "coin" (env.coinString coin)
  params.Set "withdrawal_id" (strconv.Itoa id)

/-- Go `(*Client).GetWithdrawal`. -/
def Client.GetWithdrawal (env : Env) (c : Client) (coin : Coin) (id : Int) (w : World) :
    Except GoError Withdrawal × World :=
  c.dispatch env (GetWithdrawalParams env coin id) unmarshalWithdrawal w

/-- Go `WithdrawInfo`. -/
structure WithdrawInfo where
  Address : String
  Quantity : String
  TxFee : String
  TxNotAggregate : Bool := false
  ViaBlockchain : Bool := false
  DestinationTag : Int := 0
  deriving DecidableEq, Repr

/-- The parameters completed by Go `withdrawCoin` (lines 311 to 315). -/
def withdrawCoinParams (env : Env) (coin : Coin) (p : Values) (desc : String) : Values :=
  let p := p.Set "tapi_method" "withdraw_coin"
  let p := p.Set "coin" (env.coinString coin)
  if desc ≠ "" then p.Set "description" desc else p

/-- Go `(*Client).withdrawCoin`. -/
def Client.withdrawCoin (env : Env) (c : Client) (coin : Coin) (p : Values) (desc : String)
    (w : World) : Except GoError Withdrawal × World :=
  c.dispatch env (withdrawCoinParams env coin p desc) unmarshalWithdrawal w

/-- Go `(*Client).WithdrawBRL`. -/
def Client.WithdrawBRL (env : Env) (c : Client) (desc qt accRef : String) (w : World) :
    Except GoError Withdrawal × World :=
  let params := Values.empty
  let params := params.Set "quantity" qt
  let params := params.Set "account_ref" accRef
  c.withdrawCoin env BRL params desc w

/-- The parameters built by Go `WithdrawCrypto` once both guards have passed
(lines 294 to 306). -/
def WithdrawCryptoParams (coin : Coin) (i : WithdrawInfo) : Values :=
  let params := Values.empty
  let params := params.Set "address" i.Address
  let params := params.Set "quantity" i.Quantity
  let params := params.Set "tx_fee" i.TxFee
  let params := if i.TxNotAggregate then params.Set "tx_aggregate" "false" else params
  let params := if i.ViaBlockchain then params.Set "via_blockchain" "true" else params
  if coin = XRP then params.Set "destination_tag" (strconv.Itoa i.DestinationTag) else params

/-- Go `(*Client).WithdrawCrypto`; `i` is the pointer `*WithdrawInfo`, `none`
being `nil`. -/
def Client.WithdrawCrypto (env : Env) (c : Client) (coin : Coin) (desc : String)
    (i : Option WithdrawInfo) (w : World) : Except GoError Withdrawal × World :=
  match i with
  | none => (Except.error (errors.New "nil WithdrawInfo"), w)
  | some i =>
    if coin = BRL then (Except.error (errors.New "use WithdrawBRL for BRL"), w)
    else c.withdrawCoin env coin (WithdrawCryptoParams coin i) desc w

/-! ## Definitions used to state the properties -/

/-- The value of `status_list` in the words of the specification: the codes
`i+2` of the non-zero slots `i`, in slot order, joined by commas, in brackets. -/
def statusListSpec (StatusList : Fin 3 → Int) : String :=
  "[" ++ ",".intercalate
    (((List.finRange 3).filter fun i => StatusList i ≠ 0).map fun i => Nat.repr (i.val + 2)) ++ "]"

/-- The body that `MakeRequest` encodes in the world `w`: the parameters with
`tapi_nonce` added, URL-encoded (lines 344 and 345). -/
def Client.encodedBody (env : Env) (c : Client) (params : Values) (w : World) : String :=
  (params.Add "tapi_nonce" (c.Nonce env w).1).Encode

/-- The request that `MakeRequest` hands to the transport when the service URL
parses to `u` and the encoded body is `e` (lines 347 to 355). -/
def Client.signedRequest (env : Env) (c : Client) (u : url.URL) (e : String) : http.Request :=
  { Method := "POST", URL := u, Body := e,
    Header := (((http.Header.mk Values.empty).Set "Content-Type"
      "application/x-www-form-urlencoded").Set "TAPI-ID" c.apiID).Set "TAPI-MAC"
        (c.Hmac env (u.Path ++ "?" ++ e)) }

/-- The classification of a decoded envelope at the end of `MakeRequest`
(lines 368 to 372). -/
def classify (response : Response) : Except GoError Response :=
  if response.StatusCode ≠ 100 then
    Except.error (GoError.api { Code := response.StatusCode, Err := response.ErrorMessage })
  else Except.ok response

/-- Two strings are equal up to letter case when they have the same length and
their runes agree, position by position, once each is put in lower case. -/
def equalUpToCase (env : Env) (a b : String) : Prop :=
  List.Forall₂ (fun x y => strings.toLowerRune env x = strings.toLowerRune env y) a.data b.data

instance (env : Env) (a b : String) : Decidable (equalUpToCase env a b) := by
  unfold equalUpToCase
  infer_instance

/-- The `key=value` items of `Values.Encode`, before they are joined by `&`. -/
def Values.pairs (v : Values) : List String :=
  (v.keys.insertionSort (fun a b => a.data < b.data)).flatMap fun k =>
    ((v.find k).getD []).map fun x => url.QueryEscape k ++ "=" ++ url.QueryEscape x

namespace json

/-- A text that may follow a value inside an array or an object, or end the
whole text: it is empty or starts with a comma, a closing bracket or a closing
brace. -/
def Delimited (rest : List Char) : Prop :=
  rest = [] ∨ ∃ c t, rest = c :: t ∧ (c = ',' ∨ c = ']' ∨ c = '}')

/-- A text that does not go on as a number: it is empty or starts with a
character that is no digit, point or exponent mark. -/
def NumberEnds (rest : List Char) : Prop :=
  rest = [] ∨ ∃ c t, rest = c :: t ∧ c.isDigit = false ∧ c ≠ '.' ∧ c ≠ 'e' ∧ c ≠ 'E'

/-- The value `v` reads back from its rendering: the rendering starts with a
character that is neither white space nor a closing bracket, and `parseValue`,
given more fuel than the rendering has characters, returns `v` and the text
after the rendering, whenever that text is empty or starts with a delimiter. -/
def ReadsBack (v : Value) : Prop :=
  (∃ c t, render v = c :: t ∧ isSpace c = false ∧ c ≠ ']') ∧
  ∀ (fuel : Nat) (rest : List Char), Delimited rest → (render v).length < fuel →
    parseValue fuel (render v ++ rest) = some (v, rest)

end json

namespace json

/-- The value is `null`. -/
def Value.isNull : Value → Bool
  | Value.null => true
  | _ => false

/-- The value is an object. -/
def Value.isObj : Value → Bool
  | Value.obj _ => true
  | _ => false

/-- The value is an array. -/
def Value.isArr : Value → Bool
  | Value.arr _ => true
  | _ => false

/-- The object has a member whose key matches `name` and whose value
satisfies `p`. -/
def hasMember (ms : List (String × Value)) (name : String) (p : Value → Bool) : Bool :=
  ms.any fun m => equalFold m.1 name && p m.2

end json

/-- The payload that wraps a serialization under a key: `{"key":` followed by
the serialization and `}`. -/
def wrapped (key serialization : String) : String :=
  "\x7b\"" ++ key ++ "\":" ++ serialization ++ "\x7d"

/-- The keys of the members of an object, in order; none for another value. -/
def json.Value.keys : json.Value → List String
  | json.Value.obj ms => ms.map Prod.fst
  | _ => []

/-! ## A concrete setting for the examples -/

/-- Modelled from the spec: `Coin.String`, whose source file is missing; the
closed enumeration BRL, BTC, LTC, BCH, XRP, ETH with its canonical code
strings.  A value outside the enumeration is rendered by its number. -/
def coinCode (c : Coin) : String :=
  if c = BRL then "BRL"
  else if c = BTC then "BTC"
  else if c = LTC then "LTC"
  else if c = BCH then "BCH"
  else if c = XRP then "XRP"
  else if c = ETH then "ETH"
  else "Coin(" ++ Nat.repr c.val ++ ")"

/-- The id of the test client, `fakeID` of `client_test.go`. -/
def fakeID : String := "b493d48364afe44d11c0165cf470a4164d1e2609911ef998be868d46ade3de4e"

/-- The secret of the test client, `fakeKey` of `client_test.go`. -/
def fakeKey : String := "1ebda7d457ece1330dff1c9e04cd62c4e02d1835968ff89d2fb2339f06f73028"

/-- A mock exchange in the manner of `TestMakeRequest`: it answers `100` to a
request that carries the expected id and a signature, and `201` otherwise. -/
def mockExchange : Transport := fun _ r =>
  if r.Header.Get "TAPI-ID" = fakeID ∧ r.Header.Get "TAPI-MAC" ≠ "" then Except.ok "100"
  else Except.ok "201"

/-- A setting in which `DefaultService` parses, the clock advances by one
nanosecond per reading, and the decoder of the envelope knows the two answers
of `mockExchange`.  The digest is a stand-in that keeps key and message apart. -/
def mockEnv : Env where
  unixNano := fun k => 1453827748000000000 + k
  urlParse := fun s =>
    if s = DefaultService then
      Except.ok { Scheme := "https", Host := "www.mercadobitcoin.net", Path := "/tapi/v3/",
                  RawQuery := "" }
    else Except.error "parse error"
  hmacSHA512Hex := fun key msg => key ++ ":" ++ msg
  unicodeToLower := fun r => r
  DefaultClient := mockExchange
  coinString := coinCode
  jsonResponse := fun body =>
    if body = "100" then
      Except.ok { Data := "payload", StatusCode := 100, ErrorMessage := "",
                  ServerUnixTimestamp := "1453827748" }
    else if body = "201" then
      Except.ok { Data := "", StatusCode := 201, ErrorMessage := "Valor de *TAPI-ID* inválido.",
                  ServerUnixTimestamp := "1453827748" }
    else Except.error "invalid character"

/-- The client of the tests: `NewClient(DefaultService, fakeID, fakeKey, nil)`. -/
def mockClient : Client :=
  NewClient mockEnv DefaultService fakeID fakeKey none

/-- A world in which nothing has happened yet. -/
def World.initial : World :=
  { reads := 0, sent := [] }

/-- A setting like `mockEnv` whose clock stands still: every reading gives the
same nanosecond. -/
def stalledEnv : Env :=
  { mockEnv with unixNano := fun _ => 1453827748000000000 }

/-- A setting like `mockEnv` whose clock is set back by one second after its
first reading. -/
def steppedBackEnv : Env :=
  { mockEnv with unixNano := fun k => if k = 0 then 1453827748000000000 else 1453827747000000000 }

/-- A setting like `mockEnv` whose digest is HMAC-SHA512 itself. -/
def hmacEnv : Env :=
  { mockEnv with hmacSHA512Hex := hmacSHA512Hex }

/-- The text `getOrder` of `api_test.go`. -/
def getOrder : String :=
  "\x7b\"order_id\":3,\"coin_pair\":\"BRLBTC\",\"order_type\":2,\"status\":4," ++
  "\"has_fills\":true,\"quantity\":\"1.00000000\",\"limit_price\":\"900.00000\"," ++
  "\"executed_quantity\":\"1.00000000\",\"executed_price_avg\":\"900.00000\"," ++
  "\"fee\":\"6.30000000\",\"created_timestamp\":\"1453835329\"," ++
  "\"updated_timestamp\":\"1453835329\",\"operations\":[\x7b\"operation_id\":1," ++
  "\"quantity\":\"1.00000000\",\"price\":\"900.00000\",\"fee_rate\":\"0.70\"," ++
  "\"executed_timestamp\":\"1453835329\"\x7d]\x7d"

/-- The value of Order that `getOrder` writes down. -/
def getOrderValue : Order :=
  { ID := 3, CoinPair := "BRLBTC", Type_ := 2, Status := 4, HasFills := true,
    Quantity := "1.00000000", LimitPrice := "900.00000",
    ExecutedQuantity := "1.00000000", ExecutedPriceAvg := "900.00000",
    Fee := "6.30000000", CreatedTimestamp := "1453835329",
    UpdatedTimestamp := "1453835329",
    Operations :=
      some
        [{ ID := 1, Quantity := "1.00000000", Price := "900.00000", FeeRate := "0.70",
           ExecutedTimestamp := "1453835329" }] }

/-- The text `listOrderbook` of `api_test.go`. -/
def listOrderbook : String :=
  "\x7b\"bids\":[\x7b\"order_id\":1,\"quantity\":\"1.00000000\"," ++
  "\"limit_price\":\"1000.00000\",\"is_owner\":true\x7d,\x7b\"order_id\":4," ++
  "\"quantity\":\"1.00000000\",\"limit_price\":\"900.00000\",\"is_owner\":false\x7d]," ++
  "\"asks\":[\x7b\"order_id\":2,\"quantity\":\"1.00000000\",\"limit_price\":\"1100.00000\"," ++
  "\"is_owner\":true\x7d],\"latest_order_id\":4\x7d"

/-- The value of Orderbook that `listOrderbook` writes down. -/
def listOrderbookValue : Orderbook :=
  { Bids :=
      some
        [{ OrderID := 1, Quantity := "1.00000000", LimitPrice := "1000.00000", IsOwner := true },
         { OrderID := 4, Quantity := "1.00000000", LimitPrice := "900.00000", IsOwner := false }],
    Asks :=
      some
        [{ OrderID := 2, Quantity := "1.00000000", LimitPrice := "1100.00000", IsOwner := true }],
    LatestOrderID := 4 }

/-- The text `getWithdrawal` of `api_test.go`. -/
def getWithdrawal : String :=
  "\x7b\"id\":1,\"coin\":\"BTC\",\"quantity\":\"1.50000000\",\"fee\":\"0.00050000\"," ++
  "\"address\":\"1G38ybvfUyn96aJbKnzkifX2eEMH9N87ww\",\"status\":2," ++
  "\"tx\":\"d9893c57880953f044bcf0c9f31b923459a2fc54e82e8c8544645b96da37726f\"," ++
  "\"created_timestamp\":\"1453912131\",\"updated_timestamp\":\"1453912131\"\x7d"

/-- The value of Withdrawal that `getWithdrawal` writes down. -/
def getWithdrawalValue : Withdrawal :=
  { ID := 1, Coin := "BTC", Quantity := "1.50000000", NetQuantity := "",
    Fee := "0.00050000", Account := "",
    Address := "1G38ybvfUyn96aJbKnzkifX2eEMH9N87ww", Status := 2,
    Tx := "d9893c57880953f044bcf0c9f31b923459a2fc54e82e8c8544645b96da37726f",
    DestinationTag := 0, CreatedTimestamp := "1453912131",
    UpdatedTimestamp := "1453912131" }

/-- The text `withdrawCoin` of `api_test.go`. -/
def withdrawCoin : String :=
  "\x7b\"id\":1,\"coin\":\"BRL\",\"quantity\":\"300.56\",\"net_quantity\":\"291.68\"," ++
  "\"fee\":\"8.88\",\"account\":\"bco: 341, ag: 1111, cta: 23456-X\",\"status\":1," ++
  "\"created_timestamp\":\"1453912088\",\"updated_timestamp\":\"1453912088\"\x7d"

/-- The value of Withdrawal that `withdrawCoin` writes down. -/
def withdrawCoinValue : Withdrawal :=
  { ID := 1, Coin := "BRL", Quantity := "300.56", NetQuantity := "291.68",
    Fee := "8.88", Account := "bco: 341, ag: 1111, cta: 23456-X",
    Address := "", Status := 1,
    Tx := "",
    DestinationTag := 0, CreatedTimestamp := "1453912088",
    UpdatedTimestamp := "1453912088" }

/-- The text `accInfoPart` of `api_test.go`. -/
def accInfoPart : String :=
  "\x7b\"balance\":\x7b\"bch\":\x7b\"available\":\"5.00000000\",\"total\":\"6.00000000\"," ++
  "\"amount_open_orders\":1\x7d,\"brl\":\x7b\"available\":\"3000.00000\"," ++
  "\"total\":\"4900.00000\"\x7d,\"btc\":\x7b\"available\":\"10.00000000\"," ++
  "\"total\":\"11.00000000\",\"amount_open_orders\":3\x7d," ++
  "\"eth\":\x7b\"available\":\"490.00000000\",\"total\":\"500.00000000\"," ++
  "\"amount_open_orders\":1\x7d,\"ltc\":\x7b\"available\":\"500.00000000\"," ++
  "\"total\":\"500.00000000\",\"amount_open_orders\":0\x7d," ++
  "\"xrp\":\x7b\"available\":\"105.00000000\",\"total\":\"106.00000000\"," ++
  "\"amount_open_orders\":0\x7d\x7d," ++
  "\"withdrawal_limits\":\x7b\"bch\":\x7b\"available\":\"2.00000000\"," ++
  "\"total\":\"2.00000000\"\x7d,\"brl\":\x7b\"available\":\"988.00\"," ++
  "\"total\":\"20000.00\"\x7d,\"btc\":\x7b\"available\":\"3.76600000\"," ++
  "\"total\":\"5.00000000\"\x7d,\"eth\":\x7b\"available\":\"210.00000000\"," ++
  "\"total\":\"300.00000000\"\x7d,\"ltc\":\x7b\"available\":\"500.00000000\"," ++
  "\"total\":\"500.00000000\"\x7d,\"xrp\":\x7b\"available\":\"100.00000000\"," ++
  "\"total\":\"200.00000000\"\x7d\x7d\x7d"

/-- The value of AccountInfo that `accInfoPart` writes down. -/
def accInfoPartValue : AccountInfo :=
  { Balance :=
      { BCH := { Available := "5.00000000", Total := "6.00000000", OpenOrders := 1 },
        BRL := { Available := "3000.00000", Total := "4900.00000" },
        BTC := { Available := "10.00000000", Total := "11.00000000", OpenOrders := 3 },
        ETH := { Available := "490.00000000", Total := "500.00000000", OpenOrders := 1 },
        LTC := { Available := "500.00000000", Total := "500.00000000", OpenOrders := 0 },
        XRP := { Available := "105.00000000", Total := "106.00000000", OpenOrders := 0 } },
    WithdrawalLimits :=
      { BCH := { Available := "2.00000000", Total := "2.00000000" },
        BRL := { Available := "988.00", Total := "20000.00" },
        BTC := { Available := "3.76600000", Total := "5.00000000" },
        ETH := { Available := "210.00000000", Total := "300.00000000" },
        LTC := { Available := "500.00000000", Total := "500.00000000" },
        XRP := { Available := "100.00000000", Total := "200.00000000" } } }

/-! # Properties -/

/-! ## Lemmas on maps -/

theorem lookup_filter_ne (l : List (String × List String)) (k key : String) (h : k ≠ key) :
    (l.filter (fun p => p.1 != key)).lookup k = l.lookup k := by
  induction l with
  | nil => rfl
  | cons p t ih =>
    obtain ⟨a, b⟩ := p
    by_cases ha : a = key
    · subst ha
      have hk : (k == a) = false := by simpa using h
      simp [List.filter, List.lookup, hk, ih]
    · have hne : (a != key) = true := by simpa using ha
      by_cases hka : k = a
      · subst hka
        simp [List.filter, List.lookup, hne]
      · have hk : (k == a) = false := by simpa using hka
        simp [List.filter, List.lookup, hne, hk, ih]

theorem Values.find_Set (v : Values) (key value k : String) :
    (v.Set key value).find k = if k = key then some [value] else v.find k := by
  by_cases h : k = key
  · subst h
    simp [Values.Set, Values.find, List.lookup]
  · have hk : (k == key) = false := by simpa using h
    simp [Values.Set, Values.find, List.lookup, hk, h, lookup_filter_ne _ _ _ h]

theorem statusListLoop_eq (sl : Fin 3 → Int) :
    statusListLoop sl =
      (if sl 0 ≠ 0 then "2," else "") ++ ((if sl 1 ≠ 0 then "3," else "") ++
        (if sl 2 ≠ 0 then "4," else "")) := by
  unfold statusListLoop
  by_cases h0 : sl 0 = 0 <;> by_cases h1 : sl 1 = 0 <;> by_cases h2 : sl 2 = 0 <;>
    simp [List.finRange, List.foldl, h0, h1, h2] <;> rfl


theorem Values.find_ite (c : Prop) [Decidable c] (a b : Values) (k : String) :
    (if c then a else b).find k = if c then a.find k else b.find k := by
  split <;> rfl

theorem find_status_list_parseOpts (params : Values) (opts : ListOrdersOpts) :
    (parseOpts params opts).find "status_list" =
      if statusListLoop opts.StatusList ≠ "" then
        some ["[" ++ dropLastByte (statusListLoop opts.StatusList) ++ "]"]
      else params.find "status_list" := by
  simp [parseOpts, Values.find_ite, Values.find_Set]


theorem statusList_cases (sl : Fin 3 → Int) :
    (if statusListLoop sl ≠ "" then some ["[" ++ dropLastByte (statusListLoop sl) ++ "]"]
      else (none : Option (List String))) =
      if ∀ i, sl i = 0 then none else some [statusListSpec sl] := by
  rw [statusListLoop_eq]
  by_cases h0 : sl 0 = 0 <;> by_cases h1 : sl 1 = 0 <;> by_cases h2 : sl 2 = 0 <;>
    simp [Fin.forall_fin_succ, statusListSpec, List.finRange, List.filter, h0, h1, h2] <;>
    decide


theorem statusListSpec_congr (a b : Fin 3 → Int) (h : ∀ i, a i = 0 ↔ b i = 0) :
    statusListSpec a = statusListSpec b := by
  have hf : (fun i => decide (a i ≠ 0)) = (fun i => decide (b i ≠ 0)) := by
    funext i
    simp [h i]
  simp only [statusListSpec, hf]

/-- C1: `parseOpts` leaves `status_list` as it found it (absent, in
`ListOrders`) exactly when the three slots of `StatusList` are zero; otherwise it
sets it to the bracketed, comma-separated codes `i+2` of the non-zero slots in
slot order.  Two option values whose slots are zero at the same places give the
same `status_list`. -/
theorem parseOpts_status_list (env : Env) (c1 c2 : Coin) (params : Values)
    (opts : ListOrdersOpts) :
    ((parseOpts params opts).find "status_list" =
      if ∀ i, opts.StatusList i = 0 then params.find "status_list"
      else some [statusListSpec opts.StatusList]) ∧
    ((ListOrdersParams env c1 c2 (some opts)).find "status_list" =
      if ∀ i, opts.StatusList i = 0 then none else some [statusListSpec opts.StatusList]) ∧
    (∀ opts2 : ListOrdersOpts, (∀ i, opts.StatusList i = 0 ↔ opts2.StatusList i = 0) →
      (parseOpts params opts2).find "status_list" = (parseOpts params opts).find "status_list") := by
  have key : ∀ (p : Values) (o : ListOrdersOpts), (parseOpts p o).find "status_list" =
      if ∀ i, o.StatusList i = 0 then p.find "status_list"
      else some [statusListSpec o.StatusList] := by
    intro p o
    rw [find_status_list_parseOpts]
    have h := statusList_cases o.StatusList
    by_cases hz : ∀ i, o.StatusList i = 0
    · rw [if_pos hz] at h ⊢
      by_cases hl : statusListLoop o.StatusList ≠ ""
      · rw [if_pos hl] at h
        exact absurd h (by simp)
      · rw [if_neg hl]
    · rw [if_neg hz] at h ⊢
      by_cases hl : statusListLoop o.StatusList ≠ ""
      · rw [if_pos hl] at h ⊢
        exact h
      · rw [if_neg hl] at h
        exact absurd h (by simp)
  refine ⟨key params opts, ?_, ?_⟩
  · have h := key ((Values.empty.Set "tapi_method" "list_orders").Set "coin_pair"
      (env.coinString c1 ++ env.coinString c2)) opts
    simpa [ListOrdersParams, Values.find_Set, Values.find, Values.empty] using h
  · intro opts2 h
    rw [key params opts2, key params opts, statusListSpec_congr _ _ h]
    have hz : (∀ i, opts2.StatusList i = 0) ↔ (∀ i, opts.StatusList i = 0) :=
      ⟨fun g i => (h i).2 (g i), fun g i => (h i).1 (g i)⟩
    by_cases g : ∀ i, opts.StatusList i = 0
    · rw [if_pos g, if_pos (hz.2 g)]
    · rw [if_neg g, if_neg (fun g2 => g (hz.1 g2))]

/-- C1, on the two option values of `TestListOrders`: `[0,0,1]` gives `[4]`
and `[5,-1,0]` gives `[2,3]`, and `[1,1,0]` gives the same as `[5,-1,0]`. -/
theorem parseOpts_status_list_witness :
    (parseOpts Values.empty { StatusList := ![0, 0, 1] }).find "status_list" = some ["[4]"] ∧
    (ListOrdersParams mockEnv BRL ETH (some { StatusList := ![5, -1, 0] })).find "status_list" =
      some ["[2,3]"] ∧
    (parseOpts Values.empty { StatusList := ![1, 1, 0] }).find "status_list" =
      (parseOpts Values.empty { StatusList := ![5, -1, 0] }).find "status_list" := by
  refine ⟨?_, ?_, ?_⟩
  · rw [(parseOpts_status_list mockEnv BRL ETH Values.empty { StatusList := ![0, 0, 1] }).1]
    decide
  · rw [(parseOpts_status_list mockEnv BRL ETH Values.empty { StatusList := ![5, -1, 0] }).2.1]
    decide
  · exact (parseOpts_status_list mockEnv BRL ETH Values.empty { StatusList := ![5, -1, 0] }).2.2
      { StatusList := ![1, 1, 0] } (by decide)


/-- C2: `e.Is(t)` holds exactly when the target is an API error whose code is
the code of `e` or is `0`; the messages play no part.  An error of code 201
matches the targets of code 0 and 201 and no target of another non-zero code. -/
theorem Error_Is_iff (e : Error) (target : GoError) :
    (e.Is target = true ↔ ∃ t : Error, target = GoError.api t ∧ (e.Code = t.Code ∨ t.Code = 0)) ∧
    (∀ (t : Error) (m1 m2 : String),
      Error.Is { Code := e.Code, Err := m1 } (GoError.api { Code := t.Code, Err := m2 }) =
        e.Is (GoError.api t)) ∧
    (∀ m1 m2 : String, Error.Is ⟨201, m1⟩ (GoError.api ⟨0, m2⟩) = true ∧
      Error.Is ⟨201, m1⟩ (GoError.api ⟨201, m2⟩) = true) ∧
    (∀ (n : Int) (m1 m2 : String), n ≠ 0 → n ≠ 201 →
      Error.Is ⟨201, m1⟩ (GoError.api ⟨n, m2⟩) = false) := by
  refine ⟨?_, ?_, ?_, ?_⟩
  · cases target with
    | api t =>
      constructor
      · intro h
        refine ⟨t, rfl, ?_⟩
        simpa [Error.Is] using h
      · rintro ⟨t2, ht, h⟩
        cases ht
        simpa [Error.Is] using h
    | other msg =>
      constructor
      · intro h
        simp [Error.Is] at h
      · rintro ⟨t, ht, _⟩
        cases ht
  · intro t m1 m2
    rfl
  · intro m1 m2
    exact ⟨by simp [Error.Is], by simp [Error.Is]⟩
  · intro n m1 m2 h0 h201
    have h : ¬ (201 : Int) = n := fun h => h201 h.symm
    simp [Error.Is, h0, h]

/-- C2, on the error of `TestMakeRequest`: the error of code 201 does not match
a target of code 100, nor an error that is not an API error, and it matches
`Error{Code: 201}`. -/
theorem Error_Is_iff_witness :
    Error.Is ⟨201, "Valor de *TAPI-ID* inválido."⟩ (GoError.api ⟨100, ""⟩) = false ∧
    Error.Is ⟨201, "Valor de *TAPI-ID* inválido."⟩ (errors.New "EOF") = false ∧
    Error.Is ⟨201, "Valor de *TAPI-ID* inválido."⟩ (GoError.api ⟨201, ""⟩) = true :=
  ⟨(Error_Is_iff ⟨201, ""⟩ (GoError.api ⟨100, ""⟩)).2.2.2 100 _ _ (by decide) (by decide),
   by decide,
   ((Error_Is_iff ⟨201, "Valor de *TAPI-ID* inválido."⟩ (GoError.api ⟨201, ""⟩)).1).2
     ⟨⟨201, ""⟩, rfl, Or.inl rfl⟩⟩


/-! ## Lemmas on dispatch -/

theorem MakeRequest_parse_error (env : Env) (c : Client) (params : Values) (w : World)
    (err : String) (h : env.urlParse c.service = Except.error err) :
    c.MakeRequest env params w =
      (Except.error (GoError.other err), { reads := w.reads + 1, sent := w.sent }) := by
  simp [Client.MakeRequest, http.NewRequest, h, Client.Nonce]

theorem MakeRequest_parse_ok (env : Env) (c : Client) (params : Values) (w : World)
    (u : url.URL) (h : env.urlParse c.service = Except.ok u) :
    c.MakeRequest env params w =
      ((match c.client w.sent (c.signedRequest env u (c.encodedBody env params w)) with
        | Except.error err => Except.error (GoError.other err)
        | Except.ok body =>
          match env.jsonResponse body with
          | Except.error err => Except.error (GoError.other err)
          | Except.ok response => classify response),
       { reads := w.reads + 1,
         sent := w.sent ++ [c.signedRequest env u (c.encodedBody env params w)] }) := by
  simp only [Client.MakeRequest, http.NewRequest, h, Client.Nonce, http.Do, Client.signedRequest,
    Client.encodedBody, classify]
  cases c.client w.sent _ with
  | error err => rfl
  | ok body =>
    dsimp only
    cases env.jsonResponse body with
    | error err => rfl
    | ok response =>
      by_cases hs : response.StatusCode = 100 <;> simp [hs]


theorem MakeRequest_sent_inv (env : Env) (c : Client) (params : Values) (w : World)
    (r : http.Request) (hsent : (c.MakeRequest env params w).2.sent = w.sent ++ [r]) :
    ∃ u, env.urlParse c.service = Except.ok u ∧
      r = c.signedRequest env u (c.encodedBody env params w) := by
  cases hp : env.urlParse c.service with
  | error err =>
    rw [MakeRequest_parse_error env c params w err hp] at hsent
    simp at hsent
  | ok u =>
    rw [MakeRequest_parse_ok env c params w u hp] at hsent
    refine ⟨u, rfl, ?_⟩
    have h := List.append_cancel_left hsent
    simpa using h.symm

/-- C3: once the transport has answered the request and the answer has been
decoded into an envelope, `MakeRequest` returns that envelope without error
exactly when its `status_code` is 100, and for any other `status_code` it
returns no response and the API error carrying that code and the envelope's
`error_message`. -/
theorem MakeRequest_status_code (env : Env) (c : Client) (params : Values) (w : World)
    (r : http.Request) (body : String) (response : Response)
    (hsent : (c.MakeRequest env params w).2.sent = w.sent ++ [r])
    (hdo : c.client w.sent r = Except.ok body)
    (hjson : env.jsonResponse body = Except.ok response) :
    ((c.MakeRequest env params w).1 = Except.ok response ↔ response.StatusCode = 100) ∧
    ((∃ resp, (c.MakeRequest env params w).1 = Except.ok resp) ↔ response.StatusCode = 100) ∧
    (response.StatusCode ≠ 100 →
      (c.MakeRequest env params w).1 =
        Except.error (GoError.api { Code := response.StatusCode, Err := response.ErrorMessage })) := by
  obtain ⟨u, hp, hr⟩ := MakeRequest_sent_inv env c params w r hsent
  subst hr
  have hres : (c.MakeRequest env params w).1 = classify response := by
    rw [MakeRequest_parse_ok env c params w u hp]
    simp only [hdo, hjson]
  rw [hres]
  by_cases hs : response.StatusCode = 100
  · simp [classify, hs]
  · simp [classify, hs]

/-- C3, against the mock exchange: the test client is answered `100` and gets
the envelope back; a client with a wrong id is answered `201` and gets the API
error of code 201 with the message of the exchange. -/
theorem MakeRequest_status_code_witness :
    (mockClient.MakeRequest mockEnv Values.empty World.initial).1 =
      Except.ok { Data := "payload", StatusCode := 100, ErrorMessage := "",
                  ServerUnixTimestamp := "1453827748" } ∧
    ((NewClient mockEnv DefaultService "" fakeKey none).MakeRequest mockEnv Values.empty
        World.initial).1 =
      Except.error (GoError.api { Code := 201, Err := "Valor de *TAPI-ID* inválido." }) := by
  have hp : ∀ id : String,
      mockEnv.urlParse (NewClient mockEnv DefaultService id fakeKey none).service =
        Except.ok { Scheme := "https", Host := "www.mercadobitcoin.net", Path := "/tapi/v3/",
                    RawQuery := "" } := fun _ => rfl
  constructor
  · exact ((MakeRequest_status_code mockEnv mockClient Values.empty World.initial
      (mockClient.signedRequest mockEnv _ (mockClient.encodedBody mockEnv Values.empty
        World.initial)) "100" _
      (by rw [MakeRequest_parse_ok mockEnv mockClient _ _ _ (hp fakeID)]) rfl rfl).1).2 rfl
  · exact (MakeRequest_status_code mockEnv (NewClient mockEnv DefaultService "" fakeKey none)
      Values.empty World.initial
      ((NewClient mockEnv DefaultService "" fakeKey none).signedRequest mockEnv _
        ((NewClient mockEnv DefaultService "" fakeKey none).encodedBody mockEnv Values.empty
          World.initial)) "201" _
      (by rw [MakeRequest_parse_ok mockEnv _ _ _ _ (hp "")]) rfl rfl).2.2 (by decide)


theorem Values.find_Add (v : Values) (key value k : String) :
    (v.Add key value).find k =
      if k = key then some ((v.find key).getD [] ++ [value]) else v.find k := by
  by_cases h : k = key
  · subst h
    simp [Values.Add, Values.find, List.lookup]
  · have hk : (k == key) = false := by simpa using h
    simp [Values.Add, Values.find, List.lookup, hk, h, lookup_filter_ne _ _ _ h]

theorem Header_Get_Set (h : http.Header) (key value k : String) :
    (h.Set key value).Get k =
      if textproto.CanonicalMIMEHeaderKey k = textproto.CanonicalMIMEHeaderKey key then value
      else h.Get k := by
  unfold http.Header.Get http.Header.Set Values.Get
  simp only [Values.find_Set]
  split_ifs <;> rfl

theorem canonical_keys :
    textproto.CanonicalMIMEHeaderKey "Content-Type" = "Content-Type" ∧
    textproto.CanonicalMIMEHeaderKey "TAPI-ID" = "Tapi-Id" ∧
    textproto.CanonicalMIMEHeaderKey "TAPI-MAC" = "Tapi-Mac" := by
  decide

theorem signedRequest_header (env : Env) (c : Client) (u : url.URL) (e : String) :
    (c.signedRequest env u e).Header.Get "TAPI-MAC" = c.Hmac env (u.Path ++ "?" ++ e) ∧
    (c.signedRequest env u e).Header.Get "TAPI-ID" = c.apiID ∧
    (c.signedRequest env u e).Header.Get "Content-Type" = "application/x-www-form-urlencoded" := by
  obtain ⟨h1, h2, h3⟩ := canonical_keys
  simp [Client.signedRequest, Header_Get_Set, h1, h2, h3]

/-- C4: when the service URL parses, `MakeRequest` hands exactly one request to
the transport; its body is the URL-encoding of the parameters with `tapi_nonce`
added, its header `TAPI-MAC` is `Hmac` of the URL's path, then `?`, then that
same body, and its header `TAPI-ID` is the client's API id. -/
theorem MakeRequest_signed_message (env : Env) (c : Client) (params : Values) (w : World)
    (u : url.URL) (h : env.urlParse c.service = Except.ok u) :
    ∃ (r : http.Request) (e : String),
      (c.MakeRequest env params w).2.sent = w.sent ++ [r] ∧
      e = (params.Add "tapi_nonce" (strconv.FormatInt (env.unixNano w.reads) 10)).Encode ∧
      r.Method = "POST" ∧ r.URL = u ∧ r.Body = e ∧
      r.Header.Get "TAPI-MAC" = c.Hmac env (u.Path ++ "?" ++ e) ∧
      c.Hmac env (u.Path ++ "?" ++ e) = env.hmacSHA512Hex c.apiKey (u.Path ++ "?" ++ r.Body) ∧
      r.Header.Get "TAPI-ID" = c.apiID ∧
      r.Header.Get "Content-Type" = "application/x-www-form-urlencoded" := by
  refine ⟨c.signedRequest env u (c.encodedBody env params w), c.encodedBody env params w, ?_⟩
  obtain ⟨h1, h2, h3⟩ := signedRequest_header env c u (c.encodedBody env params w)
  rw [MakeRequest_parse_ok env c params w u h]
  exact ⟨rfl, rfl, rfl, rfl, rfl, h1, rfl, h2, h3⟩

/-- C4, for the test client on an otherwise empty parameter set: the one request
sent has the body `tapi_nonce=1453827748000000000`, and the digest stand-in shows
the key and the signed message `/tapi/v3/?tapi_nonce=1453827748000000000`. -/
theorem MakeRequest_signed_message_witness :
    ∃ r : http.Request,
      (mockClient.MakeRequest mockEnv Values.empty World.initial).2.sent = [r] ∧
      r.Body = "tapi_nonce=1453827748000000000" ∧
      r.Header.Get "TAPI-MAC" = fakeKey ++ ":" ++ "/tapi/v3/?tapi_nonce=1453827748000000000" ∧
      r.Header.Get "TAPI-ID" = fakeID := by
  obtain ⟨r, e, h1, h2, -, -, h5, h6, -, h8, -⟩ :=
    MakeRequest_signed_message mockEnv mockClient Values.empty World.initial
      { Scheme := "https", Host := "www.mercadobitcoin.net", Path := "/tapi/v3/", RawQuery := "" }
      rfl
  have he : e = "tapi_nonce=1453827748000000000" := by
    rw [h2]
    decide
  refine ⟨r, h1, by rw [h5, he], ?_, h8⟩
  rw [h6, he]
  rfl


/-! ## Lemmas on the options encoder -/

theorem Itoa_one_two : strconv.Itoa 1 = "1" ∧ strconv.Itoa 2 = "2" := by
  decide

theorem find_order_type_parseOpts (params : Values) (opts : ListOrdersOpts) :
    (parseOpts params opts).find "order_type" =
      if opts.OrderType < 0 then some ["2"]
      else if opts.OrderType > 0 then some ["1"]
      else params.find "order_type" := by
  simp [parseOpts, Values.find_ite, Values.find_Set, Itoa_one_two.1, Itoa_one_two.2]

theorem find_has_fills_parseOpts (params : Values) (opts : ListOrdersOpts) :
    (parseOpts params opts).find "has_fills" =
      if opts.HasFills < 0 then some ["false"]
      else if opts.HasFills > 0 then some ["true"]
      else params.find "has_fills" := by
  simp [parseOpts, Values.find_ite, Values.find_Set]

theorem find_bounds_parseOpts (params : Values) (opts : ListOrdersOpts) :
    ((parseOpts params opts).find "from_id" =
      if opts.FromID ≠ 0 then some [strconv.Itoa opts.FromID] else params.find "from_id") ∧
    ((parseOpts params opts).find "to_id" =
      if opts.ToID ≠ 0 then some [strconv.Itoa opts.ToID] else params.find "to_id") ∧
    ((parseOpts params opts).find "from_timestamp" =
      if opts.FromTimestamp ≠ "" then some [opts.FromTimestamp]
      else params.find "from_timestamp") ∧
    ((parseOpts params opts).find "to_timestamp" =
      if opts.ToTimestamp ≠ "" then some [opts.ToTimestamp]
      else params.find "to_timestamp") := by
  refine ⟨?_, ?_, ?_, ?_⟩ <;> simp [parseOpts, Values.find_ite, Values.find_Set]

theorem Values.find_empty (k : String) : Values.empty.find k = none :=
  rfl

theorem find_ListOrdersParams_none (env : Env) (c1 c2 : Coin) (k : String) :
    (ListOrdersParams env c1 c2 none).find k =
      if k = "coin_pair" then some [env.coinString c1 ++ env.coinString c2]
      else if k = "tapi_method" then some ["list_orders"]
      else none := by
  simp only [ListOrdersParams, Values.find_Set, Values.find_empty]

theorem ListOrdersParams_some (env : Env) (c1 c2 : Coin) (opts : ListOrdersOpts) :
    ListOrdersParams env c1 c2 (some opts) = parseOpts (ListOrdersParams env c1 c2 none) opts :=
  rfl

/-- C5: `parseOpts` leaves `order_type` alone (absent, in `ListOrders`) when
`OrderType` is zero, sets it to `2` when `OrderType` is negative and to `1` when
it is positive, whatever the magnitude. -/
theorem parseOpts_order_type (env : Env) (c1 c2 : Coin) (params : Values)
    (opts : ListOrdersOpts) :
    (opts.OrderType = 0 →
      (parseOpts params opts).find "order_type" = params.find "order_type" ∧
      (ListOrdersParams env c1 c2 (some opts)).find "order_type" = none) ∧
    (opts.OrderType < 0 →
      (parseOpts params opts).find "order_type" = some ["2"] ∧
      (ListOrdersParams env c1 c2 (some opts)).find "order_type" = some ["2"]) ∧
    (opts.OrderType > 0 →
      (parseOpts params opts).find "order_type" = some ["1"] ∧
      (ListOrdersParams env c1 c2 (some opts)).find "order_type" = some ["1"]) := by
  rw [ListOrdersParams_some, find_order_type_parseOpts, find_order_type_parseOpts,
    find_ListOrdersParams_none]
  refine ⟨fun h => ?_, fun h => ?_, fun h => ?_⟩
  · simp [h]
  · simp [h]
  · have hn : ¬ opts.OrderType < 0 := by omega
    simp [h, hn]

/-- C5, on the values of `TestListOrders` and on large magnitudes: `-1` and
`-1000000` give `2`, `1` and `77` give `1`, and `0` gives no `order_type`. -/
theorem parseOpts_order_type_witness :
    (parseOpts Values.empty { OrderType := -1 }).find "order_type" = some ["2"] ∧
    (ListOrdersParams mockEnv BRL ETH (some { OrderType := -1000000 })).find "order_type" =
      some ["2"] ∧
    (parseOpts Values.empty { OrderType := 1 }).find "order_type" = some ["1"] ∧
    (ListOrdersParams mockEnv BRL ETH (some { OrderType := 77 })).find "order_type" =
      some ["1"] ∧
    (ListOrdersParams mockEnv BRL BTC (some { OrderType := 0 })).find "order_type" = none :=
  ⟨((parseOpts_order_type mockEnv BRL ETH Values.empty { OrderType := -1 }).2.1 (by decide)).1,
   ((parseOpts_order_type mockEnv BRL ETH Values.empty { OrderType := -1000000 }).2.1
      (by decide)).2,
   ((parseOpts_order_type mockEnv BRL ETH Values.empty { OrderType := 1 }).2.2 (by decide)).1,
   ((parseOpts_order_type mockEnv BRL ETH Values.empty { OrderType := 77 }).2.2 (by decide)).2,
   ((parseOpts_order_type mockEnv BRL BTC Values.empty { OrderType := 0 }).1 rfl).2⟩

/-- C6: `parseOpts` leaves `has_fills` alone (absent, in `ListOrders`) when
`HasFills` is zero, sets it to the literal `false` when `HasFills` is negative
and to the literal `true` when it is positive. -/
theorem parseOpts_has_fills (env : Env) (c1 c2 : Coin) (params : Values)
    (opts : ListOrdersOpts) :
    (opts.HasFills = 0 →
      (parseOpts params opts).find "has_fills" = params.find "has_fills" ∧
      (ListOrdersParams env c1 c2 (some opts)).find "has_fills" = none) ∧
    (opts.HasFills < 0 →
      (parseOpts params opts).find "has_fills" = some ["false"] ∧
      (ListOrdersParams env c1 c2 (some opts)).find "has_fills" = some ["false"]) ∧
    (opts.HasFills > 0 →
      (parseOpts params opts).find "has_fills" = some ["true"] ∧
      (ListOrdersParams env c1 c2 (some opts)).find "has_fills" = some ["true"]) := by
  rw [ListOrdersParams_some, find_has_fills_parseOpts, find_has_fills_parseOpts,
    find_ListOrdersParams_none]
  refine ⟨fun h => ?_, fun h => ?_, fun h => ?_⟩
  · simp [h]
  · simp [h]
  · have hn : ¬ opts.HasFills < 0 := by omega
    simp [h, hn]

/-- C6, on the values of `TestListOrders`: `1` gives `true`, `-1` gives `false`
and `0` gives no `has_fills`. -/
theorem parseOpts_has_fills_witness :
    (ListOrdersParams mockEnv BRL ETH (some { HasFills := 1 })).find "has_fills" =
      some ["true"] ∧
    (ListOrdersParams mockEnv BRL ETH (some { HasFills := -1 })).find "has_fills" =
      some ["false"] ∧
    (ListOrdersParams mockEnv BRL BTC (some { HasFills := 0 })).find "has_fills" = none :=
  ⟨((parseOpts_has_fills mockEnv BRL ETH Values.empty { HasFills := 1 }).2.2 (by decide)).2,
   ((parseOpts_has_fills mockEnv BRL ETH Values.empty { HasFills := -1 }).2.1 (by decide)).2,
   ((parseOpts_has_fills mockEnv BRL BTC Values.empty { HasFills := 0 }).1 rfl).2⟩


/-- C7, as stated, fails: with `FromID = 5` and `ToID = 0` the ids satisfy
`FromID > ToID`, yet `to_id` is not emitted, since a zero bound means not set;
likewise a non-empty `FromTimestamp` with an empty `ToTimestamp` emits no
`to_timestamp`. -/
theorem parseOpts_bounds_counterexample :
    ({ FromID := 5, ToID := 0 } : ListOrdersOpts).FromID >
      ({ FromID := 5, ToID := 0 } : ListOrdersOpts).ToID ∧
    (parseOpts Values.empty { FromID := 5, ToID := 0 }).find "from_id" = some ["5"] ∧
    (parseOpts Values.empty { FromID := 5, ToID := 0 }).find "to_id" = none ∧
    (ListOrdersParams mockEnv BRL BTC (some { FromID := 5, ToID := 0 })).Has "to_id" = false ∧
    (parseOpts Values.empty { FromTimestamp := "1453838494", ToTimestamp := "" }).find
      "to_timestamp" = none := by
  decide

/-- C7, amended: `parseOpts` sets `from_id` (resp. `to_id`) exactly when
`FromID` (resp. `ToID`) is non-zero, to its decimal string, and
`from_timestamp` (resp. `to_timestamp`) exactly when the string is non-empty, to
that string; each bound depends on its own field only, and whenever both bounds
of a pair are provided they are both emitted, in whatever order they stand. -/
theorem parseOpts_bounds (env : Env) (c1 c2 : Coin) (params : Values) (opts : ListOrdersOpts) :
    ((parseOpts params opts).find "from_id" =
      if opts.FromID ≠ 0 then some [strconv.Itoa opts.FromID] else params.find "from_id") ∧
    ((parseOpts params opts).find "to_id" =
      if opts.ToID ≠ 0 then some [strconv.Itoa opts.ToID] else params.find "to_id") ∧
    ((parseOpts params opts).find "from_timestamp" =
      if opts.FromTimestamp ≠ "" then some [opts.FromTimestamp]
      else params.find "from_timestamp") ∧
    ((parseOpts params opts).find "to_timestamp" =
      if opts.ToTimestamp ≠ "" then some [opts.ToTimestamp]
      else params.find "to_timestamp") ∧
    ((ListOrdersParams env c1 c2 (some opts)).find "from_id" =
      if opts.FromID ≠ 0 then some [strconv.Itoa opts.FromID] else none) ∧
    ((ListOrdersParams env c1 c2 (some opts)).find "to_id" =
      if opts.ToID ≠ 0 then some [strconv.Itoa opts.ToID] else none) ∧
    ((ListOrdersParams env c1 c2 (some opts)).find "from_timestamp" =
      if opts.FromTimestamp ≠ "" then some [opts.FromTimestamp] else none) ∧
    ((ListOrdersParams env c1 c2 (some opts)).find "to_timestamp" =
      if opts.ToTimestamp ≠ "" then some [opts.ToTimestamp] else none) ∧
    (opts.FromID ≠ 0 → opts.ToID ≠ 0 →
      (parseOpts params opts).find "from_id" = some [strconv.Itoa opts.FromID] ∧
      (parseOpts params opts).find "to_id" = some [strconv.Itoa opts.ToID]) ∧
    (opts.FromTimestamp ≠ "" → opts.ToTimestamp ≠ "" →
      (parseOpts params opts).find "from_timestamp" = some [opts.FromTimestamp] ∧
      (parseOpts params opts).find "to_timestamp" = some [opts.ToTimestamp]) := by
  obtain ⟨h1, h2, h3, h4⟩ := find_bounds_parseOpts params opts
  obtain ⟨g1, g2, g3, g4⟩ := find_bounds_parseOpts (ListOrdersParams env c1 c2 none) opts
  simp only [find_ListOrdersParams_none] at g1 g2 g3 g4
  refine ⟨h1, h2, h3, h4, ?_, ?_, ?_, ?_, ?_, ?_⟩
  · rw [ListOrdersParams_some, g1]
    simp
  · rw [ListOrdersParams_some, g2]
    simp
  · rw [ListOrdersParams_some, g3]
    simp
  · rw [ListOrdersParams_some, g4]
    simp
  · intro hf ht
    rw [h1, h2, if_pos hf, if_pos ht]
    exact ⟨rfl, rfl⟩
  · intro hf ht
    rw [h3, h4, if_pos hf, if_pos ht]
    exact ⟨rfl, rfl⟩

/-- C7, amended, on bounds in reverse order: `FromID = 1000` and `ToID = 500`
are both emitted, and so are the timestamps `9` and `1`. -/
theorem parseOpts_bounds_witness :
    ((parseOpts Values.empty { FromID := 1000, ToID := 500 }).find "from_id" = some ["1000"] ∧
      (parseOpts Values.empty { FromID := 1000, ToID := 500 }).find "to_id" = some ["500"]) ∧
    ((parseOpts Values.empty { FromTimestamp := "9", ToTimestamp := "1" }).find
        "from_timestamp" = some ["9"] ∧
      (parseOpts Values.empty { FromTimestamp := "9", ToTimestamp := "1" }).find
        "to_timestamp" = some ["1"]) :=
  ⟨(parseOpts_bounds mockEnv BRL BTC Values.empty { FromID := 1000, ToID := 500 }).2.2.2.2.2.2.2.2.1
      (by decide) (by decide),
   (parseOpts_bounds mockEnv BRL BTC Values.empty
      { FromTimestamp := "9", ToTimestamp := "1" }).2.2.2.2.2.2.2.2.2 (by decide) (by decide)⟩

theorem parseOpts_zero (params : Values) : parseOpts params {} = params := by
  have h : statusListLoop (fun _ => 0) = "" := by decide
  simp [parseOpts, h]

/-- C8: `ListOrders` with `opts = nil` and with `opts = &ListOrdersOpts{}` build
the same parameter set and behave alike; that set binds `tapi_method` to
`list_orders` and `coin_pair` to the two coin codes, and nothing else, so none
of the seven filter parameters is present. -/
theorem ListOrders_nil_eq_zero_opts (env : Env) (c : Client) (c1 c2 : Coin) (w : World) :
    ListOrdersParams env c1 c2 (some {}) = ListOrdersParams env c1 c2 none ∧
    c.ListOrders env c1 c2 (some {}) w = c.ListOrders env c1 c2 none w ∧
    (∀ k : String, (ListOrdersParams env c1 c2 (some {})).find k =
      if k = "coin_pair" then some [env.coinString c1 ++ env.coinString c2]
      else if k = "tapi_method" then some ["list_orders"]
      else none) ∧
    (["order_type", "status_list", "has_fills", "from_id", "to_id", "from_timestamp",
      "to_timestamp"].all fun k => !(ListOrdersParams env c1 c2 (some {})).Has k) = true := by
  have h : ListOrdersParams env c1 c2 (some {}) = ListOrdersParams env c1 c2 none := by
    rw [ListOrdersParams_some, parseOpts_zero]
  refine ⟨h, ?_, ?_, ?_⟩
  · simp only [Client.ListOrders, h]
  · intro k
    rw [h, find_ListOrdersParams_none]
  · simp [h, Values.Has, find_ListOrdersParams_none]

/-- C8, for the pair of `TestListOrders`: both calls build the two bindings
`coin_pair = BRLBTC` and `tapi_method = list_orders`. -/
theorem ListOrders_nil_eq_zero_opts_witness :
    ListOrdersParams mockEnv BRL BTC (some {}) = ListOrdersParams mockEnv BRL BTC none ∧
    (ListOrdersParams mockEnv BRL BTC (some {})).entries =
      [("coin_pair", ["BRLBTC"]), ("tapi_method", ["list_orders"])] :=
  ⟨(ListOrders_nil_eq_zero_opts mockEnv mockClient BRL BTC World.initial).1, by decide⟩


/-! ## Lemmas on the operations -/

theorem dispatch_world {α : Type} (env : Env) (c : Client) (params : Values)
    (decode : String → Except GoError α) (w : World) :
    (c.dispatch env params decode w).2 = (c.MakeRequest env params w).2 := by
  unfold Client.dispatch
  split <;> simp_all

theorem MakeRequest_reads (env : Env) (c : Client) (params : Values) (w : World) :
    (c.MakeRequest env params w).2.reads = w.reads + 1 := by
  cases hp : env.urlParse c.service with
  | error err => rw [MakeRequest_parse_error env c params w err hp]
  | ok u => rw [MakeRequest_parse_ok env c params w u hp]

theorem MakeRequest_sent (env : Env) (c : Client) (params : Values) (w : World) (u : url.URL)
    (h : env.urlParse c.service = Except.ok u) :
    (c.MakeRequest env params w).2.sent =
      w.sent ++ [c.signedRequest env u (c.encodedBody env params w)] := by
  rw [MakeRequest_parse_ok env c params w u h]

theorem forall₂_map_eq {α β : Type} (f : α → β) (l1 l2 : List α) :
    List.Forall₂ (fun x y => f x = f y) l1 l2 ↔ l1.map f = l2.map f := by
  induction l1 generalizing l2 with
  | nil =>
    cases l2 with
    | nil => simp
    | cons b t => simp
  | cons a t ih =>
    cases l2 with
    | nil => simp
    | cons b t2 => simp [ih]

theorem ToLower_eq_iff (env : Env) (a b : String)
    (hb : b.data.map (strings.toLowerRune env) = b.data) :
    strings.ToLower env a = b ↔ equalUpToCase env a b := by
  unfold equalUpToCase strings.ToLower
  rw [forall₂_map_eq, hb]
  constructor
  · intro h
    rw [← h]
  · intro h
    rw [h]

theorem ToLower_levels (env : Env) (lvl : String) :
    (strings.ToLower env lvl = "info" ↔ equalUpToCase env lvl "info") ∧
    (strings.ToLower env lvl = "warning" ↔ equalUpToCase env lvl "warning") ∧
    (strings.ToLower env lvl = "error" ↔ equalUpToCase env lvl "error") :=
  ⟨ToLower_eq_iff env lvl "info" rfl, ToLower_eq_iff env lvl "warning" rfl,
   ToLower_eq_iff env lvl "error" rfl⟩

theorem find_ListSystemMessagesParams (env : Env) (lvl k : String) :
    (ListSystemMessagesParams env lvl).find k =
      if k = "level" ∧ strings.ToLower env lvl = "info" then some ["INFO"]
      else if k = "level" ∧ strings.ToLower env lvl = "warning" then some ["WARNING"]
      else if k = "level" ∧ strings.ToLower env lvl = "error" then some ["ERROR"]
      else if k = "tapi_method" then some ["list_system_messages"]
      else none := by
  unfold ListSystemMessagesParams
  by_cases h1 : strings.ToLower env lvl = "info"
  · by_cases hk : k = "level" <;>
      simp [h1, hk, Values.find_Set, Values.find_empty]
  · by_cases h2 : strings.ToLower env lvl = "warning"
    · by_cases hk : k = "level" <;>
        simp [h1, h2, hk, Values.find_Set, Values.find_empty]
    · by_cases h3 : strings.ToLower env lvl = "error"
      · by_cases hk : k = "level" <;>
          simp [h1, h2, h3, hk, Values.find_Set, Values.find_empty]
      · simp [h1, h2, h3, Values.find_Set, Values.find_empty]


/-- C9: `ListSystemMessages` always sets `tapi_method` to
`list_system_messages`; it sets `level` to `INFO`, `WARNING` or `ERROR` when
`lvl` equals `info`, `warning` or `error` up to letter case, and sets no `level`
for any other `lvl`; no other parameter is built, and the map so built is the
one encoded into the body of the request that is sent. -/
theorem ListSystemMessages_level (env : Env) (c : Client) (lvl : String) (w : World) :
    (ListSystemMessagesParams env lvl).find "tapi_method" = some ["list_system_messages"] ∧
    (equalUpToCase env lvl "info" →
      (ListSystemMessagesParams env lvl).find "level" = some ["INFO"]) ∧
    (equalUpToCase env lvl "warning" →
      (ListSystemMessagesParams env lvl).find "level" = some ["WARNING"]) ∧
    (equalUpToCase env lvl "error" →
      (ListSystemMessagesParams env lvl).find "level" = some ["ERROR"]) ∧
    (¬ equalUpToCase env lvl "info" → ¬ equalUpToCase env lvl "warning" →
      ¬ equalUpToCase env lvl "error" →
      (ListSystemMessagesParams env lvl).find "level" = none) ∧
    (∀ k : String, k ≠ "tapi_method" → k ≠ "level" →
      (ListSystemMessagesParams env lvl).find k = none) ∧
    (∀ u : url.URL, env.urlParse c.service = Except.ok u →
      (c.ListSystemMessages env lvl w).2.sent =
        w.sent ++ [c.signedRequest env u
          (c.encodedBody env (ListSystemMessagesParams env lvl) w)]) := by
  obtain ⟨e1, e2, e3⟩ := ToLower_levels env lvl
  refine ⟨?_, ?_, ?_, ?_, ?_, ?_, ?_⟩
  · rw [find_ListSystemMessagesParams]
    simp
  · intro h
    rw [find_ListSystemMessagesParams]
    simp [e1.2 h]
  · intro h
    rw [find_ListSystemMessagesParams]
    simp [e2.2 h]
  · intro h
    rw [find_ListSystemMessagesParams]
    simp [e3.2 h]
  · intro h1 h2 h3
    have g1 : ¬ strings.ToLower env lvl = "info" := fun g => h1 (e1.1 g)
    have g2 : ¬ strings.ToLower env lvl = "warning" := fun g => h2 (e2.1 g)
    have g3 : ¬ strings.ToLower env lvl = "error" := fun g => h3 (e3.1 g)
    rw [find_ListSystemMessagesParams]
    simp [g1, g2, g3]
  · intro k hk1 hk2
    rw [find_ListSystemMessagesParams]
    simp [hk1, hk2]
  · intro u hu
    unfold Client.ListSystemMessages
    rw [dispatch_world, MakeRequest_sent env c _ w u hu]

/-- C9, on the table of `TestListSystemMessages`: `Info` and `INFO` give
`INFO`, `WaRniNg` gives `WARNING`, `error` gives `ERROR`, and `invalid` and the
empty string give no `level`. -/
theorem ListSystemMessages_level_witness :
    (ListSystemMessagesParams mockEnv "Info").find "level" = some ["INFO"] ∧
    (ListSystemMessagesParams mockEnv "INFO").find "level" = some ["INFO"] ∧
    (ListSystemMessagesParams mockEnv "WaRniNg").find "level" = some ["WARNING"] ∧
    (ListSystemMessagesParams mockEnv "error").find "level" = some ["ERROR"] ∧
    (ListSystemMessagesParams mockEnv "invalid").find "level" = none ∧
    (ListSystemMessagesParams mockEnv "").find "level" = none ∧
    (ListSystemMessagesParams mockEnv "").find "tapi_method" = some ["list_system_messages"] :=
  ⟨(ListSystemMessages_level mockEnv mockClient "Info" World.initial).2.1 (by decide),
   (ListSystemMessages_level mockEnv mockClient "INFO" World.initial).2.1 (by decide),
   (ListSystemMessages_level mockEnv mockClient "WaRniNg" World.initial).2.2.1 (by decide),
   (ListSystemMessages_level mockEnv mockClient "error" World.initial).2.2.2.1 (by decide),
   (ListSystemMessages_level mockEnv mockClient "invalid" World.initial).2.2.2.2.1
     (by decide) (by decide) (by decide),
   (ListSystemMessages_level mockEnv mockClient "" World.initial).2.2.2.2.1
     (by decide) (by decide) (by decide),
   (ListSystemMessages_level mockEnv mockClient "" World.initial).1⟩

/-- C10: `WithdrawCrypto` with a nil `WithdrawInfo`, or with the coin BRL,
returns an error and no withdrawal and leaves the world untouched: the clock is
not read and no request is sent.  For a non-BRL coin and a non-nil
`WithdrawInfo` it goes through `withdrawCoin` into `MakeRequest`: the nonce is
taken, and when the service URL parses one request is handed to the transport. -/
theorem WithdrawCrypto_preconditions (env : Env) (c : Client) (coin : Coin) (desc : String)
    (i : Option WithdrawInfo) (w : World) :
    (i = none →
      c.WithdrawCrypto env coin desc i w = (Except.error (errors.New "nil WithdrawInfo"), w)) ∧
    (coin = BRL →
      ∃ err : GoError, c.WithdrawCrypto env coin desc i w = (Except.error err, w)) ∧
    (∀ info : WithdrawInfo, i = some info → coin ≠ BRL →
      c.WithdrawCrypto env coin desc i w =
        c.withdrawCoin env coin (WithdrawCryptoParams coin info) desc w ∧
      (c.WithdrawCrypto env coin desc i w).2 =
        (c.MakeRequest env
          (withdrawCoinParams env coin (WithdrawCryptoParams coin info) desc) w).2 ∧
      (c.WithdrawCrypto env coin desc i w).2.reads = w.reads + 1 ∧
      ∀ u : url.URL, env.urlParse c.service = Except.ok u →
        (c.WithdrawCrypto env coin desc i w).2.sent =
          w.sent ++ [c.signedRequest env u (c.encodedBody env
            (withdrawCoinParams env coin (WithdrawCryptoParams coin info) desc) w)]) := by
  refine ⟨?_, ?_, ?_⟩
  · intro hi
    subst hi
    rfl
  · intro hc
    subst hc
    cases i with
    | none => exact ⟨_, rfl⟩
    | some info => exact ⟨errors.New "use WithdrawBRL for BRL", by simp [Client.WithdrawCrypto]⟩
  · intro info hi hc
    subst hi
    have h : c.WithdrawCrypto env coin desc (some info) w =
        c.withdrawCoin env coin (WithdrawCryptoParams coin info) desc w := by
      simp [Client.WithdrawCrypto, hc]
    have hw : (c.withdrawCoin env coin (WithdrawCryptoParams coin info) desc w).2 =
        (c.MakeRequest env
          (withdrawCoinParams env coin (WithdrawCryptoParams coin info) desc) w).2 := by
      unfold Client.withdrawCoin
      rw [dispatch_world]
    refine ⟨h, ?_, ?_, ?_⟩
    · rw [h, hw]
    · rw [h, hw, MakeRequest_reads]
    · intro u hu
      rw [h, hw, MakeRequest_sent env c _ w u hu]

/-- C10, for the test client: a nil `WithdrawInfo` and the coin BRL fail in an
untouched world; a BTC withdrawal reads the clock once and sends one request. -/
theorem WithdrawCrypto_preconditions_witness :
    mockClient.WithdrawCrypto mockEnv BTC "" none World.initial =
      (Except.error (errors.New "nil WithdrawInfo"), World.initial) ∧
    (∃ err : GoError,
      mockClient.WithdrawCrypto mockEnv BRL ""
        (some { Address := "a", Quantity := "0.678", TxFee := "0.0005" }) World.initial =
        (Except.error err, World.initial)) ∧
    (mockClient.WithdrawCrypto mockEnv BTC ""
        (some { Address := "a", Quantity := "0.678", TxFee := "0.0005" }) World.initial).2.reads =
      World.initial.reads + 1 ∧
    (mockClient.WithdrawCrypto mockEnv BTC ""
        (some { Address := "a", Quantity := "0.678", TxFee := "0.0005" })
        World.initial).2.sent.length = 1 := by
  refine ⟨?_, ?_, ?_, ?_⟩
  · exact (WithdrawCrypto_preconditions mockEnv mockClient BTC "" none World.initial).1 rfl
  · exact (WithdrawCrypto_preconditions mockEnv mockClient BRL "" _ World.initial).2.1 rfl
  · exact ((WithdrawCrypto_preconditions mockEnv mockClient BTC "" _ World.initial).2.2
      _ rfl (by decide)).2.2.1
  · have h := ((WithdrawCrypto_preconditions mockEnv mockClient BTC ""
      (some { Address := "a", Quantity := "0.678", TxFee := "0.0005" }) World.initial).2.2
      _ rfl (by decide)).2.2.2
      { Scheme := "https", Host := "www.mercadobitcoin.net", Path := "/tapi/v3/", RawQuery := "" }
      rfl
    rw [h]
    rfl

/-! ## Lemmas on the withdrawal parameters -/

theorem find_WithdrawCryptoParams (coin : Coin) (i : WithdrawInfo) (k : String) :
    (WithdrawCryptoParams coin i).find k =
      if k = "destination_tag" ∧ coin = XRP then some [strconv.Itoa i.DestinationTag]
      else if k = "via_blockchain" ∧ i.ViaBlockchain = true then some ["true"]
      else if k = "tx_aggregate" ∧ i.TxNotAggregate = true then some ["false"]
      else if k = "tx_fee" then some [i.TxFee]
      else if k = "quantity" then some [i.Quantity]
      else if k = "address" then some [i.Address]
      else none := by
  simp only [WithdrawCryptoParams, Values.find_ite, Values.find_Set, Values.find_empty]
  by_cases hx : coin = XRP <;> cases i.ViaBlockchain <;> cases i.TxNotAggregate <;>
    simp [hx]

theorem find_withdrawCoinParams (env : Env) (coin : Coin) (p : Values) (desc k : String) :
    (withdrawCoinParams env coin p desc).find k =
      if k = "description" ∧ desc ≠ "" then some [desc]
      else if k = "coin" then some [env.coinString coin]
      else if k = "tapi_method" then some ["withdraw_coin"]
      else p.find k := by
  simp only [withdrawCoinParams, Values.find_ite, Values.find_Set]
  by_cases hd : desc = "" <;> simp [hd]

theorem WithdrawCrypto_sent (env : Env) (c : Client) (coin : Coin) (desc : String)
    (info : WithdrawInfo) (w : World) (u : url.URL) (hc : coin ≠ BRL)
    (hu : env.urlParse c.service = Except.ok u) :
    (c.WithdrawCrypto env coin desc (some info) w).2.sent =
      w.sent ++ [c.signedRequest env u (c.encodedBody env
        (withdrawCoinParams env coin (WithdrawCryptoParams coin info) desc) w)] := by
  have h : c.WithdrawCrypto env coin desc (some info) w =
      c.withdrawCoin env coin (WithdrawCryptoParams coin info) desc w := by
    simp [Client.WithdrawCrypto, hc]
  rw [h]
  unfold Client.withdrawCoin
  rw [dispatch_world, MakeRequest_sent env c _ w u hu]

/-- C11: for a non-BRL coin and a non-nil `WithdrawInfo`, the parameters that
`WithdrawCrypto` dispatches hold `destination_tag` exactly when the coin is XRP,
bound to the decimal string of `DestinationTag`; for any other coin the
parameter is absent whatever `DestinationTag` holds. -/
theorem WithdrawCrypto_destination_tag (env : Env) (c : Client) (coin : Coin) (desc : String)
    (info : WithdrawInfo) (w : World) (hc : coin ≠ BRL) :
    ((withdrawCoinParams env coin (WithdrawCryptoParams coin info) desc).find "destination_tag" =
      if coin = XRP then some [strconv.Itoa info.DestinationTag] else none) ∧
    ((withdrawCoinParams env coin (WithdrawCryptoParams coin info) desc).Has "destination_tag" =
      true ↔ coin = XRP) ∧
    (∀ u : url.URL, env.urlParse c.service = Except.ok u →
      (c.WithdrawCrypto env coin desc (some info) w).2.sent =
        w.sent ++ [c.signedRequest env u (c.encodedBody env
          (withdrawCoinParams env coin (WithdrawCryptoParams coin info) desc) w)]) := by
  have h : (withdrawCoinParams env coin (WithdrawCryptoParams coin info) desc).find
      "destination_tag" = if coin = XRP then some [strconv.Itoa info.DestinationTag] else none := by
    rw [find_withdrawCoinParams, find_WithdrawCryptoParams]
    simp
  refine ⟨h, ?_, fun u hu => WithdrawCrypto_sent env c coin desc info w u hc hu⟩
  unfold Values.Has
  rw [h]
  by_cases hx : coin = XRP <;> simp [hx]

/-- C11, on the rows of `TestWithdrawlCrypto`: XRP with tag 20 sends
`destination_tag = 20`, and BTC sends none even with a tag set. -/
theorem WithdrawCrypto_destination_tag_witness :
    (withdrawCoinParams mockEnv XRP (WithdrawCryptoParams XRP
      { Address := "18d2ogsrMXsspcxzz3DgecePNdxcZUpaUY", Quantity := "0.9", TxFee := "0.08",
        TxNotAggregate := true, DestinationTag := 20 }) "hello").find "destination_tag" =
      some ["20"] ∧
    (withdrawCoinParams mockEnv BTC (WithdrawCryptoParams BTC
      { Address := "18d2ogsrMXsspcxzz3DgecePNdxcZUpaUX", Quantity := "0.678", TxFee := "0.0005",
        ViaBlockchain := true, DestinationTag := 20 }) "").find "destination_tag" = none := by
  constructor
  · rw [(WithdrawCrypto_destination_tag mockEnv mockClient XRP "hello" _ World.initial
      (by decide)).1]
    decide
  · rw [(WithdrawCrypto_destination_tag mockEnv mockClient BTC "" _ World.initial
      (by decide)).1]
    decide

/-- C12: for a non-BRL coin and a non-nil `WithdrawInfo`, the parameters that
`WithdrawCrypto` dispatches hold `tx_aggregate`, bound to `false`, exactly when
`TxNotAggregate` is set, and `via_blockchain`, bound to `true`, exactly when
`ViaBlockchain` is set; `address`, `quantity` and `tx_fee` are always bound to
the fields of the `WithdrawInfo`, unchanged. -/
theorem WithdrawCrypto_flags (env : Env) (c : Client) (coin : Coin) (desc : String)
    (info : WithdrawInfo) (w : World) (hc : coin ≠ BRL) :
    ((withdrawCoinParams env coin (WithdrawCryptoParams coin info) desc).find "tx_aggregate" =
      if info.TxNotAggregate = true then some ["false"] else none) ∧
    ((withdrawCoinParams env coin (WithdrawCryptoParams coin info) desc).find "via_blockchain" =
      if info.ViaBlockchain = true then some ["true"] else none) ∧
    (withdrawCoinParams env coin (WithdrawCryptoParams coin info) desc).find "address" =
      some [info.Address] ∧
    (withdrawCoinParams env coin (WithdrawCryptoParams coin info) desc).find "quantity" =
      some [info.Quantity] ∧
    (withdrawCoinParams env coin (WithdrawCryptoParams coin info) desc).find "tx_fee" =
      some [info.TxFee] ∧
    (∀ u : url.URL, env.urlParse c.service = Except.ok u →
      (c.WithdrawCrypto env coin desc (some info) w).2.sent =
        w.sent ++ [c.signedRequest env u (c.encodedBody env
          (withdrawCoinParams env coin (WithdrawCryptoParams coin info) desc) w)]) := by
  refine ⟨?_, ?_, ?_, ?_, ?_, fun u hu => WithdrawCrypto_sent env c coin desc info w u hc hu⟩ <;>
    rw [find_withdrawCoinParams, find_WithdrawCryptoParams] <;> simp

/-- C12, on the rows of `TestWithdrawlCrypto`: the BTC row sends
`via_blockchain = true` and no `tx_aggregate`; the XRP row sends
`tx_aggregate = false` and no `via_blockchain`; the address goes out unchanged. -/
theorem WithdrawCrypto_flags_witness :
    (withdrawCoinParams mockEnv BTC (WithdrawCryptoParams BTC
      { Address := "18d2ogsrMXsspcxzz3DgecePNdxcZUpaUX", Quantity := "0.678", TxFee := "0.0005",
        ViaBlockchain := true }) "").find "via_blockchain" = some ["true"] ∧
    (withdrawCoinParams mockEnv BTC (WithdrawCryptoParams BTC
      { Address := "18d2ogsrMXsspcxzz3DgecePNdxcZUpaUX", Quantity := "0.678", TxFee := "0.0005",
        ViaBlockchain := true }) "").find "tx_aggregate" = none ∧
    (withdrawCoinParams mockEnv XRP (WithdrawCryptoParams XRP
      { Address := "18d2ogsrMXsspcxzz3DgecePNdxcZUpaUY", Quantity := "0.9", TxFee := "0.08",
        TxNotAggregate := true, DestinationTag := 20 }) "hello").find "tx_aggregate" =
      some ["false"] ∧
    (withdrawCoinParams mockEnv XRP (WithdrawCryptoParams XRP
      { Address := "18d2ogsrMXsspcxzz3DgecePNdxcZUpaUY", Quantity := "0.9", TxFee := "0.08",
        TxNotAggregate := true, DestinationTag := 20 }) "hello").find "address" =
      some ["18d2ogsrMXsspcxzz3DgecePNdxcZUpaUY"] :=
  ⟨(WithdrawCrypto_flags mockEnv mockClient BTC "" _ World.initial (by decide)).2.1,
   (WithdrawCrypto_flags mockEnv mockClient BTC "" _ World.initial (by decide)).1,
   (WithdrawCrypto_flags mockEnv mockClient XRP "hello" _ World.initial (by decide)).1,
   (WithdrawCrypto_flags mockEnv mockClient XRP "hello" _ World.initial (by decide)).2.2.1⟩

theorem find_placeOrderParams (env : Env) (c1 c2 : Coin) (method qt limit k : String) :
    (placeOrderParams env c1 c2 method qt limit).find k =
      if k = "limit_price" then some [limit]
      else if k = "quantity" then some [qt]
      else if k = "coin_pair" then some [env.coinString c1 ++ env.coinString c2]
      else if k = "tapi_method" then some [method]
      else none := by
  simp only [placeOrderParams, Values.find_Set, Values.find_empty]

theorem placeOrder_sent (env : Env) (c : Client) (c1 c2 : Coin) (method qt limit : String)
    (w : World) (u : url.URL) (hu : env.urlParse c.service = Except.ok u) :
    (c.placeOrder env c1 c2 method qt limit w).2.sent =
      w.sent ++ [c.signedRequest env u (c.encodedBody env
        (placeOrderParams env c1 c2 method qt limit) w)] := by
  unfold Client.placeOrder
  rw [dispatch_world, MakeRequest_sent env c _ w u hu]

/-- C13: `PlaceBuyOrder` dispatches exactly `tapi_method = place_buy_order`,
`coin_pair` = the code of `c1` followed at once by the code of `c2`,
`quantity = qt` and `limit_price = limit`; `PlaceSellOrder` dispatches the same
with `tapi_method = place_sell_order`. -/
theorem PlaceOrder_params (env : Env) (c : Client) (c1 c2 : Coin) (qt limit : String)
    (w : World) :
    (∀ k : String, (placeOrderParams env c1 c2 "place_buy_order" qt limit).find k =
      if k = "limit_price" then some [limit]
      else if k = "quantity" then some [qt]
      else if k = "coin_pair" then some [env.coinString c1 ++ env.coinString c2]
      else if k = "tapi_method" then some ["place_buy_order"]
      else none) ∧
    (∀ k : String, (placeOrderParams env c1 c2 "place_sell_order" qt limit).find k =
      if k = "tapi_method" then some ["place_sell_order"]
      else (placeOrderParams env c1 c2 "place_buy_order" qt limit).find k) ∧
    (∀ u : url.URL, env.urlParse c.service = Except.ok u →
      (c.PlaceBuyOrder env c1 c2 qt limit w).2.sent =
        w.sent ++ [c.signedRequest env u (c.encodedBody env
          (placeOrderParams env c1 c2 "place_buy_order" qt limit) w)] ∧
      (c.PlaceSellOrder env c1 c2 qt limit w).2.sent =
        w.sent ++ [c.signedRequest env u (c.encodedBody env
          (placeOrderParams env c1 c2 "place_sell_order" qt limit) w)]) := by
  refine ⟨fun k => find_placeOrderParams env c1 c2 _ qt limit k, fun k => ?_, fun u hu => ?_⟩
  · rw [find_placeOrderParams, find_placeOrderParams]
    by_cases h : k = "tapi_method" <;> simp [h]
  · exact ⟨placeOrder_sent env c c1 c2 _ qt limit w u hu,
      placeOrder_sent env c c1 c2 _ qt limit w u hu⟩

/-- C13, on the first row of `TestPlaceOrder`: `PlaceBuyOrder(BRL, BTC, "0.05",
"50")` by the test client sends one request whose body is the encoding of
`coin_pair = BRLBTC`, `limit_price = 50`, `quantity = 0.05`,
`tapi_method = place_buy_order` and the nonce. -/
theorem PlaceOrder_params_witness :
    (placeOrderParams mockEnv BRL BTC "place_buy_order" "0.05" "50").find "coin_pair" =
      some ["BRLBTC"] ∧
    (placeOrderParams mockEnv BRL BTC "place_sell_order" "0.05" "50").find "tapi_method" =
      some ["place_sell_order"] ∧
    ((mockClient.PlaceBuyOrder mockEnv BRL BTC "0.05" "50" World.initial).2.sent.map
        fun r => r.Body) =
      ["coin_pair=BRLBTC&limit_price=50&quantity=0.05&tapi_method=place_buy_order" ++
        "&tapi_nonce=1453827748000000000"] := by
  refine ⟨?_, ?_, ?_⟩
  · rw [(PlaceOrder_params mockEnv mockClient BRL BTC "0.05" "50" World.initial).1]
    decide
  · rw [(PlaceOrder_params mockEnv mockClient BRL BTC "0.05" "50" World.initial).2.1]
    decide
  · rw [((PlaceOrder_params mockEnv mockClient BRL BTC "0.05" "50" World.initial).2.2
      { Scheme := "https", Host := "www.mercadobitcoin.net", Path := "/tapi/v3/", RawQuery := "" }
      rfl).1]
    decide

theorem WithdrawBRL_sent (env : Env) (c : Client) (desc qt accRef : String) (w : World)
    (u : url.URL) (hu : env.urlParse c.service = Except.ok u) :
    (c.WithdrawBRL env desc qt accRef w).2.sent =
      w.sent ++ [c.signedRequest env u (c.encodedBody env
        (withdrawCoinParams env BRL
          ((Values.empty.Set "quantity" qt).Set "account_ref" accRef) desc) w)] := by
  unfold Client.WithdrawBRL Client.withdrawCoin
  rw [dispatch_world, MakeRequest_sent env c _ w u hu]

/-- C14: `WithdrawBRL` dispatches exactly `tapi_method = withdraw_coin`,
`coin` = the code of BRL, `quantity = qt`, `account_ref = accRef`, and
`description = desc` exactly when `desc` is non-empty, hence none of `address`,
`tx_fee`, `tx_aggregate`, `via_blockchain`, `destination_tag`.  `WithdrawCrypto`
for its part never dispatches `account_ref`, and `description` exactly when
`desc` is non-empty. -/
theorem Withdraw_params (env : Env) (c : Client) (coin : Coin) (desc qt accRef : String)
    (info : WithdrawInfo) (w : World) :
    (∀ k : String, (withdrawCoinParams env BRL
        ((Values.empty.Set "quantity" qt).Set "account_ref" accRef) desc).find k =
      if k = "description" ∧ desc ≠ "" then some [desc]
      else if k = "coin" then some [env.coinString BRL]
      else if k = "tapi_method" then some ["withdraw_coin"]
      else if k = "account_ref" then some [accRef]
      else if k = "quantity" then some [qt]
      else none) ∧
    (["address", "tx_fee", "tx_aggregate", "via_blockchain", "destination_tag"].all fun k =>
      !(withdrawCoinParams env BRL
        ((Values.empty.Set "quantity" qt).Set "account_ref" accRef) desc).Has k) = true ∧
    (withdrawCoinParams env coin (WithdrawCryptoParams coin info) desc).find "account_ref" =
      none ∧
    ((withdrawCoinParams env coin (WithdrawCryptoParams coin info) desc).find "description" =
      if desc ≠ "" then some [desc] else none) ∧
    (∀ u : url.URL, env.urlParse c.service = Except.ok u →
      (c.WithdrawBRL env desc qt accRef w).2.sent =
        w.sent ++ [c.signedRequest env u (c.encodedBody env
          (withdrawCoinParams env BRL
            ((Values.empty.Set "quantity" qt).Set "account_ref" accRef) desc) w)] ∧
      (coin ≠ BRL →
        (c.WithdrawCrypto env coin desc (some info) w).2.sent =
          w.sent ++ [c.signedRequest env u (c.encodedBody env
            (withdrawCoinParams env coin (WithdrawCryptoParams coin info) desc) w)])) := by
  have hb : ∀ k : String, (withdrawCoinParams env BRL
        ((Values.empty.Set "quantity" qt).Set "account_ref" accRef) desc).find k =
      if k = "description" ∧ desc ≠ "" then some [desc]
      else if k = "coin" then some [env.coinString BRL]
      else if k = "tapi_method" then some ["withdraw_coin"]
      else if k = "account_ref" then some [accRef]
      else if k = "quantity" then some [qt]
      else none := by
    intro k
    rw [find_withdrawCoinParams]
    simp only [Values.find_Set, Values.find_empty]
  refine ⟨hb, ?_, ?_, ?_, fun u hu => ⟨WithdrawBRL_sent env c desc qt accRef w u hu,
    fun hc => WithdrawCrypto_sent env c coin desc info w u hc hu⟩⟩
  · simp [Values.Has, hb]
  · rw [find_withdrawCoinParams, find_WithdrawCryptoParams]
    simp
  · rw [find_withdrawCoinParams, find_WithdrawCryptoParams]
    by_cases hd : desc = "" <;> simp [hd]

/-- C14, on the row of `TestWithdrawlBRL` and the BTC row of
`TestWithdrawlCrypto`: the BRL withdrawal sends `description`, `quantity`,
`account_ref` and `coin = BRL`; the BTC withdrawal with an empty description
sends neither `description` nor `account_ref`. -/
theorem Withdraw_params_witness :
    ((mockClient.WithdrawBRL mockEnv "transfer it" "500.25" "001122" World.initial).2.sent.map
        fun r => r.Body) =
      ["account_ref=001122&coin=BRL&description=transfer+it&quantity=500.25" ++
        "&tapi_method=withdraw_coin&tapi_nonce=1453827748000000000"] ∧
    ((mockClient.WithdrawCrypto mockEnv BTC ""
        (some { Address := "18d2ogsrMXsspcxzz3DgecePNdxcZUpaUX", Quantity := "0.678",
                TxFee := "0.0005", ViaBlockchain := true }) World.initial).2.sent.map
        fun r => r.Body) =
      ["address=18d2ogsrMXsspcxzz3DgecePNdxcZUpaUX&coin=BTC&quantity=0.678" ++
        "&tapi_method=withdraw_coin&tapi_nonce=1453827748000000000&tx_fee=0.0005" ++
        "&via_blockchain=true"] := by
  have h := (Withdraw_params mockEnv mockClient BTC "" "500.25" "001122"
    { Address := "18d2ogsrMXsspcxzz3DgecePNdxcZUpaUX", Quantity := "0.678",
      TxFee := "0.0005", ViaBlockchain := true } World.initial).2.2.2.2
    { Scheme := "https", Host := "www.mercadobitcoin.net", Path := "/tapi/v3/", RawQuery := "" }
    rfl
  have g := (Withdraw_params mockEnv mockClient BTC "transfer it" "500.25" "001122"
    { Address := "", Quantity := "", TxFee := "" } World.initial).2.2.2.2
    { Scheme := "https", Host := "www.mercadobitcoin.net", Path := "/tapi/v3/", RawQuery := "" }
    rfl
  constructor
  · rw [g.1]
    decide
  · rw [h.2 (by decide)]
    decide

/-- C20: `Error.Is` is reflexive: every API error matches itself.  It is not
symmetric: for every non-zero code `n`, an error of code `n` matches a target of
code 0, while an error of code 0 does not match a target of code `n`. -/
theorem Error_Is_refl_not_symm (e : Error) (n : Int) (m1 m2 : String) (hn : n ≠ 0) :
    e.Is (GoError.api e) = true ∧
    Error.Is ⟨n, m1⟩ (GoError.api ⟨0, m2⟩) = true ∧
    Error.Is ⟨0, m2⟩ (GoError.api ⟨n, m1⟩) = false := by
  refine ⟨by simp [Error.Is], by simp [Error.Is], ?_⟩
  have h : ¬ (0 : Int) = n := fun h => hn h.symm
  simp [Error.Is, hn, h]

/-- C20, on the code of `TestMakeRequest`: the error of code 201 matches
itself and the wildcard, and the wildcard does not match a target of code 201. -/
theorem Error_Is_refl_not_symm_witness :
    Error.Is ⟨201, "Valor de *TAPI-ID* inválido."⟩
      (GoError.api ⟨201, "Valor de *TAPI-ID* inválido."⟩) = true ∧
    Error.Is ⟨201, "Valor de *TAPI-ID* inválido."⟩ (GoError.api ⟨0, ""⟩) = true ∧
    Error.Is ⟨0, ""⟩ (GoError.api ⟨201, "Valor de *TAPI-ID* inválido."⟩) = false :=
  Error_Is_refl_not_symm ⟨201, "Valor de *TAPI-ID* inválido."⟩ 201
    "Valor de *TAPI-ID* inválido." "" (by decide)

/-! ## Lemmas on the encoded body -/

theorem Encode_eq_pairs (v : Values) : v.Encode = "&".intercalate v.pairs :=
  rfl

theorem mem_keys_of_lookup (l : List (String × List String)) (k : String) (vs : List String)
    (h : l.lookup k = some vs) : k ∈ l.map Prod.fst := by
  induction l with
  | nil => simp [List.lookup] at h
  | cons p t ih =>
    obtain ⟨a, b⟩ := p
    by_cases hk : k = a
    · simp [hk]
    · have hb : (k == a) = false := by simpa using hk
      simp only [List.lookup, hb] at h
      simp [ih h]

theorem mem_pairs (v : Values) (k x : String) (vs : List String) (h : v.find k = some vs)
    (hx : x ∈ vs) : url.QueryEscape k ++ "=" ++ url.QueryEscape x ∈ v.pairs := by
  unfold Values.pairs
  rw [List.mem_flatMap]
  refine ⟨k, ?_, ?_⟩
  · rw [(List.perm_insertionSort _ _).mem_iff]
    unfold Values.keys
    rw [List.mem_dedup]
    exact mem_keys_of_lookup _ _ _ h
  · rw [h]
    exact List.mem_map.2 ⟨x, hx, rfl⟩

theorem QueryEscape_names :
    url.QueryEscape "tapi_nonce" = "tapi_nonce" ∧ url.QueryEscape "tapi_method" = "tapi_method" := by
  decide

/-- C19, as stated, fails: `MakeRequest` on the empty parameter set, the call of
`TestMakeRequest`, sends a body that holds the nonce and no `tapi_method`. -/
theorem MakeRequest_method_counterexample :
    (Values.empty.Add "tapi_nonce" (mockClient.Nonce mockEnv World.initial).1).find
      "tapi_method" = none ∧
    (Values.empty.Add "tapi_nonce" (mockClient.Nonce mockEnv World.initial).1).pairs =
      ["tapi_nonce=1453827748000000000"] ∧
    ((mockClient.MakeRequest mockEnv Values.empty World.initial).2.sent.map fun r => r.Body) =
      ["tapi_nonce=1453827748000000000"] := by
  refine ⟨by decide, by decide, ?_⟩
  rw [MakeRequest_sent mockEnv mockClient Values.empty World.initial
    { Scheme := "https", Host := "www.mercadobitcoin.net", Path := "/tapi/v3/", RawQuery := "" }
    rfl]
  decide

theorem find_tapi_method_parseOpts (params : Values) (opts : ListOrdersOpts) :
    (parseOpts params opts).find "tapi_method" = params.find "tapi_method" := by
  simp [parseOpts, Values.find_ite, Values.find_Set]

/-- C19, amended: for every parameter set passed to `MakeRequest` the encoded
body holds a `tapi_nonce` item carrying the nonce just taken; `MakeRequest`
leaves `tapi_method` as the caller set it, so the body holds a `tapi_method`
item whenever the parameter set binds one, and every operation of the library
dispatches a parameter set that binds `tapi_method` to its method name. -/
theorem MakeRequest_carries_nonce (env : Env) (c : Client) (params : Values) (w : World)
    (lvl qt limit cost desc accRef : String) (c1 c2 coin : Coin) (id : Int)
    (opts : Option ListOrdersOpts) (full : Bool) (info : WithdrawInfo) :
    (c.encodedBody env params w =
      "&".intercalate (params.Add "tapi_nonce" (c.Nonce env w).1).pairs) ∧
    ("tapi_nonce=" ++ url.QueryEscape (strconv.FormatInt (env.unixNano w.reads) 10) ∈
      (params.Add "tapi_nonce" (c.Nonce env w).1).pairs) ∧
    ((params.Add "tapi_nonce" (c.Nonce env w).1).find "tapi_method" =
      params.find "tapi_method") ∧
    (∀ (m : String) (ms : List String), params.find "tapi_method" = some (m :: ms) →
      "tapi_method=" ++ url.QueryEscape m ∈ (params.Add "tapi_nonce" (c.Nonce env w).1).pairs) ∧
    ((ListSystemMessagesParams env lvl).find "tapi_method" = some ["list_system_messages"] ∧
      (c.ListSystemMessages env lvl w).2 =
        (c.MakeRequest env (ListSystemMessagesParams env lvl) w).2) ∧
    ((Values.empty.Set "tapi_method" "get_account_info").find "tapi_method" =
        some ["get_account_info"] ∧
      (c.GetAccountInfo env w).2 =
        (c.MakeRequest env (Values.empty.Set "tapi_method" "get_account_info") w).2) ∧
    ((GetOrderParams env c1 c2 id).find "tapi_method" = some ["get_order"] ∧
      (c.GetOrder env c1 c2 id w).2 = (c.MakeRequest env (GetOrderParams env c1 c2 id) w).2) ∧
    ((ListOrdersParams env c1 c2 opts).find "tapi_method" = some ["list_orders"] ∧
      (c.ListOrders env c1 c2 opts w).2 =
        (c.MakeRequest env (ListOrdersParams env c1 c2 opts) w).2) ∧
    ((ListOrderbookParams env c1 c2 full).find "tapi_method" = some ["list_orderbook"] ∧
      (c.ListOrderbook env c1 c2 full w).2 =
        (c.MakeRequest env (ListOrderbookParams env c1 c2 full) w).2) ∧
    ((placeOrderParams env c1 c2 "place_buy_order" qt limit).find "tapi_method" =
        some ["place_buy_order"] ∧
      (c.PlaceBuyOrder env c1 c2 qt limit w).2 =
        (c.MakeRequest env (placeOrderParams env c1 c2 "place_buy_order" qt limit) w).2) ∧
    ((placeOrderParams env c1 c2 "place_sell_order" qt limit).find "tapi_method" =
        some ["place_sell_order"] ∧
      (c.PlaceSellOrder env c1 c2 qt limit w).2 =
        (c.MakeRequest env (placeOrderParams env c1 c2 "place_sell_order" qt limit) w).2) ∧
    ((PlaceMarketBuyOrderParams env c1 c2 cost).find "tapi_method" =
        some ["place_market_buy_order"] ∧
      (c.PlaceMarketBuyOrder env c1 c2 cost w).2 =
        (c.MakeRequest env (PlaceMarketBuyOrderParams env c1 c2 cost) w).2) ∧
    ((PlaceMarketSellOrderParams env c1 c2 qt).find "tapi_method" =
        some ["place_market_sell_order"] ∧
      (c.PlaceMarketSellOrder env c1 c2 qt w).2 =
        (c.MakeRequest env (PlaceMarketSellOrderParams env c1 c2 qt) w).2) ∧
    ((CancelOrderParams env c1 c2 id).find "tapi_method" = some ["cancel_order"] ∧
      (c.CancelOrder env c1 c2 id w).2 =
        (c.MakeRequest env (CancelOrderParams env c1 c2 id) w).2) ∧
    ((GetWithdrawalParams env coin id).find "tapi_method" = some ["get_withdrawal"] ∧
      (c.GetWithdrawal env coin id w).2 =
        (c.MakeRequest env (GetWithdrawalParams env coin id) w).2) ∧
    ((withdrawCoinParams env BRL ((Values.empty.Set "quantity" qt).Set "account_ref" accRef)
          desc).find "tapi_method" = some ["withdraw_coin"] ∧
      (c.WithdrawBRL env desc qt accRef w).2 =
        (c.MakeRequest env (withdrawCoinParams env BRL
          ((Values.empty.Set "quantity" qt).Set "account_ref" accRef) desc) w).2) ∧
    ((withdrawCoinParams env coin (WithdrawCryptoParams coin info) desc).find "tapi_method" =
        some ["withdraw_coin"] ∧
      (coin ≠ BRL → (c.WithdrawCrypto env coin desc (some info) w).2 =
        (c.MakeRequest env (withdrawCoinParams env coin (WithdrawCryptoParams coin info) desc)
          w).2)) := by
  have hadd : ∀ k : String, k ≠ "tapi_nonce" →
      (params.Add "tapi_nonce" (c.Nonce env w).1).find k = params.find k := by
    intro k hk
    rw [Values.find_Add, if_neg hk]
  refine ⟨rfl, ?_, hadd _ (by decide), ?_, ?_, ?_, ?_, ?_, ?_, ?_, ?_, ?_, ?_, ?_, ?_, ?_, ?_⟩
  · have h := mem_pairs (params.Add "tapi_nonce" (c.Nonce env w).1) "tapi_nonce"
      (c.Nonce env w).1 _ (by rw [Values.find_Add, if_pos rfl]) (by simp)
    rw [QueryEscape_names.1] at h
    exact h
  · intro m ms hm
    have h := mem_pairs (params.Add "tapi_nonce" (c.Nonce env w).1) "tapi_method" m (m :: ms)
      (by rw [hadd _ (by decide), hm]) (by simp)
    rw [QueryEscape_names.2] at h
    exact h
  · exact ⟨by rw [find_ListSystemMessagesParams]; simp, dispatch_world _ _ _ _ _⟩
  · exact ⟨by simp only [Values.find_Set]; simp, dispatch_world _ _ _ _ _⟩
  · exact ⟨by simp only [GetOrderParams, Values.find_Set]; simp, dispatch_world _ _ _ _ _⟩
  · refine ⟨?_, dispatch_world _ _ _ _ _⟩
    cases opts with
    | none => rw [find_ListOrdersParams_none]; simp
    | some o =>
      rw [ListOrdersParams_some, find_tapi_method_parseOpts, find_ListOrdersParams_none]
      simp
  · refine ⟨?_, dispatch_world _ _ _ _ _⟩
    simp only [ListOrderbookParams, Values.find_ite, Values.find_Set]
    simp
  · exact ⟨by rw [find_placeOrderParams]; simp, dispatch_world _ _ _ _ _⟩
  · exact ⟨by rw [find_placeOrderParams]; simp, dispatch_world _ _ _ _ _⟩
  · exact ⟨by simp only [PlaceMarketBuyOrderParams, Values.find_Set]; simp,
      dispatch_world _ _ _ _ _⟩
  · exact ⟨by simp only [PlaceMarketSellOrderParams, Values.find_Set]; simp,
      dispatch_world _ _ _ _ _⟩
  · exact ⟨by simp only [CancelOrderParams, Values.find_Set]; simp, dispatch_world _ _ _ _ _⟩
  · exact ⟨by simp only [GetWithdrawalParams, Values.find_Set]; simp, dispatch_world _ _ _ _ _⟩
  · exact ⟨by rw [find_withdrawCoinParams]; simp, dispatch_world _ _ _ _ _⟩
  · refine ⟨by rw [find_withdrawCoinParams]; simp, fun hc => ?_⟩
    have h : c.WithdrawCrypto env coin desc (some info) w =
        c.withdrawCoin env coin (WithdrawCryptoParams coin info) desc w := by
      simp [Client.WithdrawCrypto, hc]
    rw [h]
    exact dispatch_world _ _ _ _ _

/-- C19, amended, on `ListOrders` for the test client: the parameter set binds
`tapi_method`, so the items of the body hold both `tapi_method=list_orders` and
the nonce. -/
theorem MakeRequest_carries_nonce_witness :
    "tapi_method=list_orders" ∈
      ((ListOrdersParams mockEnv BRL BTC none).Add "tapi_nonce"
        (mockClient.Nonce mockEnv World.initial).1).pairs ∧
    "tapi_nonce=1453827748000000000" ∈
      ((ListOrdersParams mockEnv BRL BTC none).Add "tapi_nonce"
        (mockClient.Nonce mockEnv World.initial).1).pairs :=
  ⟨(MakeRequest_carries_nonce mockEnv mockClient (ListOrdersParams mockEnv BRL BTC none)
      World.initial "" "" "" "" "" "" BRL BTC BTC 0 none false
      { Address := "", Quantity := "", TxFee := "" }).2.2.2.1 "list_orders" [] (by decide),
   (MakeRequest_carries_nonce mockEnv mockClient (ListOrdersParams mockEnv BRL BTC none)
      World.initial "" "" "" "" "" "" BRL BTC BTC 0 none false
      { Address := "", Quantity := "", TxFee := "" }).2.1⟩

/-- C17: each nonce is the decimal rendering of the clock reading taken by the
call, and nothing else enters it.  So when the clock stands still two successive
calls return the same nonce, and when the clock is set back between two calls
the second nonce is the smaller one: the nonces are not strictly increasing. -/
theorem Nonce_follows_clock :
    (∀ (env : Env) (c : Client) (w : World),
      (c.Nonce env w).1 = strconv.FormatInt (env.unixNano w.reads) 10 ∧
      (c.Nonce env w).2 = { w with reads := w.reads + 1 }) ∧
    (mockClient.Nonce stalledEnv World.initial).1 = "1453827748000000000" ∧
    (mockClient.Nonce stalledEnv (mockClient.Nonce stalledEnv World.initial).2).1 =
      "1453827748000000000" ∧
    (mockClient.Nonce steppedBackEnv World.initial).1 = "1453827748000000000" ∧
    (mockClient.Nonce steppedBackEnv (mockClient.Nonce steppedBackEnv World.initial).2).1 =
      "1453827747000000000" := by
  refine ⟨fun env c w => ⟨rfl, rfl⟩, by decide, by decide, by decide, by decide⟩

/-! ## Lemmas on the digest -/

theorem round_length (s : List Nat) (kw : Nat) : (sha512.round s kw).length = s.length := by
  unfold sha512.round
  split
  · rfl
  · rfl

theorem foldl_round_length (kw : List Nat) (s : List Nat) :
    (kw.foldl sha512.round s).length = s.length := by
  induction kw generalizing s with
  | nil => rfl
  | cons k t ih => rw [List.foldl_cons, ih, round_length]

theorem compress_length (h block : List Nat) : (sha512.compress h block).length = h.length := by
  simp [sha512.compress, foldl_round_length]

theorem foldl_compress_length (blocks : List (List Nat)) (h : List Nat) :
    (blocks.foldl sha512.compress h).length = h.length := by
  induction blocks generalizing h with
  | nil => rfl
  | cons b t ih => rw [List.foldl_cons, ih, compress_length]

theorem flatMap_length_const {α β : Type} (f : α → List β) (n : Nat) (l : List α)
    (h : ∀ x, (f x).length = n) : (l.flatMap f).length = n * l.length := by
  induction l with
  | nil => simp
  | cons a t ih => simp [List.flatMap_cons, ih, h, Nat.mul_add, Nat.add_comm]

theorem Sum512_length (msg : List Nat) : (sha512.Sum512 msg).length = 64 := by
  unfold sha512.Sum512
  rw [flatMap_length_const _ 8 _ (by intro x; simp), foldl_compress_length]
  rfl

theorem Sum512_byte (msg : List Nat) (b : Nat) (hb : b ∈ sha512.Sum512 msg) : b < 256 := by
  unfold sha512.Sum512 at hb
  simp only [List.mem_flatMap, List.mem_map] at hb
  obtain ⟨x, -, i, -, rfl⟩ := hb
  exact Nat.mod_lt _ (by decide)

theorem EncodeToString_length (bs : List Nat) :
    (hex.EncodeToString bs).length = 2 * bs.length := by
  unfold hex.EncodeToString
  rw [String.length_mk]
  exact flatMap_length_const _ 2 _ (by intro x; rfl)

theorem hexDigit_mem (n : Nat) (h : n < 16) :
    "0123456789abcdef".data.getD n '0' ∈ "0123456789abcdef".data := by
  interval_cases n <;> decide

theorem EncodeToString_lower (bs : List Nat) (hb : ∀ b ∈ bs, b < 256) (ch : Char)
    (h : ch ∈ (hex.EncodeToString bs).data) : ch ∈ "0123456789abcdef".data := by
  unfold hex.EncodeToString at h
  simp only [List.mem_flatMap] at h
  obtain ⟨b, hmem, hc⟩ := h
  have hlt := hb b hmem
  simp only [List.mem_cons, List.mem_singleton, List.not_mem_nil, or_false] at hc
  rcases hc with rfl | rfl
  · exact hexDigit_mem _ (by omega)
  · exact hexDigit_mem _ (Nat.mod_lt _ (by decide))

theorem hmac_test_vector :
    hmacSHA512Hex fakeKey "/tapi/v3/?tapi_method=list_orders&tapi_nonce=1" =
      "7f59ea8749ba596d5c23fa242a531746b918e5e61c9f6c8663a699736db503980f3a507ff7e2ef1336f7" ++
        "888d684a06c9a460d18290e7b738a61d03e25ffdeb76" := by
  decide!

/-- C18: when the digest at hand is HMAC-SHA512, `Client.Hmac` is the lower-case
hex rendering of HMAC-SHA512 over the bytes of the message, keyed with the bytes
of the client's API secret; it has 128 characters, all of them lower-case hex
digits; it depends on the secret and the message only; and for the secret
`fakeKey` and the message of `TestClientHmac` it is the digest expected there. -/
theorem Hmac_is_hmac_sha512 (env : Env) (c : Client) (msg : String)
    (h : env.hmacSHA512Hex = hmacSHA512Hex) :
    c.Hmac env msg = hex.EncodeToString (hmac.Sum (bytesOf c.apiKey) (bytesOf msg)) ∧
    (c.Hmac env msg).length = 128 ∧
    (∀ ch ∈ (c.Hmac env msg).data, ch ∈ "0123456789abcdef".data) ∧
    (∀ c2 : Client, c2.apiKey = c.apiKey → c2.Hmac env msg = c.Hmac env msg) ∧
    (NewClient env DefaultService fakeID fakeKey none).Hmac env
        "/tapi/v3/?tapi_method=list_orders&tapi_nonce=1" =
      "7f59ea8749ba596d5c23fa242a531746b918e5e61c9f6c8663a699736db503980f3a507ff7e2ef1336f7" ++
        "888d684a06c9a460d18290e7b738a61d03e25ffdeb76" := by
  have hdef : ∀ (c1 : Client) (m : String),
      c1.Hmac env m = hex.EncodeToString (hmac.Sum (bytesOf c1.apiKey) (bytesOf m)) := by
    intro c1 m
    unfold Client.Hmac
    rw [h]
    rfl
  refine ⟨hdef c msg, ?_, ?_, ?_, ?_⟩
  · rw [hdef, EncodeToString_length]
    unfold hmac.Sum
    rw [Sum512_length]
  · intro ch hch
    rw [hdef] at hch
    exact EncodeToString_lower _ (fun b hb => Sum512_byte _ b hb) ch hch
  · intro c2 hk
    rw [hdef, hdef, hk]
  · rw [hdef]
    exact hmac_test_vector

/-- C18, for the client of `TestClientHmac` with the digest HMAC-SHA512: the
signature of the test message is the expected digest and has 128 characters. -/
theorem Hmac_is_hmac_sha512_witness :
    (NewClient hmacEnv DefaultService fakeID fakeKey none).Hmac hmacEnv
        "/tapi/v3/?tapi_method=list_orders&tapi_nonce=1" =
      "7f59ea8749ba596d5c23fa242a531746b918e5e61c9f6c8663a699736db503980f3a507ff7e2ef1336f7" ++
        "888d684a06c9a460d18290e7b738a61d03e25ffdeb76" ∧
    ((NewClient hmacEnv DefaultService fakeID fakeKey none).Hmac hmacEnv
        "/tapi/v3/?tapi_method=list_orders&tapi_nonce=1").length = 128 :=
  ⟨(Hmac_is_hmac_sha512 hmacEnv mockClient "" rfl).2.2.2.2,
   (Hmac_is_hmac_sha512 hmacEnv (NewClient hmacEnv DefaultService fakeID fakeKey none)
      "/tapi/v3/?tapi_method=list_orders&tapi_nonce=1" rfl).2.1⟩

/-! ## Lemmas on the JSON text format: numbers -/

namespace json

theorem toDigitsCore_append (b f n : Nat) (ds : List Char) :
    Nat.toDigitsCore b f n ds = Nat.toDigitsCore b f n [] ++ ds := by
  induction f generalizing n ds with
  | zero => simp [Nat.toDigitsCore]
  | succ f ih =>
    simp only [Nat.toDigitsCore]
    split
    · simp
    · rw [ih (n / b) (Nat.digitChar (n % b) :: ds), ih (n / b) [Nat.digitChar (n % b)]]
      simp

theorem digitChar_isDigit (d : Nat) (h : d < 10) :
    (Nat.digitChar d).isDigit = true ∧ (Nat.digitChar d).toNat - 48 = d ∧
      (d ≠ 0 → Nat.digitChar d ≠ '0') := by
  interval_cases d <;> decide

theorem natOfDigits_append (l : List Char) (c : Char) :
    natOfDigits (l ++ [c]) = natOfDigits l * 10 + (c.toNat - 48) := by
  simp [natOfDigits, List.foldl_append]

theorem toDigitsCore_spec (f n : Nat) (h : n < f) :
    (∀ c ∈ Nat.toDigitsCore 10 f n [], c.isDigit = true) ∧
    natOfDigits (Nat.toDigitsCore 10 f n []) = n ∧
    (∃ c t, Nat.toDigitsCore 10 f n [] = c :: t ∧ (n ≠ 0 → c ≠ '0')) := by
  induction f generalizing n with
  | zero => omega
  | succ f ih =>
    have hd := digitChar_isDigit (n % 10) (Nat.mod_lt _ (by decide))
    simp only [Nat.toDigitsCore]
    by_cases h0 : n / 10 = 0
    · rw [if_pos h0]
      have hn : n % 10 = n := by omega
      refine ⟨?_, ?_, ?_⟩
      · intro c hc
        simp only [List.mem_singleton] at hc
        rw [hc]
        exact hd.1
      · simp only [natOfDigits, List.foldl]
        rw [hd.2.1]
        omega
      · refine ⟨_, [], rfl, fun hne => hd.2.2 ?_⟩
        omega
    · rw [if_neg h0, toDigitsCore_append]
      obtain ⟨h1, h2, c, t, h3, h4⟩ := ih (n / 10) (by omega)
      refine ⟨?_, ?_, ?_⟩
      · intro x hx
        rw [List.mem_append] at hx
        rcases hx with hx | hx
        · exact h1 x hx
        · simp only [List.mem_singleton] at hx
          rw [hx]
          exact hd.1
      · rw [natOfDigits_append, h2, hd.2.1]
        omega
      · refine ⟨c, t ++ [Nat.digitChar (n % 10)], by rw [h3]; rfl, fun _ => h4 h0⟩

theorem Delimited.numberEnds {rest : List Char} (h : Delimited rest) : NumberEnds rest := by
  rcases h with h | ⟨c, t, h, hc⟩
  · exact Or.inl h
  · refine Or.inr ⟨c, t, h, ?_⟩
    rcases hc with rfl | rfl | rfl <;> decide

theorem spanDigits_append (l rest : List Char) (hl : ∀ c ∈ l, c.isDigit = true)
    (hr : NumberEnds rest) : spanDigits (l ++ rest) = (l, rest) := by
  induction l with
  | nil =>
    rcases hr with rfl | ⟨c, t, rfl, hc, -⟩
    · rfl
    · simp [spanDigits, hc]
  | cons a t ih =>
    have ha := hl a (by simp)
    have ht := ih (fun c hc => hl c (by simp [hc]))
    simp [spanDigits, ha, ht]

theorem lexFrac_ends (rest : List Char) (hr : NumberEnds rest) :
    lexFrac rest = some (false, rest) := by
  rcases hr with rfl | ⟨c, t, rfl, -, hc, -⟩
  · rfl
  · unfold lexFrac
    split
    · next h => simp at h; exact absurd h.1 hc
    · rfl

theorem lexExp_ends (rest : List Char) (hr : NumberEnds rest) :
    lexExp rest = some (false, rest) := by
  rcases hr with rfl | ⟨c, t, rfl, -, -, hc1, hc2⟩
  · rfl
  · simp [lexExp, hc1, hc2]

theorem lexIntPart_digits (n : Nat) (rest : List Char) (hr : NumberEnds rest) :
    lexIntPart (Nat.toDigits 10 n ++ rest) = some (Nat.toDigits 10 n, rest) := by
  obtain ⟨h1, -, c, t, h3, h4⟩ := toDigitsCore_spec (n + 1) n (by omega)
  unfold Nat.toDigits
  rw [h3] at h1 ⊢
  have hc := h1 c (by simp)
  have ht : ∀ x ∈ t, x.isDigit = true := fun x hx => h1 x (by simp [hx])
  by_cases hn : n = 0
  · subst hn
    have : c :: t = ['0'] := by rw [← h3]; rfl
    simp only [List.cons.injEq] at this
    obtain ⟨rfl, rfl⟩ := this
    rfl
  · have hc0 := h4 hn
    simp [lexIntPart, hc0, hc, spanDigits_append t rest ht hr]

theorem natOfDigits_toDigits (n : Nat) : natOfDigits (Nat.toDigits 10 n) = n :=
  (toDigitsCore_spec (n + 1) n (by omega)).2.1

theorem toDigits_head_ne_minus (n : Nat) (rest : List Char) :
    (Nat.toDigits 10 n ++ rest).head? ≠ some '-' := by
  obtain ⟨h1, -, c, t, h3, -⟩ := toDigitsCore_spec (n + 1) n (by omega)
  unfold Nat.toDigits
  rw [h3] at h1 ⊢
  have hc := h1 c (by simp)
  intro h
  simp only [List.cons_append, List.head?_cons, Option.some.injEq] at h
  rw [h] at hc
  exact absurd hc (by decide)

theorem lexNumber_render (n : Int) (rest : List Char) (hr : NumberEnds rest) :
    lexNumber ((strconv.FormatInt n 10).data ++ rest) = some (Value.num n, rest) := by
  cases n with
  | ofNat m =>
    have hh := toDigits_head_ne_minus m rest
    simp only [strconv.FormatInt, lexNumber]
    simp only [hh, decide_False, Bool.false_eq_true, if_false,
      lexIntPart_digits m rest hr, lexFrac_ends rest hr, lexExp_ends rest hr,
      natOfDigits_toDigits, or_self]
    rfl
  | negSucc m =>
    have hd : (strconv.FormatInt (Int.negSucc m) 10).data ++ rest =
        '-' :: (Nat.toDigits 10 (m + 1) ++ rest) := rfl
    rw [hd]
    simp only [lexNumber, List.head?_cons, decide_True, if_true, List.drop_succ_cons,
      List.drop_zero, lexIntPart_digits (m + 1) rest hr, lexFrac_ends rest hr,
      lexExp_ends rest hr, natOfDigits_toDigits, or_self, Bool.false_eq_true, if_false]
    rfl

end json

/-! ## Lemmas on the JSON text format: strings -/

namespace json

theorem hexVal_lowerhex (k : Nat) (h : k < 16) : hexVal (lowerhex k) = some k := by
  interval_cases k <;> decide

theorem hex4_lowerhex (n : Nat) (h : n < 65536) :
    hex4 (lowerhex (n / 4096)) (lowerhex (n / 256 % 16)) (lowerhex (n / 16 % 16))
      (lowerhex (n % 16)) = some n := by
  unfold hex4
  rw [hexVal_lowerhex _ (by omega), hexVal_lowerhex _ (by omega), hexVal_lowerhex _ (by omega),
    hexVal_lowerhex _ (by omega)]
  simp only [Option.some.injEq]
  omega

theorem unescapeU_lowerhex (c : Char) (r : List Char) (h : c.toNat < 0xD800) :
    unescapeU (lowerhex (c.toNat / 4096) :: lowerhex (c.toNat / 256 % 16) ::
      lowerhex (c.toNat / 16 % 16) :: lowerhex (c.toNat % 16) :: r) = some (c, r) := by
  have h1 : ¬ (0xD800 ≤ c.toNat ∧ c.toNat < 0xDC00) := by omega
  have h2 : ¬ (0xDC00 ≤ c.toNat ∧ c.toNat < 0xE000) := by omega
  simp only [unescapeU, hex4_lowerhex c.toNat (by omega), if_neg h1, if_neg h2,
    Char.ofNat_toNat]

theorem escapeChar_cases (c : Char) :
    (c = '"' ∧ escapeChar c = ['\\', '"']) ∨
    (c = '\\' ∧ escapeChar c = ['\\', '\\']) ∨
    (c = '\n' ∧ escapeChar c = ['\\', 'n']) ∨
    (c = '\r' ∧ escapeChar c = ['\\', 'r']) ∨
    (c = '\t' ∧ escapeChar c = ['\\', 't']) ∨
    (c.toNat < 0xD800 ∧ escapeChar c = ['\\', 'u', lowerhex (c.toNat / 4096),
      lowerhex (c.toNat / 256 % 16), lowerhex (c.toNat / 16 % 16), lowerhex (c.toNat % 16)]) ∨
    (c ≠ '"' ∧ c ≠ '\\' ∧ ¬ c.toNat < 0x20 ∧ escapeChar c = [c]) := by
  unfold escapeChar
  by_cases h1 : c = '"'
  · exact Or.inl ⟨h1, by simp [h1]⟩
  by_cases h2 : c = '\\'
  · exact Or.inr (Or.inl ⟨h2, by simp [h2]⟩)
  by_cases h3 : c = '\n'
  · exact Or.inr (Or.inr (Or.inl ⟨h3, by simp [h3]⟩))
  by_cases h4 : c = '\r'
  · exact Or.inr (Or.inr (Or.inr (Or.inl ⟨h4, by simp [h4]⟩)))
  by_cases h5 : c = '\t'
  · exact Or.inr (Or.inr (Or.inr (Or.inr (Or.inl ⟨h5, by simp [h5]⟩))))
  rw [if_neg h1, if_neg h2, if_neg h3, if_neg h4, if_neg h5]
  by_cases h6 : c.toNat < 0x20 ∨ c = '<' ∨ c = '>' ∨ c = '&' ∨ c.toNat = 0x2028 ∨ c.toNat = 0x2029
  · rw [if_pos h6]
    refine Or.inr (Or.inr (Or.inr (Or.inr (Or.inr (Or.inl ⟨?_, rfl⟩)))))
    rcases h6 with h | rfl | rfl | rfl | h | h
    · omega
    · decide
    · decide
    · decide
    · omega
    · omega
  · rw [if_neg h6]
    refine Or.inr (Or.inr (Or.inr (Or.inr (Or.inr (Or.inr ⟨h1, h2, fun h => h6 (Or.inl h), rfl⟩)))))

theorem lexString_escapeChar (c : Char) (fuel : Nat) (r : List Char) :
    lexString (fuel + 1) (escapeChar c ++ r) =
      match lexString fuel r with
      | none => none
      | some (cs, r3) => some (c :: cs, r3) := by
  rcases escapeChar_cases c with ⟨rfl, h⟩ | ⟨rfl, h⟩ | ⟨rfl, h⟩ | ⟨rfl, h⟩ | ⟨rfl, h⟩ |
    ⟨hc, h⟩ | ⟨h1, h2, h3, h⟩
  · rw [h]; rfl
  · rw [h]; rfl
  · rw [h]; rfl
  · rw [h]; rfl
  · rw [h]; rfl
  · rw [h]
    have hu := unescapeU_lowerhex c r hc
    show lexString (fuel + 1) ('\\' :: 'u' :: lowerhex (c.toNat / 4096) ::
      lowerhex (c.toNat / 256 % 16) :: lowerhex (c.toNat / 16 % 16) ::
      lowerhex (c.toNat % 16) :: r) = _
    simp only [lexString, unescape]
    simp only [show ('\\' : Char) ≠ '"' by decide, show ('u' : Char) ≠ '"' by decide,
      show ('u' : Char) ≠ '\\' by decide, show ('u' : Char) ≠ '/' by decide,
      show ('u' : Char) ≠ 'b' by decide, show ('u' : Char) ≠ 'f' by decide,
      show ('u' : Char) ≠ 'n' by decide, show ('u' : Char) ≠ 'r' by decide,
      show ('u' : Char) ≠ 't' by decide, if_false, if_true, hu]
  · rw [h]
    show lexString (fuel + 1) (c :: r) = _
    simp only [lexString, if_neg h1, if_neg h2, if_neg h3]

theorem escapeChar_length (c : Char) : 1 ≤ (escapeChar c).length := by
  rcases escapeChar_cases c with ⟨-, h⟩ | ⟨-, h⟩ | ⟨-, h⟩ | ⟨-, h⟩ | ⟨-, h⟩ | ⟨-, h⟩ |
    ⟨-, -, -, h⟩ <;> rw [h] <;> simp

theorem flatMap_escapeChar_length (s : List Char) :
    s.length ≤ (s.flatMap escapeChar).length := by
  induction s with
  | nil => simp
  | cons c t ih =>
    have := escapeChar_length c
    simp only [List.flatMap_cons, List.length_append, List.length_cons]
    omega

theorem lexString_body (s : List Char) (fuel : Nat) (r : List Char) (h : s.length < fuel) :
    lexString fuel (s.flatMap escapeChar ++ '"' :: r) = some (s, r) := by
  induction s generalizing fuel with
  | nil =>
    cases fuel with
    | zero => simp at h
    | succ f => simp [lexString]
  | cons c t ih =>
    cases fuel with
    | zero => simp at h
    | succ f =>
      simp only [List.flatMap_cons, List.append_assoc]
      rw [lexString_escapeChar, ih f (by simpa using h)]

/-- Reading back a rendered string literal, from the text after its opening
quote, with the fuel that `parseValue` supplies. -/
theorem lexString_render (s : String) (r : List Char) :
    lexString (s.data.flatMap escapeChar ++ '"' :: r).length
      (s.data.flatMap escapeChar ++ '"' :: r) = some (s.data, r) := by
  apply lexString_body
  have := flatMap_escapeChar_length s.data
  simp only [List.length_append, List.length_cons]
  omega

end json

/-! ## Lemmas on the JSON text format: values -/

namespace json

theorem skipWs_cons (c : Char) (r : List Char) (h : isSpace c = false) :
    skipWs (c :: r) = c :: r := by
  simp [skipWs, h]

theorem skipWs_delimited (rest : List Char) (h : Delimited rest) : skipWs rest = rest := by
  rcases h with rfl | ⟨c, t, rfl, hc⟩
  · rfl
  · apply skipWs_cons
    rcases hc with rfl | rfl | rfl <;> decide

theorem readsBack_null : ReadsBack Value.null := by
  refine ⟨⟨'n', _, rfl, by decide, by decide⟩, ?_⟩
  intro fuel rest _ hf
  cases fuel with
  | zero => simp at hf
  | succ f => rfl

theorem readsBack_bool (b : Bool) : ReadsBack (Value.bool b) := by
  cases b with
  | true =>
    refine ⟨⟨'t', _, rfl, by decide, by decide⟩, ?_⟩
    intro fuel rest _ hf
    cases fuel with
    | zero => simp at hf
    | succ f => rfl
  | false =>
    refine ⟨⟨'f', _, rfl, by decide, by decide⟩, ?_⟩
    intro fuel rest _ hf
    cases fuel with
    | zero => simp at hf
    | succ f => rfl

theorem number_head (c : Char) (h : c.isDigit = true ∨ c = '-') :
    isSpace c = false ∧ c ≠ ']' ∧ c ≠ '{' ∧ c ≠ '[' ∧ c ≠ '"' ∧ c ≠ 't' ∧ c ≠ 'f' ∧ c ≠ 'n' := by
  refine ⟨?_, ?_, ?_, ?_, ?_, ?_, ?_, ?_⟩
  · by_contra hs
    simp only [isSpace, Bool.or_eq_true, decide_eq_true_eq, Bool.not_eq_false] at hs
    rcases hs with ((rfl | rfl) | rfl) | rfl <;> rcases h with h | h <;> revert h <;> decide
  all_goals
    rintro rfl
    rcases h with h | h <;> revert h <;> decide

theorem render_num_head (n : Int) :
    ∃ c t, render (Value.num n) = c :: t ∧ (c.isDigit = true ∨ c = '-') := by
  cases n with
  | ofNat m =>
    obtain ⟨h1, -, c, t, h3, -⟩ := toDigitsCore_spec (m + 1) m (by omega)
    refine ⟨c, t, h3, Or.inl (h1 c ?_)⟩
    rw [h3]
    simp
  | negSucc m => exact ⟨'-', Nat.toDigits 10 (m + 1), rfl, Or.inr rfl⟩

theorem readsBack_num (n : Int) : ReadsBack (Value.num n) := by
  obtain ⟨c, t, hr, hc⟩ := render_num_head n
  obtain ⟨h0, h1, h2, h3, h4, h5, h6, h7⟩ := number_head c hc
  refine ⟨⟨c, t, hr, h0, h1⟩, ?_⟩
  intro fuel rest hd hf
  cases fuel with
  | zero => simp at hf
  | succ f =>
    have hl := lexNumber_render n rest hd.numberEnds
    have hr2 : render (Value.num n) = (strconv.FormatInt n 10).data := rfl
    rw [← hr2, hr] at hl
    rw [hr]
    simp only [parseValue, List.cons_append, skipWs_cons c _ h0, if_neg h2, if_neg h3, if_neg h4,
      if_neg h5, if_neg h6, if_neg h7]
    exact hl

theorem readsBack_str (s : String) : ReadsBack (Value.str s) := by
  refine ⟨⟨'"', _, rfl, by decide, by decide⟩, ?_⟩
  intro fuel rest _ hf
  cases fuel with
  | zero => simp at hf
  | succ f =>
    have hl := lexString_render s rest
    have hr : render (Value.str s) ++ rest =
        '"' :: (s.data.flatMap escapeChar ++ '"' :: rest) := by
      simp [render, renderString]
    rw [hr]
    simp only [parseValue, skipWs_cons '"' _ (by decide), show ('"' : Char) ≠ '{' by decide,
      show ('"' : Char) ≠ '[' by decide, if_false, if_true, hl]

end json

namespace json

theorem delimited_cons (c : Char) (t : List Char) (h : c = ',' ∨ c = ']' ∨ c = '}') :
    Delimited (c :: t) :=
  Or.inr ⟨c, t, rfl, h⟩

theorem parseElems_render (xs : List Value) (x : Value) (h : ∀ y ∈ x :: xs, ReadsBack y)
    (fuel : Nat) (rest : List Char) (hf : (renderElems (x :: xs)).length < fuel) :
    parseElems fuel (renderElems (x :: xs) ++ rest) = some (x :: xs, rest) := by
  induction xs generalizing x fuel with
  | nil =>
    cases fuel with
    | zero => simp at hf
    | succ f =>
      have hx := (h x (by simp)).2 f (']' :: rest) (delimited_cons _ _ (by simp))
        (by simp only [renderElems, List.length_append, List.length_cons, List.length_nil] at hf
            omega)
      simp only [renderElems, List.append_assoc, List.singleton_append, parseElems, hx,
        skipWs_cons ']' rest (by decide), if_true]
  | cons y ys ih =>
    cases fuel with
    | zero => simp at hf
    | succ f =>
      simp only [renderElems, List.length_append, List.length_cons] at hf
      have hx := (h x (by simp)).2 f (',' :: (renderElems (y :: ys) ++ rest))
        (delimited_cons _ _ (by simp)) (by omega)
      have hys := ih y (fun z hz => h z (by simp at hz ⊢; exact Or.inr hz)) f (by omega)
      simp only [renderElems, List.append_assoc, List.cons_append, parseElems, hx,
        skipWs_cons ',' _ (by decide), show (',' : Char) ≠ ']' by decide, if_false, if_true, hys]

theorem readsBack_arr (xs : List Value) (h : ∀ y ∈ xs, ReadsBack y) :
    ReadsBack (Value.arr xs) := by
  refine ⟨⟨'[', _, rfl, by decide, by decide⟩, ?_⟩
  intro fuel rest _ hf
  cases fuel with
  | zero => simp at hf
  | succ f =>
    cases xs with
    | nil => rfl
    | cons x xs =>
      obtain ⟨c, t, hc, hs, hb⟩ := (h x (by simp)).1
      have hlen : (renderElems (x :: xs)).length < f := by
        simp only [render, List.length_cons] at hf
        omega
      have he := parseElems_render xs x h f rest hlen
      have hhead : ∃ t2, renderElems (x :: xs) ++ rest = c :: t2 := by
        cases xs with
        | nil => exact ⟨t ++ ']' :: rest, by simp [renderElems, hc]⟩
        | cons y ys =>
          exact ⟨t ++ ',' :: (renderElems (y :: ys) ++ rest), by simp [renderElems, hc]⟩
      obtain ⟨t2, ht2⟩ := hhead
      rw [ht2] at he
      have hr : render (Value.arr (x :: xs)) ++ rest = '[' :: (c :: t2) := by
        rw [← ht2]
        rfl
      rw [hr]
      simp only [parseValue, skipWs_cons '[' _ (by decide), show ('[' : Char) ≠ '{' by decide,
        if_false, if_true, skipWs_cons c t2 hs, if_neg hb, he]

theorem renderString_append (k : String) (r : List Char) :
    renderString k ++ r = '"' :: (k.data.flatMap escapeChar ++ '"' :: r) := by
  simp [renderString]

theorem renderMembers_head (m : String × Value) (ms : List (String × Value))
    (rest : List Char) : ∃ t2, renderMembers (m :: ms) ++ rest = '"' :: t2 := by
  obtain ⟨k, v⟩ := m
  cases ms with
  | nil =>
    exact ⟨k.data.flatMap escapeChar ++ '"' :: ':' :: (render v ++ '}' :: rest),
      by simp [renderMembers, renderString]⟩
  | cons q qs =>
    exact ⟨k.data.flatMap escapeChar ++
      '"' :: ':' :: (render v ++ ',' :: (renderMembers (q :: qs) ++ rest)),
      by simp [renderMembers, renderString]⟩

theorem parseMembers_render (ms : List (String × Value)) (m : String × Value)
    (h : ∀ p ∈ m :: ms, ReadsBack p.2) (fuel : Nat) (rest : List Char)
    (hf : (renderMembers (m :: ms)).length < fuel) :
    parseMembers fuel (renderMembers (m :: ms) ++ rest) = some (m :: ms, rest) := by
  induction ms generalizing m fuel with
  | nil =>
    obtain ⟨k, v⟩ := m
    cases fuel with
    | zero => simp at hf
    | succ f =>
      simp only [renderMembers, List.length_append, List.length_cons, List.length_nil] at hf
      have hv := (h (k, v) (by simp)).2 f ('}' :: rest) (delimited_cons _ _ (by simp))
        (by show (render v).length < f; omega)
      have hk := lexString_render k (':' :: (render v ++ '}' :: rest))
      have hr : renderMembers [(k, v)] ++ rest =
          '"' :: (k.data.flatMap escapeChar ++ '"' :: ':' :: (render v ++ '}' :: rest)) := by
        simp [renderMembers, renderString]
      rw [hr]
      simp only [parseMembers, skipWs_cons '"' _ (by decide), if_true, hk,
        skipWs_cons ':' _ (by decide), hv, skipWs_cons '}' rest (by decide)]
  | cons n ns ih =>
    obtain ⟨k, v⟩ := m
    cases fuel with
    | zero => simp at hf
    | succ f =>
      simp only [renderMembers, List.length_append, List.length_cons] at hf
      have hv := (h (k, v) (by simp)).2 f (',' :: (renderMembers (n :: ns) ++ rest))
        (delimited_cons _ _ (by simp)) (by show (render v).length < f; omega)
      have hns := ih n (fun z hz => h z (by simp at hz ⊢; exact Or.inr hz)) f (by omega)
      have hk := lexString_render k (':' :: (render v ++ ',' :: (renderMembers (n :: ns) ++ rest)))
      have hr : renderMembers ((k, v) :: n :: ns) ++ rest =
          '"' :: (k.data.flatMap escapeChar ++
            '"' :: ':' :: (render v ++ ',' :: (renderMembers (n :: ns) ++ rest))) := by
        simp [renderMembers, renderString]
      rw [hr]
      simp only [parseMembers, skipWs_cons '"' _ (by decide), if_true, hk,
        skipWs_cons ':' _ (by decide), hv, skipWs_cons ',' _ (by decide),
        show (',' : Char) ≠ '}' by decide, if_false, hns]

theorem readsBack_obj (ms : List (String × Value)) (h : ∀ p ∈ ms, ReadsBack p.2) :
    ReadsBack (Value.obj ms) := by
  refine ⟨⟨'{', _, rfl, by decide, by decide⟩, ?_⟩
  intro fuel rest _ hf
  cases fuel with
  | zero => simp at hf
  | succ f =>
    cases ms with
    | nil => rfl
    | cons m ms =>
      have hlen : (renderMembers (m :: ms)).length < f := by
        simp only [render, List.length_cons] at hf
        omega
      have he := parseMembers_render ms m h f rest hlen
      obtain ⟨t2, ht2⟩ := renderMembers_head m ms rest
      rw [ht2] at he
      have hr : render (Value.obj (m :: ms)) ++ rest = '{' :: ('"' :: t2) := by
        rw [← ht2]
        rfl
      rw [hr]
      simp only [parseValue, skipWs_cons '{' _ (by decide), if_true,
        skipWs_cons '"' t2 (by decide), show ('"' : Char) ≠ '}' by decide, if_false, he]

/-- A value that reads back is what `parse` finds in its rendering. -/
theorem parse_render (v : Value) (h : ReadsBack v) : parse (String.mk (render v)) = some v := by
  have hp := h.2 ((render v).length + 1) [] (Or.inl rfl) (by omega)
  rw [List.append_nil] at hp
  simp only [parse, String.length_mk, hp]
  rfl

end json

/-! ## Lemmas on the JSON form of the data model -/

theorem SystemMessage_setField_MsgDate (o : SystemMessage) (v : json.Value) :
    SystemMessage.setField o "msg_date" v = (json.decodeString v o.MsgDate).map fun x => { o with MsgDate := x } :=
  rfl

theorem SystemMessage_setField_Level (o : SystemMessage) (v : json.Value) :
    SystemMessage.setField o "level" v = (json.decodeString v o.Level).map fun x => { o with Level := x } :=
  rfl

theorem SystemMessage_setField_EventCode (o : SystemMessage) (v : json.Value) :
    SystemMessage.setField o "event_code" v = (json.decodeInt v o.EventCode).map fun x => { o with EventCode := x } :=
  rfl

theorem SystemMessage_setField_MsgContent (o : SystemMessage) (v : json.Value) :
    SystemMessage.setField o "msg_content" v = (json.decodeString v o.MsgContent).map fun x => { o with MsgContent := x } :=
  rfl

theorem Amount_setField_Available (o : Amount) (v : json.Value) :
    Amount.setField o "available" v = (json.decodeString v o.Available).map fun x => { o with Available := x } :=
  rfl

theorem Amount_setField_Total (o : Amount) (v : json.Value) :
    Amount.setField o "total" v = (json.decodeString v o.Total).map fun x => { o with Total := x } :=
  rfl

theorem BalanceCrypto_setField_Available (o : BalanceCrypto) (v : json.Value) :
    BalanceCrypto.setField o "available" v = (json.decodeString v o.Available).map fun x => { o with Available := x } :=
  rfl

theorem BalanceCrypto_setField_Total (o : BalanceCrypto) (v : json.Value) :
    BalanceCrypto.setField o "total" v = (json.decodeString v o.Total).map fun x => { o with Total := x } :=
  rfl

theorem BalanceCrypto_setField_OpenOrders (o : BalanceCrypto) (v : json.Value) :
    BalanceCrypto.setField o "amount_open_orders" v = (json.decodeInt v o.OpenOrders).map fun x => { o with OpenOrders := x } :=
  rfl

theorem Balance_setField_BCH (o : Balance) (v : json.Value) :
    Balance.setField o "bch" v = (BalanceCrypto.decode v o.BCH).map fun x => { o with BCH := x } :=
  rfl

theorem Balance_setField_BRL (o : Balance) (v : json.Value) :
    Balance.setField o "brl" v = (Amount.decode v o.BRL).map fun x => { o with BRL := x } :=
  rfl

theorem Balance_setField_BTC (o : Balance) (v : json.Value) :
    Balance.setField o "btc" v = (BalanceCrypto.decode v o.BTC).map fun x => { o with BTC := x } :=
  rfl

theorem Balance_setField_ETH (o : Balance) (v : json.Value) :
    Balance.setField o "eth" v = (BalanceCrypto.decode v o.ETH).map fun x => { o with ETH := x } :=
  rfl

theorem Balance_setField_LTC (o : Balance) (v : json.Value) :
    Balance.setField o "ltc" v = (BalanceCrypto.decode v o.LTC).map fun x => { o with LTC := x } :=
  rfl

theorem Balance_setField_XRP (o : Balance) (v : json.Value) :
    Balance.setField o "xrp" v = (BalanceCrypto.decode v o.XRP).map fun x => { o with XRP := x } :=
  rfl

theorem WithdrawalLimits_setField_BCH (o : WithdrawalLimits) (v : json.Value) :
    WithdrawalLimits.setField o "bch" v = (Amount.decode v o.BCH).map fun x => { o with BCH := x } :=
  rfl

theorem WithdrawalLimits_setField_BRL (o : WithdrawalLimits) (v : json.Value) :
    WithdrawalLimits.setField o "brl" v = (Amount.decode v o.BRL).map fun x => { o with BRL := x } :=
  rfl

theorem WithdrawalLimits_setField_BTC (o : WithdrawalLimits) (v : json.Value) :
    WithdrawalLimits.setField o "btc" v = (Amount.decode v o.BTC).map fun x => { o with BTC := x } :=
  rfl

theorem WithdrawalLimits_setField_ETH (o : WithdrawalLimits) (v : json.Value) :
    WithdrawalLimits.setField o "eth" v = (Amount.decode v o.ETH).map fun x => { o with ETH := x } :=
  rfl

theorem WithdrawalLimits_setField_LTC (o : WithdrawalLimits) (v : json.Value) :
    WithdrawalLimits.setField o "ltc" v = (Amount.decode v o.LTC).map fun x => { o with LTC := x } :=
  rfl

theorem WithdrawalLimits_setField_XRP (o : WithdrawalLimits) (v : json.Value) :
    WithdrawalLimits.setField o "xrp" v = (Amount.decode v o.XRP).map fun x => { o with XRP := x } :=
  rfl

theorem AccountInfo_setField_Balance (o : AccountInfo) (v : json.Value) :
    AccountInfo.setField o "balance" v = (Balance.decode v o.Balance).map fun x => { o with Balance := x } :=
  rfl

theorem AccountInfo_setField_WithdrawalLimits (o : AccountInfo) (v : json.Value) :
    AccountInfo.setField o "withdrawal_limits" v = (WithdrawalLimits.decode v o.WithdrawalLimits).map fun x => { o with WithdrawalLimits := x } :=
  rfl

theorem Operation_setField_ID (o : Operation) (v : json.Value) :
    Operation.setField o "operation_id" v = (json.decodeInt v o.ID).map fun x => { o with ID := x } :=
  rfl

theorem Operation_setField_Quantity (o : Operation) (v : json.Value) :
    Operation.setField o "quantity" v = (json.decodeString v o.Quantity).map fun x => { o with Quantity := x } :=
  rfl

theorem Operation_setField_Price (o : Operation) (v : json.Value) :
    Operation.setField o "price" v = (json.decodeString v o.Price).map fun x => { o with Price := x } :=
  rfl

theorem Operation_setField_FeeRate (o : Operation) (v : json.Value) :
    Operation.setField o "fee_rate" v = (json.decodeString v o.FeeRate).map fun x => { o with FeeRate := x } :=
  rfl

theorem Operation_setField_ExecutedTimestamp (o : Operation) (v : json.Value) :
    Operation.setField o "executed_timestamp" v = (json.decodeString v o.ExecutedTimestamp).map fun x => { o with ExecutedTimestamp := x } :=
  rfl

theorem Order_setField_ID (o : Order) (v : json.Value) :
    Order.setField o "order_id" v = (json.decodeInt v o.ID).map fun x => { o with ID := x } :=
  rfl

theorem Order_setField_CoinPair (o : Order) (v : json.Value) :
    Order.setField o "coin_pair" v = (json.decodeString v o.CoinPair).map fun x => { o with CoinPair := x } :=
  rfl

theorem Order_setField_Type_ (o : Order) (v : json.Value) :
    Order.setField o "order_type" v = (json.decodeInt v o.Type_).map fun x => { o with Type_ := x } :=
  rfl

theorem Order_setField_Status (o : Order) (v : json.Value) :
    Order.setField o "status" v = (json.decodeInt v o.Status).map fun x => { o with Status := x } :=
  rfl

theorem Order_setField_HasFills (o : Order) (v : json.Value) :
    Order.setField o "has_fills" v = (json.decodeBool v o.HasFills).map fun x => { o with HasFills := x } :=
  rfl

theorem Order_setField_Quantity (o : Order) (v : json.Value) :
    Order.setField o "quantity" v = (json.decodeString v o.Quantity).map fun x => { o with Quantity := x } :=
  rfl

theorem Order_setField_LimitPrice (o : Order) (v : json.Value) :
    Order.setField o "limit_price" v = (json.decodeString v o.LimitPrice).map fun x => { o with LimitPrice := x } :=
  rfl

theorem Order_setField_ExecutedQuantity (o : Order) (v : json.Value) :
    Order.setField o "executed_quantity" v = (json.decodeString v o.ExecutedQuantity).map fun x => { o with ExecutedQuantity := x } :=
  rfl

theorem Order_setField_ExecutedPriceAvg (o : Order) (v : json.Value) :
    Order.setField o "executed_price_avg" v = (json.decodeString v o.ExecutedPriceAvg).map fun x => { o with ExecutedPriceAvg := x } :=
  rfl

theorem Order_setField_Fee (o : Order) (v : json.Value) :
    Order.setField o "fee" v = (json.decodeString v o.Fee).map fun x => { o with Fee := x } :=
  rfl

theorem Order_setField_CreatedTimestamp (o : Order) (v : json.Value) :
    Order.setField o "created_timestamp" v = (json.decodeString v o.CreatedTimestamp).map fun x => { o with CreatedTimestamp := x } :=
  rfl

theorem Order_setField_UpdatedTimestamp (o : Order) (v : json.Value) :
    Order.setField o "updated_timestamp" v = (json.decodeString v o.UpdatedTimestamp).map fun x => { o with UpdatedTimestamp := x } :=
  rfl

theorem Order_setField_Operations (o : Order) (v : json.Value) :
    Order.setField o "operations" v = (json.decodeSlice (fun x => Operation.decode x Operation.zero) v).map fun x => { o with Operations := x } :=
  rfl

theorem OrderInfo_setField_OrderID (o : OrderInfo) (v : json.Value) :
    OrderInfo.setField o "order_id" v = (json.decodeInt v o.OrderID).map fun x => { o with OrderID := x } :=
  rfl

theorem OrderInfo_setField_Quantity (o : OrderInfo) (v : json.Value) :
    OrderInfo.setField o "quantity" v = (json.decodeString v o.Quantity).map fun x => { o with Quantity := x } :=
  rfl

theorem OrderInfo_setField_LimitPrice (o : OrderInfo) (v : json.Value) :
    OrderInfo.setField o "limit_price" v = (json.decodeString v o.LimitPrice).map fun x => { o with LimitPrice := x } :=
  rfl

theorem OrderInfo_setField_IsOwner (o : OrderInfo) (v : json.Value) :
    OrderInfo.setField o "is_owner" v = (json.decodeBool v o.IsOwner).map fun x => { o with IsOwner := x } :=
  rfl

theorem Orderbook_setField_Bids (o : Orderbook) (v : json.Value) :
    Orderbook.setField o "bids" v = (json.decodeSlice (fun x => OrderInfo.decode x OrderInfo.zero) v).map fun x => { o with Bids := x } :=
  rfl

theorem Orderbook_setField_Asks (o : Orderbook) (v : json.Value) :
    Orderbook.setField o "asks" v = (json.decodeSlice (fun x => OrderInfo.decode x OrderInfo.zero) v).map fun x => { o with Asks := x } :=
  rfl

theorem Orderbook_setField_LatestOrderID (o : Orderbook) (v : json.Value) :
    Orderbook.setField o "latest_order_id" v = (json.decodeInt v o.LatestOrderID).map fun x => { o with LatestOrderID := x } :=
  rfl

theorem Withdrawal_setField_ID (o : Withdrawal) (v : json.Value) :
    Withdrawal.setField o "id" v = (json.decodeInt v o.ID).map fun x => { o with ID := x } :=
  rfl

theorem Withdrawal_setField_Coin (o : Withdrawal) (v : json.Value) :
    Withdrawal.setField o "coin" v = (json.decodeString v o.Coin).map fun x => { o with Coin := x } :=
  rfl

theorem Withdrawal_setField_Quantity (o : Withdrawal) (v : json.Value) :
    Withdrawal.setField o "quantity" v = (json.decodeString v o.Quantity).map fun x => { o with Quantity := x } :=
  rfl

theorem Withdrawal_setField_NetQuantity (o : Withdrawal) (v : json.Value) :
    Withdrawal.setField o "net_quantity" v = (json.decodeString v o.NetQuantity).map fun x => { o with NetQuantity := x } :=
  rfl

theorem Withdrawal_setField_Fee (o : Withdrawal) (v : json.Value) :
    Withdrawal.setField o "fee" v = (json.decodeString v o.Fee).map fun x => { o with Fee := x } :=
  rfl

theorem Withdrawal_setField_Account (o : Withdrawal) (v : json.Value) :
    Withdrawal.setField o "account" v = (json.decodeString v o.Account).map fun x => { o with Account := x } :=
  rfl

theorem Withdrawal_setField_Address (o : Withdrawal) (v : json.Value) :
    Withdrawal.setField o "address" v = (json.decodeString v o.Address).map fun x => { o with Address := x } :=
  rfl

theorem Withdrawal_setField_Status (o : Withdrawal) (v : json.Value) :
    Withdrawal.setField o "status" v = (json.decodeInt v o.Status).map fun x => { o with Status := x } :=
  rfl

theorem Withdrawal_setField_Tx (o : Withdrawal) (v : json.Value) :
    Withdrawal.setField o "tx" v = (json.decodeString v o.Tx).map fun x => { o with Tx := x } :=
  rfl

theorem Withdrawal_setField_DestinationTag (o : Withdrawal) (v : json.Value) :
    Withdrawal.setField o "destination_tag" v = (json.decodeInt v o.DestinationTag).map fun x => { o with DestinationTag := x } :=
  rfl

theorem Withdrawal_setField_CreatedTimestamp (o : Withdrawal) (v : json.Value) :
    Withdrawal.setField o "created_timestamp" v = (json.decodeString v o.CreatedTimestamp).map fun x => { o with CreatedTimestamp := x } :=
  rfl

theorem Withdrawal_setField_UpdatedTimestamp (o : Withdrawal) (v : json.Value) :
    Withdrawal.setField o "updated_timestamp" v = (json.decodeString v o.UpdatedTimestamp).map fun x => { o with UpdatedTimestamp := x } :=
  rfl

theorem listSystemMessagesResponse_setField_Messages (o : listSystemMessagesResponse) (v : json.Value) :
    listSystemMessagesResponse.setField o "messages" v = (json.decodeSlice (fun x => SystemMessage.decode x SystemMessage.zero) v).map fun x => { o with Messages := x } :=
  rfl

theorem listOrdersResponse_setField_Orders (o : listOrdersResponse) (v : json.Value) :
    listOrdersResponse.setField o "orders" v = (json.decodeSlice (fun x => Order.decode x Order.zero) v).map fun x => { o with Orders := x } :=
  rfl

theorem listOrderbookResponse_setField_Orderbook (o : listOrderbookResponse) (v : json.Value) :
    listOrderbookResponse.setField o "orderbook" v = (Orderbook.decode v o.Orderbook).map fun x => { o with Orderbook := x } :=
  rfl

theorem orderResponse_setField_Order (o : orderResponse) (v : json.Value) :
    orderResponse.setField o "order" v = (Order.decode v o.Order).map fun x => { o with Order := x } :=
  rfl

theorem withdrawalResponse_setField_Withdrawal (o : withdrawalResponse) (v : json.Value) :
    withdrawalResponse.setField o "withdrawal" v = (Withdrawal.decode v o.Withdrawal).map fun x => { o with Withdrawal := x } :=
  rfl

/-! ## Lemmas on the typed decoders -/

namespace json

theorem decodeInt_num (n old : Int) (h : isInt64 n = true) :
    decodeInt (Value.num n) old = Except.ok n := by
  simp [decodeInt, h]

theorem decodeElems_map {α : Type} (dec : Value → Except String α) (enc : α → Value)
    (l : List α) (h : ∀ x ∈ l, dec (enc x) = Except.ok x) :
    decodeElems dec (l.map enc) = Except.ok l := by
  induction l with
  | nil => rfl
  | cons a t ih =>
    have ha := h a (by simp)
    have ht := ih (fun x hx => h x (by simp [hx]))
    simp only [List.map_cons, decodeElems, ha, ht]

theorem decodeSlice_encodeSlice {α : Type} (dec : Value → Except String α) (enc : α → Value)
    (s : Slice α) (h : ∀ l, s = some l → ∀ x ∈ l, dec (enc x) = Except.ok x) :
    decodeSlice dec (encodeSlice enc s) = Except.ok s := by
  cases s with
  | none => rfl
  | some l =>
    simp only [encodeSlice, decodeSlice, decodeElems_map dec enc l (h l rfl), Except.map]

theorem sliceAll_some {α : Type} (p : α → Bool) (s : Slice α) (h : sliceAll p s = true)
    (l : List α) (hl : s = some l) (x : α) (hx : x ∈ l) : p x = true := by
  subst hl
  simp only [sliceAll, List.all_eq_true] at h
  exact h x hx

theorem decodeFields_append {α : Type} (set : α → String → Value → Except String α)
    (ms ns : List (String × Value)) (a : α) :
    decodeFields set (ms ++ ns) a =
      match decodeFields set ms a with
      | Except.error e => Except.error e
      | Except.ok b => decodeFields set ns b := by
  induction ms generalizing a with
  | nil => rfl
  | cons m t ih =>
    obtain ⟨k, v⟩ := m
    simp only [List.cons_append, decodeFields]
    cases set a k v with
    | error e => rfl
    | ok b => exact ih b

end json

namespace json

theorem readsBack_members_nil : ∀ p ∈ ([] : List (String × Value)), ReadsBack p.2 := by
  intro p hp
  cases hp

theorem readsBack_members_cons (k : String) (v : Value) (ms : List (String × Value))
    (hv : ReadsBack v) (hms : ∀ p ∈ ms, ReadsBack p.2) :
    ∀ p ∈ (k, v) :: ms, ReadsBack p.2 := by
  intro p hp
  rcases List.mem_cons.1 hp with rfl | hp
  · exact hv
  · exact hms p hp

theorem readsBack_members_append (ms ns : List (String × Value))
    (hms : ∀ p ∈ ms, ReadsBack p.2) (hns : ∀ p ∈ ns, ReadsBack p.2) :
    ∀ p ∈ ms ++ ns, ReadsBack p.2 := by
  intro p hp
  rcases List.mem_append.1 hp with hp | hp
  · exact hms p hp
  · exact hns p hp

theorem readsBack_members_ite (c : Prop) [Decidable c] (ms : List (String × Value))
    (hms : ∀ p ∈ ms, ReadsBack p.2) :
    ∀ p ∈ (if c then [] else ms), ReadsBack p.2 := by
  split
  · exact readsBack_members_nil
  · exact hms

theorem readsBack_encodeSlice {α : Type} (enc : α → Value) (s : Slice α)
    (h : ∀ x, ReadsBack (enc x)) : ReadsBack (encodeSlice enc s) := by
  cases s with
  | none => exact readsBack_null
  | some l =>
    apply readsBack_arr
    intro y hy
    obtain ⟨x, -, rfl⟩ := List.mem_map.1 hy
    exact h x

end json

theorem SystemMessage_decode_toJSON (o : SystemMessage) (h : SystemMessage.wf o = true) :
    SystemMessage.decode (SystemMessage.toJSON o) SystemMessage.zero = Except.ok o := by
  obtain ⟨vMsgDate, vLevel, vEventCode, vMsgContent⟩ := o
  simp only [SystemMessage.wf, Bool.and_eq_true] at h
  simp only [
    SystemMessage.decode, SystemMessage.toJSON, json.decodeStruct, json.decodeFields,
    List.cons_append, List.nil_append, List.append_nil, SystemMessage_setField_MsgDate,
    SystemMessage_setField_Level, SystemMessage_setField_EventCode,
    SystemMessage_setField_MsgContent, json.decodeInt_num _ _ h, json.decodeString, Except.map,
    SystemMessage.zero]

theorem SystemMessage_readsBack (o : SystemMessage) : json.ReadsBack (SystemMessage.toJSON o) := by
  unfold SystemMessage.toJSON
  refine json.readsBack_obj _ ?_
  refine json.readsBack_members_cons _ _ _ (json.readsBack_str _) ?_
  refine json.readsBack_members_cons _ _ _ (json.readsBack_str _) ?_
  refine json.readsBack_members_cons _ _ _ (json.readsBack_num _) ?_
  refine json.readsBack_members_cons _ _ _ (json.readsBack_str _) ?_
  exact json.readsBack_members_nil

theorem Amount_decode_toJSON (o : Amount) :
    Amount.decode (Amount.toJSON o) Amount.zero = Except.ok o := by
  obtain ⟨vAvailable, vTotal⟩ := o
  simp only [
    Amount.decode, Amount.toJSON, json.decodeStruct, json.decodeFields, List.cons_append,
    List.nil_append, List.append_nil, Amount_setField_Available, Amount_setField_Total,
    json.decodeString, Except.map, Amount.zero]

theorem Amount_readsBack (o : Amount) : json.ReadsBack (Amount.toJSON o) := by
  unfold Amount.toJSON
  refine json.readsBack_obj _ ?_
  refine json.readsBack_members_cons _ _ _ (json.readsBack_str _) ?_
  refine json.readsBack_members_cons _ _ _ (json.readsBack_str _) ?_
  exact json.readsBack_members_nil

theorem BalanceCrypto_decode_toJSON (o : BalanceCrypto) (h : BalanceCrypto.wf o = true) :
    BalanceCrypto.decode (BalanceCrypto.toJSON o) BalanceCrypto.zero = Except.ok o := by
  obtain ⟨⟨vAvailable, vTotal⟩, vOpenOrders⟩ := o
  simp only [BalanceCrypto.wf, Bool.and_eq_true] at h
  simp only [
    BalanceCrypto.decode, BalanceCrypto.toJSON, json.decodeStruct, json.decodeFields,
    List.cons_append, List.nil_append, List.append_nil, BalanceCrypto_setField_Available,
    BalanceCrypto_setField_Total, BalanceCrypto_setField_OpenOrders, json.decodeInt_num _ _ h,
    json.decodeString, Except.map, BalanceCrypto.zero]

theorem BalanceCrypto_readsBack (o : BalanceCrypto) : json.ReadsBack (BalanceCrypto.toJSON o) := by
  unfold BalanceCrypto.toJSON
  refine json.readsBack_obj _ ?_
  refine json.readsBack_members_cons _ _ _ (json.readsBack_str _) ?_
  refine json.readsBack_members_cons _ _ _ (json.readsBack_str _) ?_
  refine json.readsBack_members_cons _ _ _ (json.readsBack_num _) ?_
  exact json.readsBack_members_nil

theorem Balance_decode_toJSON (o : Balance) (h : Balance.wf o = true) :
    Balance.decode (Balance.toJSON o) Balance.zero = Except.ok o := by
  obtain ⟨vBCH, vBRL, vBTC, vETH, vLTC, vXRP⟩ := o
  simp only [Balance.wf, Bool.and_eq_true] at h
  obtain ⟨⟨⟨⟨h1, h2⟩, h3⟩, h4⟩, h5⟩ := h
  simp only [
    Balance.decode, Balance.toJSON, json.decodeStruct, json.decodeFields, List.cons_append,
    List.nil_append, List.append_nil, Balance_setField_BCH, Balance_setField_BRL,
    Balance_setField_BTC, Balance_setField_ETH, Balance_setField_LTC, Balance_setField_XRP,
    BalanceCrypto_decode_toJSON _ h1, BalanceCrypto_decode_toJSON _ h2,
    BalanceCrypto_decode_toJSON _ h3, BalanceCrypto_decode_toJSON _ h4,
    BalanceCrypto_decode_toJSON _ h5, Amount_decode_toJSON, Except.map, Balance.zero]

theorem Balance_readsBack (o : Balance) : json.ReadsBack (Balance.toJSON o) := by
  unfold Balance.toJSON
  refine json.readsBack_obj _ ?_
  refine json.readsBack_members_cons _ _ _ (BalanceCrypto_readsBack _) ?_
  refine json.readsBack_members_cons _ _ _ (Amount_readsBack _) ?_
  refine json.readsBack_members_cons _ _ _ (BalanceCrypto_readsBack _) ?_
  refine json.readsBack_members_cons _ _ _ (BalanceCrypto_readsBack _) ?_
  refine json.readsBack_members_cons _ _ _ (BalanceCrypto_readsBack _) ?_
  refine json.readsBack_members_cons _ _ _ (BalanceCrypto_readsBack _) ?_
  exact json.readsBack_members_nil

theorem WithdrawalLimits_decode_toJSON (o : WithdrawalLimits) :
    WithdrawalLimits.decode (WithdrawalLimits.toJSON o) WithdrawalLimits.zero = Except.ok o := by
  obtain ⟨vBCH, vBRL, vBTC, vETH, vLTC, vXRP⟩ := o
  simp only [
    WithdrawalLimits.decode, WithdrawalLimits.toJSON, json.decodeStruct, json.decodeFields,
    List.cons_append, List.nil_append, List.append_nil, WithdrawalLimits_setField_BCH,
    WithdrawalLimits_setField_BRL, WithdrawalLimits_setField_BTC, WithdrawalLimits_setField_ETH,
    WithdrawalLimits_setField_LTC, WithdrawalLimits_setField_XRP, Amount_decode_toJSON,
    Except.map, WithdrawalLimits.zero]

theorem WithdrawalLimits_readsBack (o : WithdrawalLimits) : json.ReadsBack (WithdrawalLimits.toJSON o) := by
  unfold WithdrawalLimits.toJSON
  refine json.readsBack_obj _ ?_
  refine json.readsBack_members_cons _ _ _ (Amount_readsBack _) ?_
  refine json.readsBack_members_cons _ _ _ (Amount_readsBack _) ?_
  refine json.readsBack_members_cons _ _ _ (Amount_readsBack _) ?_
  refine json.readsBack_members_cons _ _ _ (Amount_readsBack _) ?_
  refine json.readsBack_members_cons _ _ _ (Amount_readsBack _) ?_
  refine json.readsBack_members_cons _ _ _ (Amount_readsBack _) ?_
  exact json.readsBack_members_nil

theorem AccountInfo_decode_toJSON (o : AccountInfo) (h : AccountInfo.wf o = true) :
    AccountInfo.decode (AccountInfo.toJSON o) AccountInfo.zero = Except.ok o := by
  obtain ⟨vBalance, vWithdrawalLimits⟩ := o
  simp only [AccountInfo.wf, Bool.and_eq_true] at h
  simp only [
    AccountInfo.decode, AccountInfo.toJSON, json.decodeStruct, json.decodeFields,
    List.cons_append, List.nil_append, List.append_nil, AccountInfo_setField_Balance,
    AccountInfo_setField_WithdrawalLimits, Balance_decode_toJSON _ h,
    WithdrawalLimits_decode_toJSON, Except.map, AccountInfo.zero]

theorem AccountInfo_readsBack (o : AccountInfo) : json.ReadsBack (AccountInfo.toJSON o) := by
  unfold AccountInfo.toJSON
  refine json.readsBack_obj _ ?_
  refine json.readsBack_members_cons _ _ _ (Balance_readsBack _) ?_
  refine json.readsBack_members_cons _ _ _ (WithdrawalLimits_readsBack _) ?_
  exact json.readsBack_members_nil

theorem Operation_decode_toJSON (o : Operation) (h : Operation.wf o = true) :
    Operation.decode (Operation.toJSON o) Operation.zero = Except.ok o := by
  obtain ⟨vID, vQuantity, vPrice, vFeeRate, vExecutedTimestamp⟩ := o
  simp only [Operation.wf, Bool.and_eq_true] at h
  simp only [
    Operation.decode, Operation.toJSON, json.decodeStruct, json.decodeFields, List.cons_append,
    List.nil_append, List.append_nil, Operation_setField_ID, Operation_setField_Quantity,
    Operation_setField_Price, Operation_setField_FeeRate, Operation_setField_ExecutedTimestamp,
    json.decodeInt_num _ _ h, json.decodeString, Except.map, Operation.zero]

theorem Operation_readsBack (o : Operation) : json.ReadsBack (Operation.toJSON o) := by
  unfold Operation.toJSON
  refine json.readsBack_obj _ ?_
  refine json.readsBack_members_cons _ _ _ (json.readsBack_num _) ?_
  refine json.readsBack_members_cons _ _ _ (json.readsBack_str _) ?_
  refine json.readsBack_members_cons _ _ _ (json.readsBack_str _) ?_
  refine json.readsBack_members_cons _ _ _ (json.readsBack_str _) ?_
  refine json.readsBack_members_cons _ _ _ (json.readsBack_str _) ?_
  exact json.readsBack_members_nil

theorem Order_decode_toJSON (o : Order) (h : Order.wf o = true) :
    Order.decode (Order.toJSON o) Order.zero = Except.ok o := by
  obtain ⟨vID, vCoinPair, vType_, vStatus, vHasFills, vQuantity, vLimitPrice, vExecutedQuantity, vExecutedPriceAvg, vFee, vCreatedTimestamp, vUpdatedTimestamp, vOperations⟩ := o
  simp only [Order.wf, Bool.and_eq_true] at h
  obtain ⟨⟨⟨h1, h2⟩, h3⟩, h4⟩ := h
  have sOperations := json.decodeSlice_encodeSlice (fun x => Operation.decode x Operation.zero) Operation.toJSON
    vOperations (fun l hl x hx => Operation_decode_toJSON x (json.sliceAll_some _ _ h4 l hl x hx))
  simp only [
    Order.decode, Order.toJSON, json.decodeStruct, json.decodeFields, List.cons_append,
    List.nil_append, List.append_nil, Order_setField_ID, Order_setField_CoinPair,
    Order_setField_Type_, Order_setField_Status, Order_setField_HasFills,
    Order_setField_Quantity, Order_setField_LimitPrice, Order_setField_ExecutedQuantity,
    Order_setField_ExecutedPriceAvg, Order_setField_Fee, Order_setField_CreatedTimestamp,
    Order_setField_UpdatedTimestamp, Order_setField_Operations, json.decodeInt_num _ _ h1,
    json.decodeInt_num _ _ h2, json.decodeInt_num _ _ h3, sOperations, json.decodeString,
    json.decodeBool, Except.map, Order.zero]

theorem Order_readsBack (o : Order) : json.ReadsBack (Order.toJSON o) := by
  unfold Order.toJSON
  refine json.readsBack_obj _ ?_
  refine json.readsBack_members_cons _ _ _ (json.readsBack_num _) ?_
  refine json.readsBack_members_cons _ _ _ (json.readsBack_str _) ?_
  refine json.readsBack_members_cons _ _ _ (json.readsBack_num _) ?_
  refine json.readsBack_members_cons _ _ _ (json.readsBack_num _) ?_
  refine json.readsBack_members_cons _ _ _ (json.readsBack_bool _) ?_
  refine json.readsBack_members_cons _ _ _ (json.readsBack_str _) ?_
  refine json.readsBack_members_cons _ _ _ (json.readsBack_str _) ?_
  refine json.readsBack_members_cons _ _ _ (json.readsBack_str _) ?_
  refine json.readsBack_members_cons _ _ _ (json.readsBack_str _) ?_
  refine json.readsBack_members_cons _ _ _ (json.readsBack_str _) ?_
  refine json.readsBack_members_cons _ _ _ (json.readsBack_str _) ?_
  refine json.readsBack_members_cons _ _ _ (json.readsBack_str _) ?_
  refine json.readsBack_members_cons _ _ _ (json.readsBack_encodeSlice _ _ Operation_readsBack) ?_
  exact json.readsBack_members_nil

theorem OrderInfo_decode_toJSON (o : OrderInfo) (h : OrderInfo.wf o = true) :
    OrderInfo.decode (OrderInfo.toJSON o) OrderInfo.zero = Except.ok o := by
  obtain ⟨vOrderID, vQuantity, vLimitPrice, vIsOwner⟩ := o
  simp only [OrderInfo.wf, Bool.and_eq_true] at h
  simp only [
    OrderInfo.decode, OrderInfo.toJSON, json.decodeStruct, json.decodeFields, List.cons_append,
    List.nil_append, List.append_nil, OrderInfo_setField_OrderID, OrderInfo_setField_Quantity,
    OrderInfo_setField_LimitPrice, OrderInfo_setField_IsOwner, json.decodeInt_num _ _ h,
    json.decodeString, json.decodeBool, Except.map, OrderInfo.zero]

theorem OrderInfo_readsBack (o : OrderInfo) : json.ReadsBack (OrderInfo.toJSON o) := by
  unfold OrderInfo.toJSON
  refine json.readsBack_obj _ ?_
  refine json.readsBack_members_cons _ _ _ (json.readsBack_num _) ?_
  refine json.readsBack_members_cons _ _ _ (json.readsBack_str _) ?_
  refine json.readsBack_members_cons _ _ _ (json.readsBack_str _) ?_
  refine json.readsBack_members_cons _ _ _ (json.readsBack_bool _) ?_
  exact json.readsBack_members_nil

theorem Orderbook_decode_toJSON (o : Orderbook) (h : Orderbook.wf o = true) :
    Orderbook.decode (Orderbook.toJSON o) Orderbook.zero = Except.ok o := by
  obtain ⟨vBids, vAsks, vLatestOrderID⟩ := o
  simp only [Orderbook.wf, Bool.and_eq_true] at h
  obtain ⟨⟨h1, h2⟩, h3⟩ := h
  have sBids := json.decodeSlice_encodeSlice (fun x => OrderInfo.decode x OrderInfo.zero) OrderInfo.toJSON
    vBids (fun l hl x hx => OrderInfo_decode_toJSON x (json.sliceAll_some _ _ h1 l hl x hx))
  have sAsks := json.decodeSlice_encodeSlice (fun x => OrderInfo.decode x OrderInfo.zero) OrderInfo.toJSON
    vAsks (fun l hl x hx => OrderInfo_decode_toJSON x (json.sliceAll_some _ _ h2 l hl x hx))
  simp only [
    Orderbook.decode, Orderbook.toJSON, json.decodeStruct, json.decodeFields, List.cons_append,
    List.nil_append, List.append_nil, Orderbook_setField_Bids, Orderbook_setField_Asks,
    Orderbook_setField_LatestOrderID, sBids, sAsks, json.decodeInt_num _ _ h3, Except.map,
    Orderbook.zero]

theorem Orderbook_readsBack (o : Orderbook) : json.ReadsBack (Orderbook.toJSON o) := by
  unfold Orderbook.toJSON
  refine json.readsBack_obj _ ?_
  refine json.readsBack_members_cons _ _ _ (json.readsBack_encodeSlice _ _ OrderInfo_readsBack) ?_
  refine json.readsBack_members_cons _ _ _ (json.readsBack_encodeSlice _ _ OrderInfo_readsBack) ?_
  refine json.readsBack_members_cons _ _ _ (json.readsBack_num _) ?_
  exact json.readsBack_members_nil

theorem Withdrawal_decode_toJSON (o : Withdrawal) (h : Withdrawal.wf o = true) :
    Withdrawal.decode (Withdrawal.toJSON o) Withdrawal.zero = Except.ok o := by
  obtain ⟨vID, vCoin, vQuantity, vNetQuantity, vFee, vAccount, vAddress, vStatus, vTx, vDestinationTag, vCreatedTimestamp, vUpdatedTimestamp⟩ := o
  simp only [Withdrawal.wf, Bool.and_eq_true] at h
  obtain ⟨⟨h1, h2⟩, h3⟩ := h
  by_cases c1 : vNetQuantity = "" <;> by_cases c2 : vAccount = "" <;> by_cases c3 : vAddress = "" <;> by_cases c4 : vTx = "" <;> by_cases c5 : vDestinationTag = 0 <;>
    simp only [
      Withdrawal.decode, Withdrawal.toJSON, json.decodeStruct, json.decodeFields,
      List.cons_append, List.nil_append, List.append_nil, c1, c2, c3, c4, c5, if_pos, if_neg,
      not_false_eq_true, Withdrawal_setField_ID, Withdrawal_setField_Coin,
      Withdrawal_setField_Quantity, Withdrawal_setField_NetQuantity, Withdrawal_setField_Fee,
      Withdrawal_setField_Account, Withdrawal_setField_Address, Withdrawal_setField_Status,
      Withdrawal_setField_Tx, Withdrawal_setField_DestinationTag,
      Withdrawal_setField_CreatedTimestamp, Withdrawal_setField_UpdatedTimestamp,
      json.decodeInt_num _ _ h1, json.decodeInt_num _ _ h2, json.decodeInt_num _ _ h3,
      json.decodeString, Except.map, Withdrawal.zero]

theorem Withdrawal_readsBack (o : Withdrawal) : json.ReadsBack (Withdrawal.toJSON o) := by
  unfold Withdrawal.toJSON
  refine json.readsBack_obj _ ?_
  refine json.readsBack_members_append _ _ ?_ (json.readsBack_members_cons _ _ _ (json.readsBack_str _) json.readsBack_members_nil)
  refine json.readsBack_members_append _ _ ?_ (json.readsBack_members_cons _ _ _ (json.readsBack_str _) json.readsBack_members_nil)
  refine json.readsBack_members_append _ _ ?_ (json.readsBack_members_ite _ _ (json.readsBack_members_cons _ _ _ (json.readsBack_num _) json.readsBack_members_nil))
  refine json.readsBack_members_append _ _ ?_ (json.readsBack_members_ite _ _ (json.readsBack_members_cons _ _ _ (json.readsBack_str _) json.readsBack_members_nil))
  refine json.readsBack_members_append _ _ ?_ (json.readsBack_members_cons _ _ _ (json.readsBack_num _) json.readsBack_members_nil)
  refine json.readsBack_members_append _ _ ?_ (json.readsBack_members_ite _ _ (json.readsBack_members_cons _ _ _ (json.readsBack_str _) json.readsBack_members_nil))
  refine json.readsBack_members_append _ _ ?_ (json.readsBack_members_ite _ _ (json.readsBack_members_cons _ _ _ (json.readsBack_str _) json.readsBack_members_nil))
  refine json.readsBack_members_append _ _ ?_ (json.readsBack_members_cons _ _ _ (json.readsBack_str _) json.readsBack_members_nil)
  refine json.readsBack_members_append _ _ ?_ (json.readsBack_members_ite _ _ (json.readsBack_members_cons _ _ _ (json.readsBack_str _) json.readsBack_members_nil))
  refine json.readsBack_members_append _ _ ?_ (json.readsBack_members_cons _ _ _ (json.readsBack_str _) json.readsBack_members_nil)
  refine json.readsBack_members_append _ _ ?_ (json.readsBack_members_cons _ _ _ (json.readsBack_str _) json.readsBack_members_nil)
  exact json.readsBack_members_cons _ _ _ (json.readsBack_num _) json.readsBack_members_nil

theorem listSystemMessagesResponse_decode_toJSON (o : listSystemMessagesResponse) (h : listSystemMessagesResponse.wf o = true) :
    listSystemMessagesResponse.decode (listSystemMessagesResponse.toJSON o) listSystemMessagesResponse.zero = Except.ok o := by
  obtain ⟨vMessages⟩ := o
  simp only [listSystemMessagesResponse.wf, Bool.and_eq_true] at h
  have sMessages := json.decodeSlice_encodeSlice (fun x => SystemMessage.decode x SystemMessage.zero) SystemMessage.toJSON
    vMessages (fun l hl x hx => SystemMessage_decode_toJSON x (json.sliceAll_some _ _ h l hl x hx))
  simp only [
    listSystemMessagesResponse.decode, listSystemMessagesResponse.toJSON, json.decodeStruct,
    json.decodeFields, List.cons_append, List.nil_append, List.append_nil,
    listSystemMessagesResponse_setField_Messages, sMessages, Except.map,
    listSystemMessagesResponse.zero]

theorem listSystemMessagesResponse_readsBack (o : listSystemMessagesResponse) : json.ReadsBack (listSystemMessagesResponse.toJSON o) := by
  unfold listSystemMessagesResponse.toJSON
  refine json.readsBack_obj _ ?_
  refine json.readsBack_members_cons _ _ _ (json.readsBack_encodeSlice _ _ SystemMessage_readsBack) ?_
  exact json.readsBack_members_nil

theorem listOrdersResponse_decode_toJSON (o : listOrdersResponse) (h : listOrdersResponse.wf o = true) :
    listOrdersResponse.decode (listOrdersResponse.toJSON o) listOrdersResponse.zero = Except.ok o := by
  obtain ⟨vOrders⟩ := o
  simp only [listOrdersResponse.wf, Bool.and_eq_true] at h
  have sOrders := json.decodeSlice_encodeSlice (fun x => Order.decode x Order.zero) Order.toJSON
    vOrders (fun l hl x hx => Order_decode_toJSON x (json.sliceAll_some _ _ h l hl x hx))
  simp only [
    listOrdersResponse.decode, listOrdersResponse.toJSON, json.decodeStruct, json.decodeFields,
    List.cons_append, List.nil_append, List.append_nil, listOrdersResponse_setField_Orders,
    sOrders, Except.map, listOrdersResponse.zero]

theorem listOrdersResponse_readsBack (o : listOrdersResponse) : json.ReadsBack (listOrdersResponse.toJSON o) := by
  unfold listOrdersResponse.toJSON
  refine json.readsBack_obj _ ?_
  refine json.readsBack_members_cons _ _ _ (json.readsBack_encodeSlice _ _ Order_readsBack) ?_
  exact json.readsBack_members_nil

theorem listOrderbookResponse_decode_toJSON (o : listOrderbookResponse) (h : listOrderbookResponse.wf o = true) :
    listOrderbookResponse.decode (listOrderbookResponse.toJSON o) listOrderbookResponse.zero = Except.ok o := by
  obtain ⟨vOrderbook⟩ := o
  simp only [listOrderbookResponse.wf, Bool.and_eq_true] at h
  simp only [
    listOrderbookResponse.decode, listOrderbookResponse.toJSON, json.decodeStruct,
    json.decodeFields, List.cons_append, List.nil_append, List.append_nil,
    listOrderbookResponse_setField_Orderbook, Orderbook_decode_toJSON _ h, Except.map,
    listOrderbookResponse.zero]

theorem listOrderbookResponse_readsBack (o : listOrderbookResponse) : json.ReadsBack (listOrderbookResponse.toJSON o) := by
  unfold listOrderbookResponse.toJSON
  refine json.readsBack_obj _ ?_
  refine json.readsBack_members_cons _ _ _ (Orderbook_readsBack _) ?_
  exact json.readsBack_members_nil

theorem orderResponse_decode_toJSON (o : orderResponse) (h : orderResponse.wf o = true) :
    orderResponse.decode (orderResponse.toJSON o) orderResponse.zero = Except.ok o := by
  obtain ⟨vOrder⟩ := o
  simp only [orderResponse.wf, Bool.and_eq_true] at h
  simp only [
    orderResponse.decode, orderResponse.toJSON, json.decodeStruct, json.decodeFields,
    List.cons_append, List.nil_append, List.append_nil, orderResponse_setField_Order,
    Order_decode_toJSON _ h, Except.map, orderResponse.zero]

theorem orderResponse_readsBack (o : orderResponse) : json.ReadsBack (orderResponse.toJSON o) := by
  unfold orderResponse.toJSON
  refine json.readsBack_obj _ ?_
  refine json.readsBack_members_cons _ _ _ (Order_readsBack _) ?_
  exact json.readsBack_members_nil

theorem withdrawalResponse_decode_toJSON (o : withdrawalResponse) (h : withdrawalResponse.wf o = true) :
    withdrawalResponse.decode (withdrawalResponse.toJSON o) withdrawalResponse.zero = Except.ok o := by
  obtain ⟨vWithdrawal⟩ := o
  simp only [withdrawalResponse.wf, Bool.and_eq_true] at h
  simp only [
    withdrawalResponse.decode, withdrawalResponse.toJSON, json.decodeStruct, json.decodeFields,
    List.cons_append, List.nil_append, List.append_nil, withdrawalResponse_setField_Withdrawal,
    Withdrawal_decode_toJSON _ h, Except.map, withdrawalResponse.zero]

theorem withdrawalResponse_readsBack (o : withdrawalResponse) : json.ReadsBack (withdrawalResponse.toJSON o) := by
  unfold withdrawalResponse.toJSON
  refine json.readsBack_obj _ ?_
  refine json.readsBack_members_cons _ _ _ (Withdrawal_readsBack _) ?_
  exact json.readsBack_members_nil

/-! ## Lemmas on the decoders -/

namespace json

theorem Unmarshal_invalid {α : Type} (dec : Value → α → Except String α) (data : String)
    (z : α) (h : parse data = none) : ∃ e, Unmarshal dec data z = Except.error e := by
  simp only [Unmarshal, h]
  exact ⟨_, rfl⟩

theorem Unmarshal_null {α : Type} (set : α → String → Value → Except String α) (data : String)
    (z : α) (h : parse data = some Value.null) :
    Unmarshal (decodeStruct set) data z = Except.ok z := by
  simp only [Unmarshal, h, decodeStruct]

theorem Unmarshal_not_object {α : Type} (set : α → String → Value → Except String α)
    (data : String) (z : α) (v : Value) (h : parse data = some v) (hn : v.isNull = false)
    (ho : v.isObj = false) : ∃ e, Unmarshal (decodeStruct set) data z = Except.error e := by
  simp only [Unmarshal, h]
  cases v with
  | null => simp [Value.isNull] at hn
  | obj ms => simp [Value.isObj] at ho
  | bool b => exact ⟨_, rfl⟩
  | num n => exact ⟨_, rfl⟩
  | real l => exact ⟨_, rfl⟩
  | str s => exact ⟨_, rfl⟩
  | arr xs => exact ⟨_, rfl⟩

theorem decodeFields_ignored {α : Type} (set : α → String → Value → Except String α)
    (ms : List (String × Value)) (z : α) (h : ∀ m ∈ ms, ∀ a, set a m.1 m.2 = Except.ok a) :
    decodeFields set ms z = Except.ok z := by
  induction ms with
  | nil => rfl
  | cons m t ih =>
    obtain ⟨k, v⟩ := m
    have hm := h (k, v) (by simp) z
    simp only [decodeFields, hm]
    exact ih (fun m hm a => h m (by simp [hm]) a)

theorem decodeFields_error {α : Type} (set : α → String → Value → Except String α)
    (ms : List (String × Value)) (z : α)
    (h : ∃ m ∈ ms, ∀ a, ∃ e, set a m.1 m.2 = Except.error e) :
    ∃ e, decodeFields set ms z = Except.error e := by
  induction ms generalizing z with
  | nil =>
    obtain ⟨m, hm, -⟩ := h
    cases hm
  | cons m t ih =>
    obtain ⟨k, v⟩ := m
    simp only [decodeFields]
    cases hs : set z k v with
    | error e => exact ⟨e, rfl⟩
    | ok b =>
      obtain ⟨m, hm, hbad⟩ := h
      rcases List.mem_cons.1 hm with rfl | hm
      · obtain ⟨e, he⟩ := hbad z
        rw [hs] at he
        cases he
      · exact ih b ⟨m, hm, hbad⟩

theorem decodeStruct_wrong_shape {α : Type} (set : α → String → Value → Except String α)
    (v : Value) (z : α) (hn : v.isNull = false) (ho : v.isObj = false) :
    ∃ e, decodeStruct set v z = Except.error e := by
  cases v with
  | null => simp [Value.isNull] at hn
  | obj ms => simp [Value.isObj] at ho
  | bool b => exact ⟨_, rfl⟩
  | num n => exact ⟨_, rfl⟩
  | real l => exact ⟨_, rfl⟩
  | str s => exact ⟨_, rfl⟩
  | arr xs => exact ⟨_, rfl⟩

theorem decodeSlice_wrong_shape {α : Type} (dec : Value → Except String α)
    (v : Value) (hn : v.isNull = false) (ha : v.isArr = false) :
    ∃ e, decodeSlice dec v = Except.error e := by
  cases v with
  | null => simp [Value.isNull] at hn
  | arr xs => simp [Value.isArr] at ha
  | bool b => exact ⟨_, rfl⟩
  | num n => exact ⟨_, rfl⟩
  | real l => exact ⟨_, rfl⟩
  | str s => exact ⟨_, rfl⟩
  | obj ms => exact ⟨_, rfl⟩

theorem hasMember_iff (ms : List (String × Value)) (name : String) (p : Value → Bool) :
    hasMember ms name p = true ↔ ∃ m ∈ ms, equalFold m.1 name = true ∧ p m.2 = true := by
  simp [hasMember, List.any_eq_true]

theorem hasMember_false (ms : List (String × Value)) (name : String)
    (h : hasMember ms name (fun _ => true) = false) :
    ∀ m ∈ ms, equalFold m.1 name = false := by
  intro m hm
  by_contra hc
  have he : equalFold m.1 name = true := by simpa using hc
  have : hasMember ms name (fun _ => true) = true :=
    (hasMember_iff ms name _).2 ⟨m, hm, he, rfl⟩
  rw [h] at this
  cases this

end json

/-! ## Lemmas on the operation decoders -/

namespace json

theorem Unmarshal_member_error {α : Type} (set : α → String → Value → Except String α)
    (data : String) (z : α) (ms : List (String × Value)) (h : parse data = some (Value.obj ms))
    (hm : ∃ m ∈ ms, ∀ a, ∃ e, set a m.1 m.2 = Except.error e) :
    ∃ e, Unmarshal (decodeStruct set) data z = Except.error e := by
  simp only [Unmarshal, h, decodeStruct]
  exact decodeFields_error set ms z hm

theorem Unmarshal_members_ignored {α : Type} (set : α → String → Value → Except String α)
    (data : String) (z : α) (ms : List (String × Value)) (h : parse data = some (Value.obj ms))
    (hm : ∀ m ∈ ms, ∀ a, set a m.1 m.2 = Except.ok a) :
    Unmarshal (decodeStruct set) data z = Except.ok z := by
  simp only [Unmarshal, h, decodeStruct]
  exact decodeFields_ignored set ms z hm

theorem map_error {α β : Type} (r : Except String α) (f : α → β)
    (h : ∃ e, r = Except.error e) : ∃ e, r.map f = Except.error e := by
  obtain ⟨e, rfl⟩ := h
  exact ⟨e, rfl⟩

theorem hasMember_struct (ms : List (String × Value)) (name : String)
    (h : hasMember ms name (fun v => !v.isNull && !v.isObj) = true) :
    ∃ m ∈ ms, equalFold m.1 name = true ∧ m.2.isNull = false ∧ m.2.isObj = false := by
  obtain ⟨m, hm, hk, hp⟩ := (hasMember_iff ms name _).1 h
  simp only [Bool.and_eq_true, Bool.not_eq_true'] at hp
  exact ⟨m, hm, hk, hp.1, hp.2⟩

theorem hasMember_slice (ms : List (String × Value)) (name : String)
    (h : hasMember ms name (fun v => !v.isNull && !v.isArr) = true) :
    ∃ m ∈ ms, equalFold m.1 name = true ∧ m.2.isNull = false ∧ m.2.isArr = false := by
  obtain ⟨m, hm, hk, hp⟩ := (hasMember_iff ms name _).1 h
  simp only [Bool.and_eq_true, Bool.not_eq_true'] at hp
  exact ⟨m, hm, hk, hp.1, hp.2⟩

end json

/-! ### `unmarshalOrder` -/

theorem orderResponse_decode_eq : orderResponse.decode = json.decodeStruct orderResponse.setField :=
  rfl

theorem unmarshalOrder_invalid (data : String) (h : json.parse data = none) :
    ∃ e, unmarshalOrder data = Except.error e := by
  obtain ⟨e, he⟩ := json.Unmarshal_invalid orderResponse.decode data orderResponse.zero h
  unfold unmarshalOrder
  rw [he]
  exact ⟨_, rfl⟩

theorem unmarshalOrder_not_object (data : String) (v : json.Value)
    (h : json.parse data = some v) (hn : v.isNull = false) (ho : v.isObj = false) :
    ∃ e, unmarshalOrder data = Except.error e := by
  obtain ⟨e, he⟩ := json.Unmarshal_not_object orderResponse.setField data orderResponse.zero v h hn ho
  unfold unmarshalOrder
  rw [orderResponse_decode_eq, he]
  exact ⟨_, rfl⟩

theorem unmarshalOrder_wrong_shape (data : String) (ms : List (String × json.Value))
    (h : json.parse data = some (json.Value.obj ms))
    (hm : json.hasMember ms "order" (fun v => !v.isNull && !v.isObj) = true) :
    ∃ e, unmarshalOrder data = Except.error e := by
  obtain ⟨m, hmem, hk, hn, ho⟩ := json.hasMember_struct ms "order" hm
  obtain ⟨e, he⟩ := json.Unmarshal_member_error orderResponse.setField data orderResponse.zero ms h
    ⟨m, hmem, fun a => by
      simp only [orderResponse.setField, hk, if_true]
      exact json.map_error _ _ (json.decodeStruct_wrong_shape Order.setField m.2 a.Order hn ho)⟩
  unfold unmarshalOrder
  rw [orderResponse_decode_eq, he]
  exact ⟨_, rfl⟩

theorem unmarshalOrder_null (data : String) (h : json.parse data = some json.Value.null) :
    unmarshalOrder data = Except.ok Order.zero := by
  unfold unmarshalOrder
  rw [orderResponse_decode_eq, json.Unmarshal_null orderResponse.setField data _ h]
  rfl

theorem unmarshalOrder_no_key (data : String) (ms : List (String × json.Value))
    (h : json.parse data = some (json.Value.obj ms))
    (hm : json.hasMember ms "order" (fun _ => true) = false) :
    unmarshalOrder data = Except.ok Order.zero := by
  have hi := json.Unmarshal_members_ignored orderResponse.setField data orderResponse.zero ms h
    (fun m hmem a => by
      simp only [orderResponse.setField, json.hasMember_false ms "order" hm m hmem]
      rfl)
  unfold unmarshalOrder
  rw [orderResponse_decode_eq, hi]
  rfl

/-! ### `unmarshalListOrders` -/

theorem listOrdersResponse_decode_eq : listOrdersResponse.decode = json.decodeStruct listOrdersResponse.setField :=
  rfl

theorem unmarshalListOrders_invalid (data : String) (h : json.parse data = none) :
    ∃ e, unmarshalListOrders data = Except.error e := by
  obtain ⟨e, he⟩ := json.Unmarshal_invalid listOrdersResponse.decode data listOrdersResponse.zero h
  unfold unmarshalListOrders
  rw [he]
  exact ⟨_, rfl⟩

theorem unmarshalListOrders_not_object (data : String) (v : json.Value)
    (h : json.parse data = some v) (hn : v.isNull = false) (ho : v.isObj = false) :
    ∃ e, unmarshalListOrders data = Except.error e := by
  obtain ⟨e, he⟩ := json.Unmarshal_not_object listOrdersResponse.setField data listOrdersResponse.zero v h hn ho
  unfold unmarshalListOrders
  rw [listOrdersResponse_decode_eq, he]
  exact ⟨_, rfl⟩

theorem unmarshalListOrders_wrong_shape (data : String) (ms : List (String × json.Value))
    (h : json.parse data = some (json.Value.obj ms))
    (hm : json.hasMember ms "orders" (fun v => !v.isNull && !v.isArr) = true) :
    ∃ e, unmarshalListOrders data = Except.error e := by
  obtain ⟨m, hmem, hk, hn, ho⟩ := json.hasMember_slice ms "orders" hm
  obtain ⟨e, he⟩ := json.Unmarshal_member_error listOrdersResponse.setField data listOrdersResponse.zero ms h
    ⟨m, hmem, fun a => by
      simp only [listOrdersResponse.setField, hk, if_true]
      exact json.map_error _ _ (json.decodeSlice_wrong_shape _ m.2 hn ho)⟩
  unfold unmarshalListOrders
  rw [listOrdersResponse_decode_eq, he]
  exact ⟨_, rfl⟩

theorem unmarshalListOrders_null (data : String) (h : json.parse data = some json.Value.null) :
    unmarshalListOrders data = Except.ok none := by
  unfold unmarshalListOrders
  rw [listOrdersResponse_decode_eq, json.Unmarshal_null listOrdersResponse.setField data _ h]
  rfl

theorem unmarshalListOrders_no_key (data : String) (ms : List (String × json.Value))
    (h : json.parse data = some (json.Value.obj ms))
    (hm : json.hasMember ms "orders" (fun _ => true) = false) :
    unmarshalListOrders data = Except.ok none := by
  have hi := json.Unmarshal_members_ignored listOrdersResponse.setField data listOrdersResponse.zero ms h
    (fun m hmem a => by
      simp only [listOrdersResponse.setField, json.hasMember_false ms "orders" hm m hmem]
      rfl)
  unfold unmarshalListOrders
  rw [listOrdersResponse_decode_eq, hi]
  rfl

/-! ### `unmarshalOrderbook` -/

theorem listOrderbookResponse_decode_eq : listOrderbookResponse.decode = json.decodeStruct listOrderbookResponse.setField :=
  rfl

theorem unmarshalOrderbook_invalid (data : String) (h : json.parse data = none) :
    ∃ e, unmarshalOrderbook data = Except.error e := by
  obtain ⟨e, he⟩ := json.Unmarshal_invalid listOrderbookResponse.decode data listOrderbookResponse.zero h
  unfold unmarshalOrderbook
  rw [he]
  exact ⟨_, rfl⟩

theorem unmarshalOrderbook_not_object (data : String) (v : json.Value)
    (h : json.parse data = some v) (hn : v.isNull = false) (ho : v.isObj = false) :
    ∃ e, unmarshalOrderbook data = Except.error e := by
  obtain ⟨e, he⟩ := json.Unmarshal_not_object listOrderbookResponse.setField data listOrderbookResponse.zero v h hn ho
  unfold unmarshalOrderbook
  rw [listOrderbookResponse_decode_eq, he]
  exact ⟨_, rfl⟩

theorem unmarshalOrderbook_wrong_shape (data : String) (ms : List (String × json.Value))
    (h : json.parse data = some (json.Value.obj ms))
    (hm : json.hasMember ms "orderbook" (fun v => !v.isNull && !v.isObj) = true) :
    ∃ e, unmarshalOrderbook data = Except.error e := by
  obtain ⟨m, hmem, hk, hn, ho⟩ := json.hasMember_struct ms "orderbook" hm
  obtain ⟨e, he⟩ := json.Unmarshal_member_error listOrderbookResponse.setField data listOrderbookResponse.zero ms h
    ⟨m, hmem, fun a => by
      simp only [listOrderbookResponse.setField, hk, if_true]
      exact json.map_error _ _ (json.decodeStruct_wrong_shape Orderbook.setField m.2 a.Orderbook hn ho)⟩
  unfold unmarshalOrderbook
  rw [listOrderbookResponse_decode_eq, he]
  exact ⟨_, rfl⟩

theorem unmarshalOrderbook_null (data : String) (h : json.parse data = some json.Value.null) :
    unmarshalOrderbook data = Except.ok Orderbook.zero := by
  unfold unmarshalOrderbook
  rw [listOrderbookResponse_decode_eq, json.Unmarshal_null listOrderbookResponse.setField data _ h]
  rfl

theorem unmarshalOrderbook_no_key (data : String) (ms : List (String × json.Value))
    (h : json.parse data = some (json.Value.obj ms))
    (hm : json.hasMember ms "orderbook" (fun _ => true) = false) :
    unmarshalOrderbook data = Except.ok Orderbook.zero := by
  have hi := json.Unmarshal_members_ignored listOrderbookResponse.setField data listOrderbookResponse.zero ms h
    (fun m hmem a => by
      simp only [listOrderbookResponse.setField, json.hasMember_false ms "orderbook" hm m hmem]
      rfl)
  unfold unmarshalOrderbook
  rw [listOrderbookResponse_decode_eq, hi]
  rfl

/-! ### `unmarshalWithdrawal` -/

theorem withdrawalResponse_decode_eq : withdrawalResponse.decode = json.decodeStruct withdrawalResponse.setField :=
  rfl

theorem unmarshalWithdrawal_invalid (data : String) (h : json.parse data = none) :
    ∃ e, unmarshalWithdrawal data = Except.error e := by
  obtain ⟨e, he⟩ := json.Unmarshal_invalid withdrawalResponse.decode data withdrawalResponse.zero h
  unfold unmarshalWithdrawal
  rw [he]
  exact ⟨_, rfl⟩

theorem unmarshalWithdrawal_not_object (data : String) (v : json.Value)
    (h : json.parse data = some v) (hn : v.isNull = false) (ho : v.isObj = false) :
    ∃ e, unmarshalWithdrawal data = Except.error e := by
  obtain ⟨e, he⟩ := json.Unmarshal_not_object withdrawalResponse.setField data withdrawalResponse.zero v h hn ho
  unfold unmarshalWithdrawal
  rw [withdrawalResponse_decode_eq, he]
  exact ⟨_, rfl⟩

theorem unmarshalWithdrawal_wrong_shape (data : String) (ms : List (String × json.Value))
    (h : json.parse data = some (json.Value.obj ms))
    (hm : json.hasMember ms "withdrawal" (fun v => !v.isNull && !v.isObj) = true) :
    ∃ e, unmarshalWithdrawal data = Except.error e := by
  obtain ⟨m, hmem, hk, hn, ho⟩ := json.hasMember_struct ms "withdrawal" hm
  obtain ⟨e, he⟩ := json.Unmarshal_member_error withdrawalResponse.setField data withdrawalResponse.zero ms h
    ⟨m, hmem, fun a => by
      simp only [withdrawalResponse.setField, hk, if_true]
      exact json.map_error _ _ (json.decodeStruct_wrong_shape Withdrawal.setField m.2 a.Withdrawal hn ho)⟩
  unfold unmarshalWithdrawal
  rw [withdrawalResponse_decode_eq, he]
  exact ⟨_, rfl⟩

theorem unmarshalWithdrawal_null (data : String) (h : json.parse data = some json.Value.null) :
    unmarshalWithdrawal data = Except.ok Withdrawal.zero := by
  unfold unmarshalWithdrawal
  rw [withdrawalResponse_decode_eq, json.Unmarshal_null withdrawalResponse.setField data _ h]
  rfl

theorem unmarshalWithdrawal_no_key (data : String) (ms : List (String × json.Value))
    (h : json.parse data = some (json.Value.obj ms))
    (hm : json.hasMember ms "withdrawal" (fun _ => true) = false) :
    unmarshalWithdrawal data = Except.ok Withdrawal.zero := by
  have hi := json.Unmarshal_members_ignored withdrawalResponse.setField data withdrawalResponse.zero ms h
    (fun m hmem a => by
      simp only [withdrawalResponse.setField, json.hasMember_false ms "withdrawal" hm m hmem]
      rfl)
  unfold unmarshalWithdrawal
  rw [withdrawalResponse_decode_eq, hi]
  rfl

/-! ### `unmarshalSysMsgs` -/

theorem listSystemMessagesResponse_decode_eq : listSystemMessagesResponse.decode = json.decodeStruct listSystemMessagesResponse.setField :=
  rfl

theorem unmarshalSysMsgs_invalid (data : String) (h : json.parse data = none) :
    ∃ e, unmarshalSysMsgs data = Except.error e := by
  obtain ⟨e, he⟩ := json.Unmarshal_invalid listSystemMessagesResponse.decode data listSystemMessagesResponse.zero h
  unfold unmarshalSysMsgs
  rw [he]
  exact ⟨_, rfl⟩

theorem unmarshalSysMsgs_not_object (data : String) (v : json.Value)
    (h : json.parse data = some v) (hn : v.isNull = false) (ho : v.isObj = false) :
    ∃ e, unmarshalSysMsgs data = Except.error e := by
  obtain ⟨e, he⟩ := json.Unmarshal_not_object listSystemMessagesResponse.setField data listSystemMessagesResponse.zero v h hn ho
  unfold unmarshalSysMsgs
  rw [listSystemMessagesResponse_decode_eq, he]
  exact ⟨_, rfl⟩

theorem unmarshalSysMsgs_wrong_shape (data : String) (ms : List (String × json.Value))
    (h : json.parse data = some (json.Value.obj ms))
    (hm : json.hasMember ms "messages" (fun v => !v.isNull && !v.isArr) = true) :
    ∃ e, unmarshalSysMsgs data = Except.error e := by
  obtain ⟨m, hmem, hk, hn, ho⟩ := json.hasMember_slice ms "messages" hm
  obtain ⟨e, he⟩ := json.Unmarshal_member_error listSystemMessagesResponse.setField data listSystemMessagesResponse.zero ms h
    ⟨m, hmem, fun a => by
      simp only [listSystemMessagesResponse.setField, hk, if_true]
      exact json.map_error _ _ (json.decodeSlice_wrong_shape _ m.2 hn ho)⟩
  unfold unmarshalSysMsgs
  rw [listSystemMessagesResponse_decode_eq, he]
  exact ⟨_, rfl⟩

theorem unmarshalSysMsgs_null (data : String) (h : json.parse data = some json.Value.null) :
    unmarshalSysMsgs data = Except.ok none := by
  unfold unmarshalSysMsgs
  rw [listSystemMessagesResponse_decode_eq, json.Unmarshal_null listSystemMessagesResponse.setField data _ h]
  rfl

theorem unmarshalSysMsgs_no_key (data : String) (ms : List (String × json.Value))
    (h : json.parse data = some (json.Value.obj ms))
    (hm : json.hasMember ms "messages" (fun _ => true) = false) :
    unmarshalSysMsgs data = Except.ok none := by
  have hi := json.Unmarshal_members_ignored listSystemMessagesResponse.setField data listSystemMessagesResponse.zero ms h
    (fun m hmem a => by
      simp only [listSystemMessagesResponse.setField, json.hasMember_false ms "messages" hm m hmem]
      rfl)
  unfold unmarshalSysMsgs
  rw [listSystemMessagesResponse_decode_eq, hi]
  rfl


/-- C15, refuted as stated: the payloads `{}` and `null`, which hold no wrapper
key, are decoded without error by every operation decoder, to the zero value of
the domain type or to the nil slice. -/
theorem decoders_accept_missing_key :
    (unmarshalOrder "\x7b\x7d" = Except.ok Order.zero ∧
     unmarshalListOrders "\x7b\x7d" = Except.ok none ∧
     unmarshalOrderbook "\x7b\x7d" = Except.ok Orderbook.zero ∧
     unmarshalWithdrawal "\x7b\x7d" = Except.ok Withdrawal.zero ∧
     unmarshalSysMsgs "\x7b\x7d" = Except.ok none) ∧
    (unmarshalOrder "null" = Except.ok Order.zero ∧
     unmarshalListOrders "null" = Except.ok none ∧
     unmarshalOrderbook "null" = Except.ok Orderbook.zero ∧
     unmarshalWithdrawal "null" = Except.ok Withdrawal.zero ∧
     unmarshalSysMsgs "null" = Except.ok none) :=
  ⟨⟨rfl, rfl, rfl, rfl, rfl⟩, ⟨rfl, rfl, rfl, rfl, rfl⟩⟩

/-- C15, amended: every operation decoder returns an error and no domain object
for a payload that is not valid JSON, for one that is a JSON value other than
`null` and an object, and for an object in which a member under the wrapper key
of the method holds a value of the wrong shape (for `order`, `orderbook` and
`withdrawal` a value other than `null` and an object, for `orders` and
`messages` a value other than `null` and an array); the payload `null` and an
object without the wrapper key are decoded, without error, to the zero value. -/
theorem decoders_reject_malformed (data : String) :
    (json.parse data = none →
      (∃ e, unmarshalOrder data = Except.error e) ∧
      (∃ e, unmarshalListOrders data = Except.error e) ∧
      (∃ e, unmarshalOrderbook data = Except.error e) ∧
      (∃ e, unmarshalWithdrawal data = Except.error e) ∧
      (∃ e, unmarshalSysMsgs data = Except.error e)) ∧
    (∀ v, json.parse data = some v → v.isNull = false → v.isObj = false →
      (∃ e, unmarshalOrder data = Except.error e) ∧
      (∃ e, unmarshalListOrders data = Except.error e) ∧
      (∃ e, unmarshalOrderbook data = Except.error e) ∧
      (∃ e, unmarshalWithdrawal data = Except.error e) ∧
      (∃ e, unmarshalSysMsgs data = Except.error e)) ∧
    (∀ ms, json.parse data = some (json.Value.obj ms) →
      (json.hasMember ms "order" (fun v => !v.isNull && !v.isObj) = true →
        ∃ e, unmarshalOrder data = Except.error e) ∧
      (json.hasMember ms "orders" (fun v => !v.isNull && !v.isArr) = true →
        ∃ e, unmarshalListOrders data = Except.error e) ∧
      (json.hasMember ms "orderbook" (fun v => !v.isNull && !v.isObj) = true →
        ∃ e, unmarshalOrderbook data = Except.error e) ∧
      (json.hasMember ms "withdrawal" (fun v => !v.isNull && !v.isObj) = true →
        ∃ e, unmarshalWithdrawal data = Except.error e) ∧
      (json.hasMember ms "messages" (fun v => !v.isNull && !v.isArr) = true →
        ∃ e, unmarshalSysMsgs data = Except.error e)) ∧
    (json.parse data = some json.Value.null →
      unmarshalOrder data = Except.ok Order.zero ∧
      unmarshalListOrders data = Except.ok none ∧
      unmarshalOrderbook data = Except.ok Orderbook.zero ∧
      unmarshalWithdrawal data = Except.ok Withdrawal.zero ∧
      unmarshalSysMsgs data = Except.ok none) ∧
    (∀ ms, json.parse data = some (json.Value.obj ms) →
      (json.hasMember ms "order" (fun _ => true) = false →
        unmarshalOrder data = Except.ok Order.zero) ∧
      (json.hasMember ms "orders" (fun _ => true) = false →
        unmarshalListOrders data = Except.ok none) ∧
      (json.hasMember ms "orderbook" (fun _ => true) = false →
        unmarshalOrderbook data = Except.ok Orderbook.zero) ∧
      (json.hasMember ms "withdrawal" (fun _ => true) = false →
        unmarshalWithdrawal data = Except.ok Withdrawal.zero) ∧
      (json.hasMember ms "messages" (fun _ => true) = false →
        unmarshalSysMsgs data = Except.ok none)) :=
  ⟨fun h => ⟨unmarshalOrder_invalid data h, unmarshalListOrders_invalid data h,
      unmarshalOrderbook_invalid data h, unmarshalWithdrawal_invalid data h,
      unmarshalSysMsgs_invalid data h⟩,
   fun v h hn ho => ⟨unmarshalOrder_not_object data v h hn ho,
      unmarshalListOrders_not_object data v h hn ho,
      unmarshalOrderbook_not_object data v h hn ho,
      unmarshalWithdrawal_not_object data v h hn ho,
      unmarshalSysMsgs_not_object data v h hn ho⟩,
   fun ms h => ⟨unmarshalOrder_wrong_shape data ms h, unmarshalListOrders_wrong_shape data ms h,
      unmarshalOrderbook_wrong_shape data ms h, unmarshalWithdrawal_wrong_shape data ms h,
      unmarshalSysMsgs_wrong_shape data ms h⟩,
   fun h => ⟨unmarshalOrder_null data h, unmarshalListOrders_null data h,
      unmarshalOrderbook_null data h, unmarshalWithdrawal_null data h,
      unmarshalSysMsgs_null data h⟩,
   fun ms h => ⟨unmarshalOrder_no_key data ms h, unmarshalListOrders_no_key data ms h,
      unmarshalOrderbook_no_key data ms h, unmarshalWithdrawal_no_key data ms h,
      unmarshalSysMsgs_no_key data ms h⟩⟩

/-- C15, amended, on four payloads: the text `{"order":` cut short is not JSON,
`[]` is JSON but no object, `{"order":3}` holds a number under the wrapper
key, and the decoder of orders fails on each; on `{"orders":[]}`, which has no
key `order`, it returns the zero order. -/
theorem decoders_reject_malformed_witness :
    (∃ e, unmarshalOrder "\x7b\"order\":" = Except.error e) ∧
    (∃ e, unmarshalOrder "[]" = Except.error e) ∧
    (∃ e, unmarshalOrder "\x7b\"order\":3\x7d" = Except.error e) ∧
    unmarshalOrder "\x7b\"orders\":[]\x7d" = Except.ok Order.zero :=
  ⟨((decoders_reject_malformed "\x7b\"order\":").1 rfl).1,
   ((decoders_reject_malformed "[]").2.1 (json.Value.arr []) rfl rfl rfl).1,
   ((decoders_reject_malformed "\x7b\"order\":3\x7d").2.2.1
      [("order", json.Value.num 3)] rfl).1 rfl,
   ((decoders_reject_malformed "\x7b\"orders\":[]\x7d").2.2.2.2
      [("orders", json.Value.arr [])] rfl).1 rfl⟩

/-! ## Lemmas on the round trip -/

theorem json.Unmarshal_Marshal {α : Type} (dec : json.Value → α → Except String α)
    (v : json.Value) (z a : α) (hr : json.ReadsBack v) (hd : dec v z = Except.ok a) :
    json.Unmarshal dec (json.Marshal v) z = Except.ok a := by
  simp only [json.Unmarshal, json.Marshal, json.parse_render v hr, hd]

theorem wrapped_order (v : json.Value) :
    wrapped "order" (json.Marshal v) = json.Marshal (json.Value.obj [("order", v)]) := by
  apply String.ext
  simp [wrapped, json.Marshal, json.render, json.renderMembers, json.renderString]
  rfl

theorem wrapped_orderbook (v : json.Value) :
    wrapped "orderbook" (json.Marshal v) = json.Marshal (json.Value.obj [("orderbook", v)]) := by
  apply String.ext
  simp [wrapped, json.Marshal, json.render, json.renderMembers, json.renderString]
  rfl

theorem wrapped_withdrawal (v : json.Value) :
    wrapped "withdrawal" (json.Marshal v) =
      json.Marshal (json.Value.obj [("withdrawal", v)]) := by
  apply String.ext
  simp [wrapped, json.Marshal, json.render, json.renderMembers, json.renderString]
  rfl

theorem unmarshalOrder_wrapped (o : Order) (h : Order.wf o = true) :
    unmarshalOrder (wrapped "order" (json.Marshal (Order.toJSON o))) = Except.ok o := by
  have hu := json.Unmarshal_Marshal orderResponse.decode (orderResponse.toJSON ⟨o⟩)
    orderResponse.zero ⟨o⟩ (orderResponse_readsBack ⟨o⟩) (orderResponse_decode_toJSON ⟨o⟩ h)
  rw [wrapped_order]
  simp only [unmarshalOrder]
  rw [show json.Value.obj [("order", Order.toJSON o)] = orderResponse.toJSON ⟨o⟩ from rfl, hu]

theorem unmarshalOrderbook_wrapped (o : Orderbook) (h : Orderbook.wf o = true) :
    unmarshalOrderbook (wrapped "orderbook" (json.Marshal (Orderbook.toJSON o))) =
      Except.ok o := by
  have hu := json.Unmarshal_Marshal listOrderbookResponse.decode
    (listOrderbookResponse.toJSON ⟨o⟩) listOrderbookResponse.zero ⟨o⟩
    (listOrderbookResponse_readsBack ⟨o⟩) (listOrderbookResponse_decode_toJSON ⟨o⟩ h)
  rw [wrapped_orderbook]
  simp only [unmarshalOrderbook]
  rw [show json.Value.obj [("orderbook", Orderbook.toJSON o)] =
    listOrderbookResponse.toJSON ⟨o⟩ from rfl, hu]

theorem unmarshalWithdrawal_wrapped (o : Withdrawal) (h : Withdrawal.wf o = true) :
    unmarshalWithdrawal (wrapped "withdrawal" (json.Marshal (Withdrawal.toJSON o))) =
      Except.ok o := by
  have hu := json.Unmarshal_Marshal withdrawalResponse.decode
    (withdrawalResponse.toJSON ⟨o⟩) withdrawalResponse.zero ⟨o⟩
    (withdrawalResponse_readsBack ⟨o⟩) (withdrawalResponse_decode_toJSON ⟨o⟩ h)
  rw [wrapped_withdrawal]
  simp only [unmarshalWithdrawal]
  rw [show json.Value.obj [("withdrawal", Withdrawal.toJSON o)] =
    withdrawalResponse.toJSON ⟨o⟩ from rfl, hu]

theorem unmarshalAccountInfo_Marshal (o : AccountInfo) (h : AccountInfo.wf o = true) :
    unmarshalAccountInfo (json.Marshal (AccountInfo.toJSON o)) = Except.ok o := by
  have hu := json.Unmarshal_Marshal AccountInfo.decode (AccountInfo.toJSON o)
    AccountInfo.zero o (AccountInfo_readsBack o) (AccountInfo_decode_toJSON o h)
  simp only [unmarshalAccountInfo, hu]

/-! ### The texts of `api_test.go` -/

set_option maxRecDepth 100000 in
theorem Marshal_getOrderValue : json.Marshal (Order.toJSON getOrderValue) = getOrder := by
  decide

set_option maxRecDepth 100000 in
theorem Marshal_listOrderbookValue :
    json.Marshal (Orderbook.toJSON listOrderbookValue) = listOrderbook := by
  decide

set_option maxRecDepth 100000 in
theorem Marshal_getWithdrawalValue :
    json.Marshal (Withdrawal.toJSON getWithdrawalValue) = getWithdrawal := by
  decide

set_option maxRecDepth 100000 in
theorem Marshal_withdrawCoinValue :
    json.Marshal (Withdrawal.toJSON withdrawCoinValue) = withdrawCoin := by
  decide

set_option maxRecDepth 100000 in
theorem Marshal_accInfoPartValue :
    json.Marshal (AccountInfo.toJSON accInfoPartValue) = accInfoPart := by
  decide

theorem Withdrawal.keys_toJSON (wd : Withdrawal) :
    ("net_quantity" ∈ (Withdrawal.toJSON wd).keys ↔ wd.NetQuantity ≠ "") ∧
    ("account" ∈ (Withdrawal.toJSON wd).keys ↔ wd.Account ≠ "") ∧
    ("address" ∈ (Withdrawal.toJSON wd).keys ↔ wd.Address ≠ "") ∧
    ("tx" ∈ (Withdrawal.toJSON wd).keys ↔ wd.Tx ≠ "") ∧
    ("destination_tag" ∈ (Withdrawal.toJSON wd).keys ↔ wd.DestinationTag ≠ 0) := by
  simp only [Withdrawal.toJSON, json.Value.keys, List.map_append, List.map_cons, List.map_nil,
    List.mem_append, List.mem_cons, List.mem_singleton, List.not_mem_nil, apply_ite (List.map Prod.fst)]
  refine ⟨?_, ?_, ?_, ?_, ?_⟩ <;> split_ifs <;> simp_all

/-- C16: decoding undoes serialization for the domain types. For every `Order`,
`Orderbook`, `Withdrawal` and `AccountInfo` value whose `int` fields are Go
`int`s, the decoder applied to the payload that wraps the JSON serialization of
the value under the key of the method (`order`, `orderbook`, `withdrawal`; no
key for the account information) returns that value; the serialization of what
was decoded is then the serialization that was wrapped; and the serialization
of a `Withdrawal` holds the key `net_quantity`, `account`, `address`, `tx`,
`destination_tag` exactly when that field is not empty, so that the round trip
covers the withdrawals where these keys are omitted. -/
theorem decode_undoes_serialization (o : Order) (b : Orderbook) (wd : Withdrawal)
    (a : AccountInfo) (ho : Order.wf o = true) (hb : Orderbook.wf b = true)
    (hw : Withdrawal.wf wd = true) (ha : AccountInfo.wf a = true) :
    (unmarshalOrder (wrapped "order" (json.Marshal (Order.toJSON o))) = Except.ok o ∧
     unmarshalOrderbook (wrapped "orderbook" (json.Marshal (Orderbook.toJSON b))) =
       Except.ok b ∧
     unmarshalWithdrawal (wrapped "withdrawal" (json.Marshal (Withdrawal.toJSON wd))) =
       Except.ok wd ∧
     unmarshalAccountInfo (json.Marshal (AccountInfo.toJSON a)) = Except.ok a) ∧
    ((∀ d, unmarshalOrder (wrapped "order" (json.Marshal (Order.toJSON o))) = Except.ok d →
        json.Marshal (Order.toJSON d) = json.Marshal (Order.toJSON o)) ∧
     (∀ d, unmarshalOrderbook (wrapped "orderbook" (json.Marshal (Orderbook.toJSON b))) =
        Except.ok d → json.Marshal (Orderbook.toJSON d) = json.Marshal (Orderbook.toJSON b)) ∧
     (∀ d, unmarshalWithdrawal (wrapped "withdrawal" (json.Marshal (Withdrawal.toJSON wd))) =
        Except.ok d →
        json.Marshal (Withdrawal.toJSON d) = json.Marshal (Withdrawal.toJSON wd)) ∧
     (∀ d, unmarshalAccountInfo (json.Marshal (AccountInfo.toJSON a)) = Except.ok d →
        json.Marshal (AccountInfo.toJSON d) = json.Marshal (AccountInfo.toJSON a))) ∧
    (("net_quantity" ∈ (Withdrawal.toJSON wd).keys ↔ wd.NetQuantity ≠ "") ∧
     ("account" ∈ (Withdrawal.toJSON wd).keys ↔ wd.Account ≠ "") ∧
     ("address" ∈ (Withdrawal.toJSON wd).keys ↔ wd.Address ≠ "") ∧
     ("tx" ∈ (Withdrawal.toJSON wd).keys ↔ wd.Tx ≠ "") ∧
     ("destination_tag" ∈ (Withdrawal.toJSON wd).keys ↔ wd.DestinationTag ≠ 0)) := by
  have h1 := unmarshalOrder_wrapped o ho
  have h2 := unmarshalOrderbook_wrapped b hb
  have h3 := unmarshalWithdrawal_wrapped wd hw
  have h4 := unmarshalAccountInfo_Marshal a ha
  refine ⟨⟨h1, h2, h3, h4⟩, ⟨?_, ?_, ?_, ?_⟩, Withdrawal.keys_toJSON wd⟩
  · intro d hd
    rw [h1] at hd
    cases hd
    rfl
  · intro d hd
    rw [h2] at hd
    cases hd
    rfl
  · intro d hd
    rw [h3] at hd
    cases hd
    rfl
  · intro d hd
    rw [h4] at hd
    cases hd
    rfl

/-- C16, on the texts of `api_test.go`: the order, the order book, the
digital-coin withdrawal (whose `net_quantity`, `account` and `destination_tag`
are empty and omitted) and the account information of the tests are decoded
from their payloads to the values written there, and the serialization of each
decoded value is the text it was decoded from. -/
theorem decode_undoes_serialization_witness :
    (unmarshalOrder (wrapped "order" getOrder) = Except.ok getOrderValue ∧
     unmarshalOrderbook (wrapped "orderbook" listOrderbook) = Except.ok listOrderbookValue ∧
     unmarshalWithdrawal (wrapped "withdrawal" getWithdrawal) = Except.ok getWithdrawalValue ∧
     unmarshalAccountInfo accInfoPart = Except.ok accInfoPartValue) ∧
    (∀ d, unmarshalWithdrawal (wrapped "withdrawal" getWithdrawal) = Except.ok d →
      json.Marshal (Withdrawal.toJSON d) = getWithdrawal) ∧
    ¬ "net_quantity" ∈ (Withdrawal.toJSON getWithdrawalValue).keys := by
  have h := decode_undoes_serialization getOrderValue listOrderbookValue getWithdrawalValue
    accInfoPartValue rfl rfl rfl rfl
  rw [Marshal_getOrderValue, Marshal_listOrderbookValue, Marshal_getWithdrawalValue,
    Marshal_accInfoPartValue] at h
  exact ⟨h.1, h.2.1.2.2.1, fun hk => (h.2.2.1.1 hk) rfl⟩

end Tapi
